import Mathlib

/-!
# minectl cloud drivers: GCE and Hetzner

A shallow embedding of `pgk/cloud/gce/gce.go` and `pgk/cloud/hetzner/hetzner.go`.

The drivers are sequences of calls into cloud client libraries.  A driver function is
embedded as a function from the interaction history (every call issued so far, with the
answer it got) to an exit and the list of new trace entries.  The cloud backend, the
file system, the template renderer, the remote update dispatcher and the Go runtime
(map iteration order) are a `World`: for every call, a function from the history and the
arguments to the answer.  Loops without a bound take the number of iterations they may
run as an argument and exit as `unfinished` when it is used up.
-/

namespace Minectl

/-- A Go `error` value, kept as its message. -/
abbrev Err := String

/-- How a run of a Go function ends. -/
inductive Exit (α : Type) where
  /-- the function returned, with a nil error -/
  | value (a : α)
  /-- the function returned a non-nil error -/
  | error (e : Err)
  /-- a run-time panic: nil dereference, index out of range -/
  | panic
  /-- the bound on loop iterations was reached before the function returned -/
  | unfinished
  deriving DecidableEq, Repr

/-- A run: from the history so far to the exit and the trace entries this run adds. -/
def Run (E α : Type) : Type := List E → Exit α × List E

namespace Run

variable {E α β : Type}

/-- Return `a` without touching the world. -/
def ret (a : α) : Run E α := fun _ => (Exit.value a, [])

/-- Sequencing: `f` runs after `m` only when `m` ended with a value;
this is the Go idiom `x, err := m(); if err != nil { return err }; f(x)`. -/
def andThen (m : Run E α) (f : α → Run E β) : Run E β := fun h =>
  match (m h).1 with
  | Exit.value a => ((f a (h ++ (m h).2)).1, (m h).2 ++ (f a (h ++ (m h).2)).2)
  | Exit.error e => (Exit.error e, (m h).2)
  | Exit.panic => (Exit.panic, (m h).2)
  | Exit.unfinished => (Exit.unfinished, (m h).2)

instance : Monad (Run E) where
  pure := ret
  bind := andThen

/-- One call into the world: `reply` is the answer at the current history,
`ev` the trace entry that records the call with its answer. -/
def call (reply : List E → Except Err α) (ev : Except Err α → E) : Run E α := fun h =>
  match reply h with
  | Except.ok a => (Exit.value a, [ev (Except.ok a)])
  | Except.error e => (Exit.error e, [ev (Except.error e)])

/-- A world action that cannot fail (`time.Sleep`). -/
def emit (e : E) : Run E Unit := fun _ => (Exit.value (), [e])

/-- Return the error `e`. -/
def fail (e : Err) : Run E α := fun _ => (Exit.error e, [])

/-- A run-time panic. -/
def crash : Run E α := fun _ => (Exit.panic, [])

/-- The iteration bound is used up. -/
def giveUp : Run E α := fun _ => (Exit.unfinished, [])

end Run

/-- The polling loop all five waits of the drivers share:
```go
still := true
for still {
    x, err := fetch()
    if err != nil { return err }
    if x.Status == done { still = false } else { time.Sleep(2 * time.Second) }
}
```
`fetch` yields the status of the fetched object, `none` when the client library
returned a nil object with a nil error (the dereference `x.Status` then panics). -/
def awaitStatus {E : Type} (fetch : Run E (Option String)) (done : String)
    (pause : Run E Unit) : Nat → Run E Unit
  | 0 => Run.giveUp
  | fuel + 1 => do
    let st ← fetch
    match st with
    | none => Run.crash
    | some s =>
      if s = done then pure ()
      else do
        pause
        awaitStatus fetch done pause fuel

/-- A Go `map[string]β`: entries with pairwise distinct keys.  The order of `entries`
is not observable: a `range` visits the keys in an order the runtime picks. -/
structure GoMap (β : Type) where
  entries : List (String × β)
  nodupKeys : (entries.map Prod.fst).Nodup

namespace GoMap

variable {β : Type}

instance [DecidableEq β] : DecidableEq (GoMap β) := fun a b =>
  match a, b with
  | ⟨ea, _⟩, ⟨eb, _⟩ =>
    if h : ea = eb then isTrue (by subst h; rfl)
    else isFalse (fun hab => h (congrArg GoMap.entries hab))

/-- The keys of the map. -/
def keys (m : GoMap β) : List String := m.entries.map Prod.fst

/-- Lookup `m[k]`. -/
def get? (m : GoMap β) (k : String) : Option β :=
  (m.entries.find? (fun e => e.1 = k)).map Prod.snd

/-- Store `v` under `k` in a list of entries: an entry with key `k` is overwritten. -/
def insertEntry (k : String) (v : β) : List (String × β) → List (String × β)
  | [] => [(k, v)]
  | e :: rest => if e.1 = k then (k, v) :: rest else e :: insertEntry k v rest

/-- The empty map. -/
def empty : GoMap β := ⟨[], List.nodup_nil⟩

/-- The assignment `m[k] = v`.  The keys stay distinct: a key that is present keeps its
place, a new key goes to the end. -/
def insert (m : GoMap β) (k : String) (v : β) : GoMap β :=
  ⟨insertEntry k v m.entries, by
    have hkeys : ∀ l : List (String × β), (insertEntry k v l).map Prod.fst =
        if k ∈ l.map Prod.fst then l.map Prod.fst else l.map Prod.fst ++ [k] := by
      intro l
      induction l with
      | nil => simp [insertEntry]
      | cons e rest ih =>
        by_cases h : e.1 = k
        · simp [insertEntry, h]
        · have h' : ¬ k = e.1 := fun hk => h hk.symm
          simp only [insertEntry, h, if_false, List.map_cons, ih, List.mem_cons, h', false_or]
          split <;> simp
    rw [hkeys]
    split
    · exact m.nodupKeys
    · rename_i hk
      exact List.Nodup.append m.nodupKeys (List.nodup_singleton k) (by simpa using hk)⟩

/-- A map literal with two entries, `map[string]β{k1: v1, k2: v2}`, whose keys are
run-time values: equal keys leave one entry. -/
def literal2 (k1 : String) (v1 : β) (k2 : String) (v2 : β) : GoMap β :=
  (empty.insert k1 v1).insert k2 v2

/-- The order in which one `range` over a map with keys `ks` visits them: the order
`pick` the runtime chose, when it is a rearrangement of `ks`. -/
def visitOrder (pick : List String) (ks : List String) : List String :=
  if pick.Perm ks then pick else ks

end GoMap

/-- Modelled from the spec: the package `common` is not among the sources; the spec's
scenario (`Tags:"minectl,java"`, "a fixed system tag plus the game-edition tag") gives the
value of `common.InstanceTag`. -/
def InstanceTag : String := "minectl"

/-- Modelled from the spec: `automation.ServerArgs.MinecraftServer` (package `automation`
is not among the sources), the "ServerSpec" of the spec, with the values its getters
`GetSSH`, `GetName`, `GetRegion`, `GetSize`, `GetEdition`, `GetVolumeSize` return. -/
structure MinecraftServer where
  GetSSH : String
  GetName : String
  GetRegion : String
  GetSize : String
  GetEdition : String
  GetVolumeSize : Int
  deriving DecidableEq, Repr

/-- Modelled from the spec: `automation.ServerArgs`, of which the drivers read
the field `MinecraftServer` only. -/
structure ServerArgs where
  MinecraftServer : MinecraftServer
  deriving DecidableEq, Repr

/-- Modelled from the spec: `automation.RessourceResults`, the "ResourceDescriptor" of the
spec, with the five fields the drivers fill. -/
structure RessourceResults where
  ID : String
  Name : String
  Region : String
  PublicIP : String
  Tags : String
  deriving DecidableEq, Repr

/-- Which template `GetTemplate` renders (`minctlTemplate.TemplateBash`,
`minctlTemplate.TemplateCloudConfig`). -/
inductive TemplateKind where
  | TemplateBash
  | TemplateCloudConfig
  deriving DecidableEq, Repr

/-- The Go call `strconv.Itoa`. -/
def Itoa (n : Int) : String := toString n

/-- The Go call `strconv.Atoi` with its error dropped (`n, _ := strconv.Atoi(s)`): an optional
sign and decimal digits, clamped to the 64-bit range; 0 for anything else. -/
def Atoi (s : String) : Int :=
  let body : Bool × List Char :=
    match s.data with
    | '-' :: r => (true, r)
    | '+' :: r => (false, r)
    | r => (false, r)
  if body.2 = [] ∨ ¬ body.2.all Char.isDigit = true then 0
  else
    let n : Nat := body.2.foldl (fun a c => 10 * a + (c.toNat - 48)) 0
    if body.1 then max (-(n : Int)) (-(2 ^ 63 : Int)) else min (n : Int) (2 ^ 63 - 1)

/-- The Go call `strings.Join(items, sep)`. -/
def Join (items : List String) (sep : String) : String := sep.intercalate items

/-- The loop `for _, x := range xs { body(x) }` whose body may return an error. -/
def forEach {E α : Type} (body : α → Run E Unit) : List α → Run E Unit
  | [] => pure ()
  | x :: rest => do
    body x
    forEach body rest

/-! ## The GCE driver, `pgk/cloud/gce/gce.go` -/

namespace gce

/-- The type `compute.Operation`: the fields the driver reads. -/
structure Operation where
  Name : String
  Status : String
  deriving DecidableEq, Repr

/-- The type `compute.Disk`: the fields the driver sets or reads. -/
structure Disk where
  Name : String
  SizeGb : Int
  Typ : String
  deriving DecidableEq, Repr

/-- The type `compute.AttachedDisk`; `SourceImage` is `InitializeParams.SourceImage`,
`none` without `InitializeParams`. -/
structure AttachedDisk where
  AutoDelete : Bool
  Boot : Bool
  Typ : String
  DiskSizeGb : Int
  SourceImage : Option String
  Source : String
  deriving DecidableEq, Repr

/-- The type `compute.MetadataItems`. -/
structure MetadataItems where
  Key : String
  Value : Option String
  deriving DecidableEq, Repr

/-- The type `compute.Scheduling`. -/
structure Scheduling where
  AutomaticRestart : Option Bool
  OnHostMaintenance : String
  Preemptible : Bool
  deriving DecidableEq, Repr

/-- The type `compute.AccessConfig`. -/
structure AccessConfig where
  Typ : String
  Name : String
  NatIP : String
  deriving DecidableEq, Repr

/-- The type `compute.NetworkInterface`. -/
structure NetworkInterface where
  AccessConfigs : List AccessConfig
  Network : String
  deriving DecidableEq, Repr

/-- The type `compute.ServiceAccount`. -/
structure ServiceAccount where
  Email : String
  Scopes : List String
  deriving DecidableEq, Repr

/-- The type `compute.Tags`. -/
structure Tags where
  Items : List String
  deriving DecidableEq, Repr

/-- The type `compute.Instance`: the fields `CreateServer` sets and the fields the
driver reads from a listed instance.  `Id` is a `uint64`; `Metadata`, `Scheduling` and
`Tags` are pointers. -/
structure Instance where
  Id : Nat
  Name : String
  Zone : String
  MachineType : String
  Disks : List AttachedDisk
  Metadata : Option (List MetadataItems)
  Scheduling : Option Scheduling
  NetworkInterfaces : List NetworkInterface
  ServiceAccounts : List ServiceAccount
  Labels : GoMap String
  Tags : Option Tags
  deriving DecidableEq

/-- The type `compute.Firewall`; `Allowed` keeps the `IPProtocol` of each entry. -/
structure Firewall where
  Name : String
  Description : String
  Network : String
  Allowed : List String
  SourceRanges : List String
  Direction : String
  TargetTags : List String
  deriving DecidableEq, Repr

/-- The type `oslogin.SshPublicKey`. -/
structure SshPublicKey where
  Key : String
  ExpirationTimeUsec : Int
  Name : String
  deriving DecidableEq, Repr

/-- The type `oslogin.PosixAccount`. -/
structure PosixAccount where
  Name : String
  deriving DecidableEq, Repr

/-- The type `oslogin.LoginProfile`; `SshPublicKeys` is a Go map. -/
structure LoginProfile where
  PosixAccounts : List PosixAccount
  SshPublicKeys : GoMap SshPublicKey
  deriving DecidableEq

/-- One entry of the trace of a GCE run: the call, its arguments, the answer. -/
inductive Event where
  | readFile (path : String) (reply : Except Err String)
  | importSshPublicKey (parent : String) (key : SshPublicKey) (reply : Except Err Unit)
  | disksInsert (project zone : String) (disk : Disk) (reply : Except Err Operation)
  | zoneOperationsGet (project zone operation : String) (reply : Except Err Operation)
  | getTemplate (server : MinecraftServer) (kind : TemplateKind) (reply : Except Err String)
  | instancesInsert (project zone : String) (inst : Instance) (reply : Except Err Operation)
  | firewallsInsert (project : String) (firewall : Firewall) (reply : Except Err Operation)
  | instancesList (project zone filter : String) (reply : Except Err (List Instance))
  | getLoginProfile (name : String) (reply : Except Err LoginProfile)
  | projectsDelete (name : String) (reply : Except Err Unit)
  | sshPublicKeysDelete (name : String) (reply : Except Err Unit)
  | instancesDelete (project zone name : String) (reply : Except Err Operation)
  | disksList (project zone filter : String) (reply : Except Err (List Disk))
  | disksDelete (project zone name : String) (reply : Except Err Operation)
  | firewallsList (project filter : String) (reply : Except Err (List Firewall))
  | firewallsDelete (project name : String) (reply : Except Err Operation)
  | mapRange (keys order : List String)
  | newRemoteServer (ssh ip user : String)
  | remoteUpdateServer (ssh ip user : String) (server : MinecraftServer) (reply : Except Err Unit)
  | sleep (seconds : Nat)

/-- All that answers the GCE driver: the compute and oslogin services, the file system,
the template renderer, the remote update dispatcher and the runtime's choice of map
iteration order.  Every answer may depend on the whole history. -/
structure World where
  readFile : List Event → String → Except Err String
  importSshPublicKey : List Event → String → SshPublicKey → Except Err Unit
  disksInsert : List Event → String → String → Disk → Except Err Operation
  zoneOperationsGet : List Event → String → String → String → Except Err Operation
  getTemplate : List Event → MinecraftServer → TemplateKind → Except Err String
  instancesInsert : List Event → String → String → Instance → Except Err Operation
  firewallsInsert : List Event → String → Firewall → Except Err Operation
  instancesList : List Event → String → String → String → Except Err (List Instance)
  getLoginProfile : List Event → String → Except Err LoginProfile
  projectsDelete : List Event → String → Except Err Unit
  sshPublicKeysDelete : List Event → String → Except Err Unit
  instancesDelete : List Event → String → String → String → Except Err Operation
  disksList : List Event → String → String → String → Except Err (List Disk)
  disksDelete : List Event → String → String → String → Except Err Operation
  firewallsList : List Event → String → String → Except Err (List Firewall)
  firewallsDelete : List Event → String → String → Except Err Operation
  mapOrder : List Event → List String → List String
  remoteUpdateServer :
    List Event → String → String → String → MinecraftServer → Except Err Unit

/-- The type `GCE`: the fields the driver functions read; `client`, `user` and `tmpl`
are the `World`. -/
structure GCE where
  projectID : String
  serviceAccountName : String
  serviceAccountID : String
  zone : String
  deriving DecidableEq, Repr

/-- The constant `compute.DevstorageFullControlScope`. -/
def DevstorageFullControlScope : String := "https://www.googleapis.com/auth/devstorage.full_control"

/-- The constant `compute.ComputeScope`. -/
def ComputeScope : String := "https://www.googleapis.com/auth/compute"

/-- The conversion `int(x)` of a `uint64`, on a platform with 64-bit `int`. -/
def intOfUint64 (n : Nat) : Int :=
  if n % 2 ^ 64 < 2 ^ 63 then ((n % 2 ^ 64 : Nat) : Int) else ((n % 2 ^ 64 : Nat) : Int) - 2 ^ 64

/-- The time `time.Sleep(2 * time.Second)` takes. -/
def sleep2 : Run Event Unit := Run.emit (Event.sleep 2)

/-- One `range` over a Go map with keys `ks`: the keys in the order the runtime picks. -/
def rangeKeys (w : World) (ks : List String) : Run Event (List String) := fun h =>
  (Exit.value (GoMap.visitOrder (w.mapOrder h ks) ks),
    [Event.mapRange ks (GoMap.visitOrder (w.mapOrder h ks) ks)])

/-- The status fetch of the three GCE waits:
`op, err := g.client.ZoneOperations.Get(project, zone, name).Context(..).Do()`. -/
def fetchOperation (w : World) (project zone name : String) : Run Event (Option String) := do
  let op ← Run.call (fun h => w.zoneOperationsGet h project zone name)
    (Event.zoneOperationsGet project zone name)
  pure (some op.Status)

/-- The wait of gce.go lines 99-113, 190-201 and 276-287: poll the zone operation
`name` until its status is "DONE". -/
def awaitOperation (w : World) (project zone name : String) (fuel : Nat) : Run Event Unit :=
  awaitStatus (fetchOperation w project zone name) "DONE" sleep2 fuel

/-- The instance `CreateServer` inserts (gce.go lines 120-183). -/
def newInstance (g : GCE) (args : ServerArgs) (userData : String) : Instance where
  Id := 0
  Name := args.MinecraftServer.GetName
  Zone := ""
  MachineType :=
    "zones/" ++ args.MinecraftServer.GetRegion ++ "/machineTypes/" ++ args.MinecraftServer.GetSize
  Disks := [
    ⟨true, true, "PERSISTENT", 10,
      some "projects/ubuntu-os-cloud/global/images/ubuntu-2004-focal-v20210720", ""⟩,
    ⟨false, false, "", 0, none,
      "zones/" ++ args.MinecraftServer.GetRegion ++ "/disks/" ++ args.MinecraftServer.GetName
        ++ "-vol"⟩]
  Metadata := some [⟨"enable-oslogin", some "TRUE"⟩, ⟨"startup-script", some userData⟩]
  Scheduling := some ⟨some true, "MIGRATE", false⟩
  NetworkInterfaces :=
    [⟨[⟨"ONE_TO_ONE_NAT", "External NAT", ""⟩], "/global/networks/default"⟩]
  ServiceAccounts := [⟨g.serviceAccountName, [DevstorageFullControlScope, ComputeScope]⟩]
  Labels := GoMap.empty.insert InstanceTag "true"
  Tags := some ⟨[InstanceTag, args.MinecraftServer.GetEdition]⟩

/-- The firewall rule `CreateServer` inserts (gce.go lines 203-215). -/
def newFirewall (g : GCE) (args : ServerArgs) : Firewall where
  Name := args.MinecraftServer.GetName ++ "-fw"
  Description := "Firewall rule created by minectl"
  Network := "projects/" ++ g.projectID ++ "/global/networks/default"
  Allowed := ["tcp"]
  SourceRanges := ["0.0.0.0/0"]
  Direction := "INGRESS"
  TargetTags := [InstanceTag]

/-- The descriptor the driver builds from a listed instance (gce.go lines 231-238 and
328-334); `none` when `instance.NetworkInterfaces[0].AccessConfigs[0]` is out of range
or `instance.Tags` is nil, where the Go code panics. -/
def resourceOf (inst : Instance) : Option RessourceResults :=
  match inst.NetworkInterfaces with
  | [] => none
  | ni :: _ =>
    match ni.AccessConfigs with
    | [] => none
    | ac :: _ =>
      match inst.Tags with
      | none => none
      | some tags =>
        some ⟨Itoa (intOfUint64 inst.Id), inst.Name, inst.Zone, ac.NatIP, Join tags.Items ","⟩

/-- The end of `CreateServer` (gce.go lines 229-241), on the listed items. -/
def CreateServer.result (items : List Instance) : Run Event RessourceResults :=
  match items with
  | [inst] =>
    match resourceOf inst with
    | some r => pure r
    | none => Run.crash
  | _ => Run.fail "no instances created"

/-- The function `(g *GCE) CreateServer`, gce.go lines 74-243. -/
def CreateServer (w : World) (g : GCE) (args : ServerArgs) (fuel : Nat) :
    Run Event RessourceResults := do
  let pubKeyFile ← Run.call (fun h => w.readFile h (args.MinecraftServer.GetSSH ++ ".pub"))
    (Event.readFile (args.MinecraftServer.GetSSH ++ ".pub"))
  Run.call
    (fun h => w.importSshPublicKey h ("users/" ++ g.serviceAccountName) ⟨pubKeyFile, 0, ""⟩)
    (Event.importSshPublicKey ("users/" ++ g.serviceAccountName) ⟨pubKeyFile, 0, ""⟩)
  let diskInsertOp ← Run.call
    (fun h => w.disksInsert h g.projectID args.MinecraftServer.GetRegion
      ⟨args.MinecraftServer.GetName ++ "-vol", args.MinecraftServer.GetVolumeSize,
        "zones/" ++ args.MinecraftServer.GetRegion ++ "/diskTypes/pd-standard"⟩)
    (Event.disksInsert g.projectID args.MinecraftServer.GetRegion
      ⟨args.MinecraftServer.GetName ++ "-vol", args.MinecraftServer.GetVolumeSize,
        "zones/" ++ args.MinecraftServer.GetRegion ++ "/diskTypes/pd-standard"⟩)
  awaitOperation w g.projectID args.MinecraftServer.GetRegion diskInsertOp.Name fuel
  let userData ← Run.call
    (fun h => w.getTemplate h args.MinecraftServer TemplateKind.TemplateBash)
    (Event.getTemplate args.MinecraftServer TemplateKind.TemplateBash)
  let insertInstanceOp ← Run.call
    (fun h => w.instancesInsert h g.projectID args.MinecraftServer.GetRegion
      (newInstance g args userData))
    (Event.instancesInsert g.projectID args.MinecraftServer.GetRegion
      (newInstance g args userData))
  awaitOperation w g.projectID args.MinecraftServer.GetRegion insertInstanceOp.Name fuel
  let _ ← Run.call (fun h => w.firewallsInsert h g.projectID (newFirewall g args))
    (Event.firewallsInsert g.projectID (newFirewall g args))
  let instanceListOp ← Run.call
    (fun h => w.instancesList h g.projectID args.MinecraftServer.GetRegion
      ("(name=" ++ args.MinecraftServer.GetName ++ ")"))
    (Event.instancesList g.projectID args.MinecraftServer.GetRegion
      ("(name=" ++ args.MinecraftServer.GetName ++ ")"))
  CreateServer.result instanceListOp

/-- The loop of gce.go lines 256-261 over the map `profileGetOp.SshPublicKeys`, on the
keys in the order the runtime visits them. -/
def deleteSshPublicKeys (w : World) (keys : GoMap SshPublicKey) (order : List String) :
    Run Event Unit :=
  forEach (fun k =>
    match keys.get? k with
    | some publicKey =>
      Run.call (fun h => w.sshPublicKeysDelete h publicKey.Name)
        (Event.sshPublicKeysDelete publicKey.Name)
    | none => pure ()) order

/-- The function `(g *GCE) DeleteServer`, gce.go lines 245-317. -/
def DeleteServer (w : World) (g : GCE) (id : String) (args : ServerArgs) (fuel : Nat) :
    Run Event Unit := do
  let profileGetOp ← Run.call
    (fun h => w.getLoginProfile h "users/minctl@minectl-fn.iam.gserviceaccount.com")
    (Event.getLoginProfile "users/minctl@minectl-fn.iam.gserviceaccount.com")
  forEach (fun (posixAccount : PosixAccount) =>
    Run.call (fun h => w.projectsDelete h posixAccount.Name)
      (Event.projectsDelete posixAccount.Name)) profileGetOp.PosixAccounts
  let order ← rangeKeys w profileGetOp.SshPublicKeys.keys
  deleteSshPublicKeys w profileGetOp.SshPublicKeys order
  let instancesListOp ← Run.call
    (fun h => w.instancesList h g.projectID args.MinecraftServer.GetRegion ("(id=" ++ id ++ ")"))
    (Event.instancesList g.projectID args.MinecraftServer.GetRegion ("(id=" ++ id ++ ")"))
  match instancesListOp with
    | [inst] => do
      let instanceDeleteOp ← Run.call
        (fun h => w.instancesDelete h g.projectID args.MinecraftServer.GetRegion inst.Name)
        (Event.instancesDelete g.projectID args.MinecraftServer.GetRegion inst.Name)
      awaitOperation w g.projectID args.MinecraftServer.GetRegion instanceDeleteOp.Name fuel
    | _ => pure ()
  let diskListOp ← Run.call
    (fun h => w.disksList h g.projectID args.MinecraftServer.GetRegion
      ("(name=" ++ (args.MinecraftServer.GetName ++ "-vol") ++ ")"))
    (Event.disksList g.projectID args.MinecraftServer.GetRegion
      ("(name=" ++ (args.MinecraftServer.GetName ++ "-vol") ++ ")"))
  forEach (fun (disk : Disk) => do
    let _ ← Run.call
      (fun h => w.disksDelete h g.projectID args.MinecraftServer.GetRegion disk.Name)
      (Event.disksDelete g.projectID args.MinecraftServer.GetRegion disk.Name)
    pure ()) diskListOp
  let firewallListOps ← Run.call
    (fun h => w.firewallsList h g.projectID
      ("(name=" ++ (args.MinecraftServer.GetName ++ "-fw") ++ ")"))
    (Event.firewallsList g.projectID
      ("(name=" ++ (args.MinecraftServer.GetName ++ "-fw") ++ ")"))
  forEach (fun (firewall : Firewall) => do
    let _ ← Run.call (fun h => w.firewallsDelete h g.projectID firewall.Name)
      (Event.firewallsDelete g.projectID firewall.Name)
    pure ()) firewallListOps

/-- The loop of `ListServer` (gce.go lines 326-335). -/
def ListServer.collect :
    List Instance → List RessourceResults → Run Event (List RessourceResults)
  | [], result => pure result
  | inst :: rest, result =>
    match resourceOf inst with
    | some r => ListServer.collect rest (result ++ [r])
    | none => Run.crash

/-- The function `(g *GCE) ListServer`, gce.go lines 319-337. -/
def ListServer (w : World) (g : GCE) : Run Event (List RessourceResults) := do
  let instanceListOp ← Run.call
    (fun h => w.instancesList h g.projectID g.zone ("(labels." ++ InstanceTag ++ "=true)"))
    (Event.instancesList g.projectID g.zone ("(labels." ++ InstanceTag ++ "=true)"))
  ListServer.collect instanceListOp []

/-- The function `(g *GCE) UpdateServer`, gce.go lines 339-358. -/
def UpdateServer (w : World) (g : GCE) (id : String) (args : ServerArgs) : Run Event Unit := do
  let instancesListOp ← Run.call
    (fun h => w.instancesList h g.projectID args.MinecraftServer.GetRegion ("(id=" ++ id ++ ")"))
    (Event.instancesList g.projectID args.MinecraftServer.GetRegion ("(id=" ++ id ++ ")"))
  match instancesListOp with
  | [inst] =>
    match inst.NetworkInterfaces with
    | [] => Run.crash
    | ni :: _ =>
      match ni.AccessConfigs with
      | [] => Run.crash
      | ac :: _ => do
        Run.emit (Event.newRemoteServer args.MinecraftServer.GetSSH ac.NatIP
          ("sa_" ++ g.serviceAccountID))
        Run.call
          (fun h => w.remoteUpdateServer h args.MinecraftServer.GetSSH ac.NatIP
            ("sa_" ++ g.serviceAccountID) args.MinecraftServer)
          (Event.remoteUpdateServer args.MinecraftServer.GetSSH ac.NatIP
            ("sa_" ++ g.serviceAccountID) args.MinecraftServer)
  | _ => pure ()

end gce

/-! ## The Hetzner driver, `pgk/cloud/hetzner/hetzner.go` -/

namespace hetzner

/-- The type `net.IP`, kept as the text its method `String` renders. -/
structure IP where
  text : String
  deriving DecidableEq, Repr

/-- The method `(ip net.IP) String()`. -/
def IP.String (ip : IP) : String := ip.text

/-- The type `hcloud.Location`. -/
structure Location where
  Name : String
  deriving DecidableEq, Repr

/-- The type `hcloud.Datacenter`. -/
structure Datacenter where
  Location : Location
  deriving DecidableEq, Repr

/-- The type `hcloud.ServerPublicNetIPv4`. -/
structure ServerPublicNetIPv4 where
  IP : IP
  deriving DecidableEq, Repr

/-- The type `hcloud.ServerPublicNet`. -/
structure ServerPublicNet where
  IPv4 : ServerPublicNetIPv4
  deriving DecidableEq, Repr

/-- The type `hcloud.Server`: the fields the driver reads.  The client library fills
`Datacenter` and its `Location` for every server it decodes. -/
structure Server where
  ID : Int
  Name : String
  Status : String
  Datacenter : Datacenter
  PublicNet : ServerPublicNet
  Labels : GoMap String
  deriving DecidableEq

/-- The type `hcloud.SSHKey`. -/
structure SSHKey where
  ID : Int
  Name : String
  PublicKey : String
  deriving DecidableEq, Repr

/-- The type `hcloud.Volume`. -/
structure Volume where
  ID : Int
  Name : String
  deriving DecidableEq, Repr

/-- The type `hcloud.Image`. -/
structure Image where
  ID : Int
  Name : String
  deriving DecidableEq, Repr

/-- The type `hcloud.ServerType`. -/
structure ServerType where
  ID : Int
  Name : String
  deriving DecidableEq, Repr

/-- The type `hcloud.Action`. -/
structure Action where
  ID : Int
  Status : String
  deriving DecidableEq, Repr

/-- The type `hcloud.SSHKeyCreateOpts`. -/
structure SSHKeyCreateOpts where
  Name : String
  PublicKey : String
  deriving DecidableEq, Repr

/-- The type `hcloud.VolumeCreateOpts`. -/
structure VolumeCreateOpts where
  Name : String
  Size : Int
  Location : Option Location
  Format : Option String
  deriving DecidableEq, Repr

/-- The type `hcloud.VolumeCreateResult`. -/
structure VolumeCreateResult where
  Volume : Volume
  Action : Option Action
  deriving DecidableEq, Repr

/-- The type `hcloud.ServerCreateOpts`. -/
structure ServerCreateOpts where
  Name : String
  ServerType : Option ServerType
  Image : Option Image
  Location : Option Location
  SSHKeys : List SSHKey
  Volumes : List Volume
  UserData : String
  Labels : GoMap String
  Automount : Option Bool
  deriving DecidableEq

/-- The type `hcloud.ServerCreateResult`. -/
structure ServerCreateResult where
  Server : Server
  deriving DecidableEq

/-- One entry of the trace of a Hetzner run: the call, its arguments, the answer.  A
lookup (`Get`, `GetByID`, `GetByName`) answers `none` for the nil object the client
library returns, with a nil error, when the backend has no such object.  The calls that
act on one object (`Volume.Detach`, `Volume.Delete`, `Server.Delete`, `SSHKey.Delete`)
take the object itself: the client dereferences the pointer it is given to build the
request, so on a nil pointer it panics and no call is issued.  The create calls check
their options and answer a nil option with an error. -/
inductive Event where
  | readFile (path : String) (reply : Except Err String)
  | sshKeyCreate (opts : SSHKeyCreateOpts) (reply : Except Err SSHKey)
  | locationGet (idOrName : String) (reply : Except Err (Option Location))
  | volumeCreate (opts : VolumeCreateOpts) (reply : Except Err VolumeCreateResult)
  | getTemplate (server : MinecraftServer) (kind : TemplateKind) (reply : Except Err String)
  | imageGetByName (name : String) (reply : Except Err (Option Image))
  | serverTypeGetByName (name : String) (reply : Except Err (Option ServerType))
  | serverCreate (opts : ServerCreateOpts) (reply : Except Err ServerCreateResult)
  | serverGetByID (id : Int) (reply : Except Err (Option Server))
  | volumeGet (idOrName : String) (reply : Except Err (Option Volume))
  | volumeDetach (volume : Volume) (reply : Except Err Action)
  | actionGetByID (id : Int) (reply : Except Err (Option Action))
  | volumeDelete (volume : Volume) (reply : Except Err Unit)
  | serverDelete (server : Server) (reply : Except Err Unit)
  | sshKeyGet (idOrName : String) (reply : Except Err (Option SSHKey))
  | sshKeyDelete (key : SSHKey) (reply : Except Err Unit)
  | serverAll (reply : Except Err (List Server))
  | mapRange (keys order : List String)
  | newRemoteServer (ssh ip user : String)
  | remoteUpdateServer (ssh ip user : String) (server : MinecraftServer) (reply : Except Err Unit)
  | sleep (seconds : Nat)

/-- All that answers the Hetzner driver: the hcloud client, the file system, the
template renderer, the remote update dispatcher and the runtime's choice of map
iteration order.  Every answer may depend on the whole history. -/
structure World where
  readFile : List Event → String → Except Err String
  sshKeyCreate : List Event → SSHKeyCreateOpts → Except Err SSHKey
  locationGet : List Event → String → Except Err (Option Location)
  volumeCreate : List Event → VolumeCreateOpts → Except Err VolumeCreateResult
  getTemplate : List Event → MinecraftServer → TemplateKind → Except Err String
  imageGetByName : List Event → String → Except Err (Option Image)
  serverTypeGetByName : List Event → String → Except Err (Option ServerType)
  serverCreate : List Event → ServerCreateOpts → Except Err ServerCreateResult
  serverGetByID : List Event → Int → Except Err (Option Server)
  volumeGet : List Event → String → Except Err (Option Volume)
  volumeDetach : List Event → Volume → Except Err Action
  actionGetByID : List Event → Int → Except Err (Option Action)
  volumeDelete : List Event → Volume → Except Err Unit
  serverDelete : List Event → Server → Except Err Unit
  sshKeyGet : List Event → String → Except Err (Option SSHKey)
  sshKeyDelete : List Event → SSHKey → Except Err Unit
  serverAll : List Event → Except Err (List Server)
  mapOrder : List Event → List String → List String
  remoteUpdateServer :
    List Event → String → String → String → MinecraftServer → Except Err Unit

/-- The time `time.Sleep(2 * time.Second)` takes. -/
def sleep2 : Run Event Unit := Run.emit (Event.sleep 2)

/-- One `range` over a Go map with keys `ks`: the keys in the order the runtime picks. -/
def rangeKeys (w : World) (ks : List String) : Run Event (List String) := fun h =>
  (Exit.value (GoMap.visitOrder (w.mapOrder h ks) ks),
    [Event.mapRange ks (GoMap.visitOrder (w.mapOrder h ks) ks)])

/-- The function `hetznerLabelsToTags`, hetzner.go lines 164-170: the keys of the map
in the order the `range` visits them, joined by commas. -/
def hetznerLabelsToTags (w : World) (label : GoMap String) : Run Event String := do
  let tags ← rangeKeys w label.keys
  pure (Join tags ",")

/-- The status fetch of the wait in `CreateServer` (hetzner.go line 97):
`server, _, err := h.client.Server.GetByID(ctx, server.ID)`. -/
def fetchServer (w : World) (id : Int) : Run Event (Option String) := do
  let server ← Run.call (fun h => w.serverGetByID h id) (Event.serverGetByID id)
  pure (server.map (fun s => s.Status))

/-- The wait of hetzner.go lines 94-106: poll the server until its status is "running".
The `server` the loop body declares with `:=` lives for one iteration only. -/
def awaitServer (w : World) (id : Int) (fuel : Nat) : Run Event Unit :=
  awaitStatus (fetchServer w id) "running" sleep2 fuel

/-- The status fetch of the wait in `DeleteServer` (hetzner.go line 133):
`action, _, err := h.client.Action.GetByID(ctx, res.ID)`. -/
def fetchAction (w : World) (id : Int) : Run Event (Option String) := do
  let action ← Run.call (fun h => w.actionGetByID h id) (Event.actionGetByID id)
  pure (action.map (fun a => a.Status))

/-- The wait of hetzner.go lines 131-142: poll the detach action until its status is
"success". -/
def awaitAction (w : World) (id : Int) (fuel : Nat) : Run Event Unit :=
  awaitStatus (fetchAction w id) "success" sleep2 fuel

/-- The options `CreateServer` passes to `Server.Create` (hetzner.go lines 79-89). -/
def serverCreateOpts (args : ServerArgs) (plan : Option ServerType) (image : Option Image)
    (location : Option Location) (key : SSHKey) (volume : VolumeCreateResult)
    (userData : String) : ServerCreateOpts where
  Name := args.MinecraftServer.GetName
  ServerType := plan
  Image := image
  Location := location
  SSHKeys := [key]
  Volumes := [volume.Volume]
  UserData := userData
  Labels := GoMap.literal2 InstanceTag "true" args.MinecraftServer.GetEdition "true"
  Automount := some true

/-- The function `(h *Hetzner) CreateServer`, hetzner.go lines 38-114.  The descriptor
is built from `server`, the variable of line 93. -/
def CreateServer (w : World) (args : ServerArgs) (fuel : Nat) : Run Event RessourceResults := do
  let pubKeyFile ← Run.call (fun h => w.readFile h (args.MinecraftServer.GetSSH ++ ".pub"))
    (Event.readFile (args.MinecraftServer.GetSSH ++ ".pub"))
  let key ← Run.call
    (fun h => w.sshKeyCreate h ⟨args.MinecraftServer.GetName ++ "-ssh", pubKeyFile⟩)
    (Event.sshKeyCreate ⟨args.MinecraftServer.GetName ++ "-ssh", pubKeyFile⟩)
  let location ← Run.call (fun h => w.locationGet h args.MinecraftServer.GetRegion)
    (Event.locationGet args.MinecraftServer.GetRegion)
  let volume ← Run.call
    (fun h => w.volumeCreate h ⟨args.MinecraftServer.GetName ++ "-vol",
      args.MinecraftServer.GetVolumeSize, location, some "ext4"⟩)
    (Event.volumeCreate ⟨args.MinecraftServer.GetName ++ "-vol",
      args.MinecraftServer.GetVolumeSize, location, some "ext4"⟩)
  let userData ← Run.call
    (fun h => w.getTemplate h args.MinecraftServer TemplateKind.TemplateCloudConfig)
    (Event.getTemplate args.MinecraftServer TemplateKind.TemplateCloudConfig)
  let image ← Run.call (fun h => w.imageGetByName h "ubuntu-20.04")
    (Event.imageGetByName "ubuntu-20.04")
  let plan ← Run.call (fun h => w.serverTypeGetByName h args.MinecraftServer.GetSize)
    (Event.serverTypeGetByName args.MinecraftServer.GetSize)
  let serverCreateReq ← Run.call
    (fun h => w.serverCreate h (serverCreateOpts args plan image location key volume userData))
    (Event.serverCreate (serverCreateOpts args plan image location key volume userData))
  let server := serverCreateReq.Server
  awaitServer w server.ID fuel
  let tags ← hetznerLabelsToTags w server.Labels
  pure ⟨Itoa server.ID, server.Name, server.Datacenter.Location.Name,
    server.PublicNet.IPv4.IP.String, tags⟩

/-- The function `(h *Hetzner) DeleteServer`, hetzner.go lines 116-162.  The code tests
the error of each lookup only; the object a lookup returned is passed on as it is, and
the client call that receives a nil object (`Volume.Detach` at line 127, `Volume.Delete`
at 143, `Server.Delete` at 148, `SSHKey.Delete` at 157) panics on it. -/
def DeleteServer (w : World) (id : String) (args : ServerArgs) (fuel : Nat) : Run Event Unit := do
  let serverID := Atoi id
  let server ← Run.call (fun h => w.serverGetByID h serverID) (Event.serverGetByID serverID)
  let volume ← Run.call (fun h => w.volumeGet h (args.MinecraftServer.GetName ++ "-vol"))
    (Event.volumeGet (args.MinecraftServer.GetName ++ "-vol"))
  match volume with
  | none => Run.crash
  | some volume => do
    let res ← Run.call (fun h => w.volumeDetach h volume) (Event.volumeDetach volume)
    awaitAction w res.ID fuel
    Run.call (fun h => w.volumeDelete h volume) (Event.volumeDelete volume)
    match server with
    | none => Run.crash
    | some server => do
      Run.call (fun h => w.serverDelete h server) (Event.serverDelete server)
      let key ← Run.call (fun h => w.sshKeyGet h (args.MinecraftServer.GetName ++ "-ssh"))
        (Event.sshKeyGet (args.MinecraftServer.GetName ++ "-ssh"))
      match key with
      | none => Run.crash
      | some key => Run.call (fun h => w.sshKeyDelete h key) (Event.sshKeyDelete key)

/-- The inner loop of `ListServer` (hetzner.go lines 179-189) for one server, on the
keys of its labels in the order the `range` visits them. -/
def ListServer.scanLabels (w : World) (server : Server) :
    List String → List RessourceResults → Run Event (List RessourceResults)
  | [], result => pure result
  | key :: rest, result =>
    if key = InstanceTag then do
      let tags ← hetznerLabelsToTags w server.Labels
      ListServer.scanLabels w server rest
        (result ++ [⟨Itoa server.ID, server.Name, server.Datacenter.Location.Name,
          server.PublicNet.IPv4.IP.String, tags⟩])
    else ListServer.scanLabels w server rest result

/-- The outer loop of `ListServer` (hetzner.go lines 178-190). -/
def ListServer.collect (w : World) :
    List Server → List RessourceResults → Run Event (List RessourceResults)
  | [], result => pure result
  | server :: rest, result => do
    let order ← rangeKeys w server.Labels.keys
    let result ← ListServer.scanLabels w server order result
    ListServer.collect w rest result

/-- The function `(h *Hetzner) ListServer`, hetzner.go lines 172-192. -/
def ListServer (w : World) : Run Event (List RessourceResults) := do
  let servers ← Run.call (fun h => w.serverAll h) Event.serverAll
  ListServer.collect w servers []

/-- The function `(h *Hetzner) UpdateServer`, hetzner.go lines 194-207. -/
def UpdateServer (w : World) (id : String) (args : ServerArgs) : Run Event Unit := do
  let intID := Atoi id
  let inst ← Run.call (fun h => w.serverGetByID h intID) (Event.serverGetByID intID)
  match inst with
  | none => Run.crash
  | some inst => do
    Run.emit (Event.newRemoteServer args.MinecraftServer.GetSSH inst.PublicNet.IPv4.IP.String
      "root")
    Run.call
      (fun h => w.remoteUpdateServer h args.MinecraftServer.GetSSH
        inst.PublicNet.IPv4.IP.String "root" args.MinecraftServer)
      (Event.remoteUpdateServer args.MinecraftServer.GetSSH inst.PublicNet.IPv4.IP.String
        "root" args.MinecraftServer)

end hetzner

/-! ## Vocabulary of the statements -/

/-- From history `h` on, the successive status fetches of a wait get the answers `rs`, in
order; between two fetches the trace grows by the entry of the fetch and the entry `p`
of the sleep. -/
def Answers {E R : Type} (reply : List E → Except Err R) (ev : Except Err R → E) (p : E) :
    List E → List (Except Err R) → Prop
  | _, [] => True
  | h, r :: rs => reply h = r ∧ Answers reply ev p (h ++ [ev r, p]) rs

/-- The trace of the iterations of a wait that fetched the objects `rs` and went on. -/
def pendingTrace {E R : Type} (ev : Except Err R → E) (p : E) : List R → List E
  | [] => []
  | r :: rs => ev (Except.ok r) :: p :: pendingTrace ev p rs

/-- The trace entry is a status fetch of a zone operation. -/
def gce.Event.isOperationGet : gce.Event → Bool
  | gce.Event.zoneOperationsGet _ _ _ _ => true
  | _ => false

/-- The trace entry is a status fetch of a server. -/
def hetzner.Event.isServerGet : hetzner.Event → Bool
  | hetzner.Event.serverGetByID _ _ => true
  | _ => false

/-- The trace entry is a status fetch of an action. -/
def hetzner.Event.isActionGet : hetzner.Event → Bool
  | hetzner.Event.actionGetByID _ _ => true
  | _ => false

/-! ## Worlds for the examples -/

/-- A GCE world in which every call succeeds: a zone operation is reported with the
statuses `statuses`, one for each fetch of the run in turn, and "DONE" from then on;
the listings of instances answer `listed`; there is no login profile entry, disk or
firewall. -/
def gce.scriptedWorld (statuses : List String) (listed : List gce.Instance) : gce.World where
  readFile := fun _ _ => Except.ok "ssh-ed25519 AAAA"
  importSshPublicKey := fun _ _ _ => Except.ok ()
  disksInsert := fun _ _ _ _ => Except.ok ⟨"op-disk", "RUNNING"⟩
  zoneOperationsGet := fun h _ _ name =>
    Except.ok ⟨name, statuses.getD (h.countP gce.Event.isOperationGet) "DONE"⟩
  getTemplate := fun _ _ _ => Except.ok "#!/bin/bash"
  instancesInsert := fun _ _ _ _ => Except.ok ⟨"op-instance", "RUNNING"⟩
  firewallsInsert := fun _ _ _ => Except.ok ⟨"op-firewall", "RUNNING"⟩
  instancesList := fun _ _ _ _ => Except.ok listed
  getLoginProfile := fun _ _ => Except.ok ⟨[], GoMap.empty⟩
  projectsDelete := fun _ _ => Except.ok ()
  sshPublicKeysDelete := fun _ _ => Except.ok ()
  instancesDelete := fun _ _ _ _ => Except.ok ⟨"op-delete", "RUNNING"⟩
  disksList := fun _ _ _ _ => Except.ok []
  disksDelete := fun _ _ _ _ => Except.ok ⟨"op-disk-delete", "RUNNING"⟩
  firewallsList := fun _ _ _ => Except.ok []
  firewallsDelete := fun _ _ _ => Except.ok ⟨"op-firewall-delete", "RUNNING"⟩
  mapOrder := fun _ ks => ks
  remoteUpdateServer := fun _ _ _ _ _ => Except.ok ()

/-- A Hetzner server for the examples. -/
def hetzner.exampleServer (id : Int) (name status ip : String) (labels : GoMap String) :
    hetzner.Server :=
  ⟨id, name, status, ⟨⟨"fsn1"⟩⟩, ⟨⟨⟨ip⟩⟩⟩, labels⟩

/-- A Hetzner world in which every call succeeds: `Server.Create` answers `created`; the
fetches of a server by id answer `polls`, one for each fetch of the run in turn, and
`polled` from then on; the detach action is reported with the statuses `actions`, one for
each fetch in turn, and "success" from then on; the lookups by name answer a volume and a
key when `present`, nil otherwise; `Server.All` answers `all`; a `range` over a map
visits the keys in the order `order` gives. -/
def hetzner.scriptedWorld (created : hetzner.Server) (polls : List (Option hetzner.Server))
    (polled : Option hetzner.Server) (actions : List String) (present : Bool)
    (all : List hetzner.Server) (order : List String → List String) : hetzner.World where
  readFile := fun _ _ => Except.ok "ssh-ed25519 AAAA"
  sshKeyCreate := fun _ opts => Except.ok ⟨11, opts.Name, opts.PublicKey⟩
  locationGet := fun _ name => Except.ok (some ⟨name⟩)
  volumeCreate := fun _ opts => Except.ok ⟨⟨21, opts.Name⟩, some ⟨31, "running"⟩⟩
  getTemplate := fun _ _ _ => Except.ok "#cloud-config"
  imageGetByName := fun _ name => Except.ok (some ⟨41, name⟩)
  serverTypeGetByName := fun _ name => Except.ok (some ⟨51, name⟩)
  serverCreate := fun _ _ => Except.ok ⟨created⟩
  serverGetByID := fun h _ =>
    Except.ok (polls.getD (h.countP hetzner.Event.isServerGet) polled)
  volumeGet := fun _ name => Except.ok (if present then some ⟨21, name⟩ else none)
  volumeDetach := fun _ _ => Except.ok ⟨61, "running"⟩
  actionGetByID := fun h id =>
    Except.ok (some ⟨id, actions.getD (h.countP hetzner.Event.isActionGet) "success"⟩)
  volumeDelete := fun _ _ => Except.ok ()
  serverDelete := fun _ _ => Except.ok ()
  sshKeyGet := fun _ name => Except.ok (if present then some ⟨11, name, ""⟩ else none)
  sshKeyDelete := fun _ _ => Except.ok ()
  serverAll := fun _ => Except.ok all
  mapOrder := fun _ ks => order ks
  remoteUpdateServer := fun _ _ _ _ _ => Except.ok ()

/-- A Hetzner world whose server is reported "initializing", then "starting", then
"running". -/
def hetzner.bootingWorld : hetzner.World :=
  hetzner.scriptedWorld (hetzner.exampleServer 1 "srv1" "initializing" "" GoMap.empty)
    [some (hetzner.exampleServer 1 "srv1" "initializing" "" GoMap.empty),
      some (hetzner.exampleServer 1 "srv1" "starting" "" GoMap.empty)]
    (some (hetzner.exampleServer 1 "srv1" "running" "" GoMap.empty)) [] true [] id

/-- A Hetzner world that holds the volume and the key but no server (every fetch of a
server by id answers nil), and whose detach action is reported with the statuses
`actions`, then "success". -/
def hetzner.detachingWorld (actions : List String) : hetzner.World :=
  hetzner.scriptedWorld (hetzner.exampleServer 1 "srv1" "running" "" GoMap.empty) [] none
    actions true [] id

/-- The server spec of the scenario of the spec: name "srv1", region "fsn1", volume
size 20, edition "java". -/
def exampleArgs : ServerArgs :=
  ⟨⟨"/home/user/.ssh/minecraft", "srv1", "fsn1", "cx21", "java", 20⟩⟩

/-- The labels `CreateServer` sets for `exampleArgs`. -/
def hetzner.exampleLabels : GoMap String := GoMap.literal2 InstanceTag "true" "java" "true"

/-- A Hetzner world whose `Server.Create` answers the server while it is initializing,
without a public address yet, and whose fetches by id answer it as initializing once and
then as running with the address 203.0.113.5. -/
def hetzner.lateAddressWorld : hetzner.World :=
  hetzner.scriptedWorld
    (hetzner.exampleServer 1 "srv1" "initializing" "<nil>" hetzner.exampleLabels)
    [some (hetzner.exampleServer 1 "srv1" "initializing" "<nil>" hetzner.exampleLabels)]
    (some (hetzner.exampleServer 1 "srv1" "running" "203.0.113.5" hetzner.exampleLabels))
    [] true [] id

/-- Every entry a run of `m` adds to the trace satisfies `T`, whatever the history. -/
def Run.Emits {E α : Type} (m : Run E α) (T : E → Prop) : Prop :=
  ∀ h, ∀ e ∈ (m h).2, T e

/-- Whatever the history, `m` ends with a value that satisfies `Q`, and every entry it
adds to the trace satisfies `T`. -/
def Run.Yields {E α : Type} (m : Run E α) (Q : α → Prop) (T : E → Prop) : Prop :=
  ∀ h, (∃ a, (m h).1 = Exit.value a ∧ Q a) ∧ ∀ e ∈ (m h).2, T e

/-- The trace entry constructs or runs the remote update dispatcher. -/
def gce.Event.isRemoteUpdate : gce.Event → Bool
  | gce.Event.newRemoteServer _ _ _ => true
  | gce.Event.remoteUpdateServer _ _ _ _ _ => true
  | _ => false

/-- The trace entry constructs or runs the remote update dispatcher. -/
def hetzner.Event.isRemoteUpdate : hetzner.Event → Bool
  | hetzner.Event.newRemoteServer _ _ _ => true
  | hetzner.Event.remoteUpdateServer _ _ _ _ _ => true
  | _ => false

/-- The GCE object of the examples. -/
def gce.exampleGCE : gce.GCE :=
  ⟨"minectl-project", "minectl@example.iam", "1234", "europe-west6-a"⟩

/-- A Hetzner world that holds nothing: every lookup answers nil, and a call on an object
the backend does not hold fails. -/
def hetzner.emptyWorld : hetzner.World where
  readFile := fun _ _ => Except.ok "ssh-ed25519 AAAA"
  sshKeyCreate := fun _ opts => Except.ok ⟨11, opts.Name, opts.PublicKey⟩
  locationGet := fun _ _ => Except.ok none
  volumeCreate := fun _ opts => Except.ok ⟨⟨21, opts.Name⟩, some ⟨31, "running"⟩⟩
  getTemplate := fun _ _ _ => Except.ok "#cloud-config"
  imageGetByName := fun _ _ => Except.ok none
  serverTypeGetByName := fun _ _ => Except.ok none
  serverCreate := fun _ _ => Except.error "server limit reached"
  serverGetByID := fun _ _ => Except.ok none
  volumeGet := fun _ _ => Except.ok none
  volumeDetach := fun _ _ => Except.error "hcloud: volume not found"
  actionGetByID := fun _ _ => Except.ok none
  volumeDelete := fun _ _ => Except.error "hcloud: volume not found"
  serverDelete := fun _ _ => Except.error "hcloud: server not found"
  sshKeyGet := fun _ _ => Except.ok none
  sshKeyDelete := fun _ _ => Except.error "hcloud: ssh key not found"
  serverAll := fun _ => Except.ok []
  mapOrder := fun _ ks => ks
  remoteUpdateServer := fun _ _ _ _ _ => Except.ok ()

/-- A Hetzner world whose fetch of a server by id fails with an error. -/
def hetzner.failingLookupWorld : hetzner.World :=
  { hetzner.emptyWorld with
    serverGetByID := fun _ _ => Except.error "hcloud: server responded with status code 500" }

/-- The trace entry deletes an instance, a disk or a firewall rule, or fetches the status
of a zone operation (in `DeleteServer`: of the instance delete). -/
def gce.Event.isDelete : gce.Event → Bool
  | gce.Event.instancesDelete _ _ _ _ => true
  | gce.Event.disksDelete _ _ _ _ => true
  | gce.Event.firewallsDelete _ _ _ => true
  | gce.Event.zoneOperationsGet _ _ _ _ => true
  | _ => false

/-- The names under which a GCE trace entry may create auxiliary resources of the server
named `n`: a disk as `n-vol`, a firewall rule as `n-fw`. -/
def gce.Event.createsAs (n : String) : gce.Event → Prop
  | gce.Event.disksInsert _ _ disk _ => disk.Name = n ++ "-vol"
  | gce.Event.firewallsInsert _ firewall _ => firewall.Name = n ++ "-fw"
  | _ => True

/-- The names by which a GCE trace entry may look up auxiliary resources of the server
named `n`: disks by the filter `(name=n-vol)`, firewall rules by `(name=n-fw)`. -/
def gce.Event.findsAs (n : String) : gce.Event → Prop
  | gce.Event.disksList _ _ filter _ => filter = "(name=" ++ (n ++ "-vol") ++ ")"
  | gce.Event.firewallsList _ filter _ => filter = "(name=" ++ (n ++ "-fw") ++ ")"
  | _ => True

/-- The names under which a Hetzner trace entry may create auxiliary resources of the
server named `n`: a volume as `n-vol`, an SSH key as `n-ssh`. -/
def hetzner.Event.createsAs (n : String) : hetzner.Event → Prop
  | hetzner.Event.volumeCreate opts _ => opts.Name = n ++ "-vol"
  | hetzner.Event.sshKeyCreate opts _ => opts.Name = n ++ "-ssh"
  | _ => True

/-- The names by which a Hetzner trace entry may look up auxiliary resources of the
server named `n`: the volume as `n-vol`, the SSH key as `n-ssh`. -/
def hetzner.Event.findsAs (n : String) : hetzner.Event → Prop
  | hetzner.Event.volumeGet idOrName _ => idOrName = n ++ "-vol"
  | hetzner.Event.sshKeyGet idOrName _ => idOrName = n ++ "-ssh"
  | _ => True

/-- Cut the last `k` characters off `s`. -/
def stripSuffix (s : String) (k : Nat) : String := ⟨s.data.take (s.data.length - k)⟩

/-- Every run of `m` that ends with a value added an entry that satisfies `P`. -/
def Run.Reaches {E α : Type} (m : Run E α) (P : E → Prop) : Prop :=
  ∀ h a, (m h).1 = Exit.value a → ∃ e ∈ (m h).2, P e

/-- The trace entry inserts a disk. -/
def gce.Event.isDisksInsert : gce.Event → Bool
  | gce.Event.disksInsert _ _ _ _ => true
  | _ => false

/-- The trace entry inserts a firewall rule. -/
def gce.Event.isFirewallsInsert : gce.Event → Bool
  | gce.Event.firewallsInsert _ _ _ => true
  | _ => false

/-- The trace entry creates a volume. -/
def hetzner.Event.isVolumeCreate : hetzner.Event → Bool
  | hetzner.Event.volumeCreate _ _ => true
  | _ => false

/-- The trace entry creates an SSH key. -/
def hetzner.Event.isSshKeyCreate : hetzner.Event → Bool
  | hetzner.Event.sshKeyCreate _ _ => true
  | _ => false

/-- The descriptor `d` describes the Hetzner server `s`: id, name, location and address
are those of `s`, the tags are the label keys of `s`, in some order, joined by commas. -/
def hetzner.Describes (d : RessourceResults) (s : hetzner.Server) : Prop :=
  d.ID = Itoa s.ID ∧ d.Name = s.Name ∧ d.Region = s.Datacenter.Location.Name ∧
    d.PublicIP = s.PublicNet.IPv4.IP.String ∧
    ∃ order : List String, order.Perm s.Labels.keys ∧ d.Tags = Join order ","

/-- The labels of the server contain the system tag as a key. -/
def hetzner.Server.isTagged (s : hetzner.Server) : Bool := decide (InstanceTag ∈ s.Labels.keys)

/-- Three servers at the backend: two carry the system tag, one does not. -/
def hetzner.threeServers : List hetzner.Server :=
  [hetzner.exampleServer 1 "srv1" "running" "203.0.113.5" hetzner.exampleLabels,
    hetzner.exampleServer 2 "database" "running" "203.0.113.6"
      (GoMap.empty.insert "role" "database"),
    hetzner.exampleServer 3 "srv3" "running" "203.0.113.7"
      (GoMap.literal2 InstanceTag "true" "bedrock" "true")]

/-- A Hetzner world that holds the three servers of `threeServers`. -/
def hetzner.threeServersWorld : hetzner.World :=
  hetzner.scriptedWorld (hetzner.exampleServer 1 "srv1" "running" "203.0.113.5"
    hetzner.exampleLabels) [] none [] true hetzner.threeServers id

/-- The trace entry lists instances. -/
def gce.Event.isInstancesList : gce.Event → Bool
  | gce.Event.instancesList _ _ _ _ => true
  | _ => false

/-- In every run of `m` that lists the instances of `project` and `zone` by `filter`, the
listing is issued once, it is the last entry of the trace, and its answer decides the
exit: the error of the listing, the error "no instances created" for a number of items
other than one, the descriptor of the item for one item that has a descriptor. -/
def gce.ListingDecides (project zone filter : String) (m : Run gce.Event RessourceResults) :
    Prop :=
  ∀ h reply, gce.Event.instancesList project zone filter reply ∈ (m h).2 →
    (m h).2.countP gce.Event.isInstancesList = 1 ∧
    (m h).2.getLast? = some (gce.Event.instancesList project zone filter reply) ∧
    (∀ e, reply = Except.error e → (m h).1 = Exit.error e) ∧
    (∀ items, reply = Except.ok items → items.length ≠ 1 →
      (m h).1 = Exit.error "no instances created") ∧
    (∀ inst d, reply = Except.ok [inst] → gce.resourceOf inst = some d →
      (m h).1 = Exit.value d)

/-- The instance `CreateServer` inserts for `args`, as the backend lists it once it
runs: it has an id, its zone and the public address `ip`. -/
def gce.runningInstance (g : gce.GCE) (args : ServerArgs) (ip : String) : gce.Instance :=
  { gce.newInstance g args "#!/bin/bash" with
    Id := 4711
    Zone := args.MinecraftServer.GetRegion
    NetworkInterfaces :=
      [⟨[⟨"ONE_TO_ONE_NAT", "External NAT", ip⟩], "/global/networks/default"⟩] }

/-- A GCE world whose listings answer the one running instance of the scenario. -/
def gce.oneListedWorld : gce.World :=
  gce.scriptedWorld ["PENDING"] [gce.runningInstance gce.exampleGCE exampleArgs "203.0.113.5"]

/-- A GCE world whose listings answer no instance. -/
def gce.noneListedWorld : gce.World := gce.scriptedWorld ["PENDING"] []

/-- A GCE world whose listings answer two instances. -/
def gce.twoListedWorld : gce.World :=
  gce.scriptedWorld ["PENDING"] [gce.runningInstance gce.exampleGCE exampleArgs "203.0.113.5",
    gce.runningInstance gce.exampleGCE exampleArgs "203.0.113.6"]

/-- In every trace of `m`, an entry `x` that satisfies `B` comes after what `G` asks for:
`G pre x` holds of the part `pre` of the trace before `x`. -/
def Run.After {E α : Type} (m : Run E α) (B : E → Prop) (G : List E → E → Prop) : Prop :=
  ∀ h pre x suf, (m h).2 = pre ++ x :: suf → B x → G pre x

/-- The trace entry inserts an instance. -/
def gce.Event.isInstancesInsert : gce.Event → Bool
  | gce.Event.instancesInsert _ _ _ _ => true
  | _ => false

/-- The trace entry creates a server. -/
def hetzner.Event.isServerCreate : hetzner.Event → Bool
  | hetzner.Event.serverCreate _ _ => true
  | _ => false

/-- The volumes a `Server.Create` entry attaches. -/
def hetzner.Event.attachedVolumes : hetzner.Event → List hetzner.Volume
  | hetzner.Event.serverCreate opts _ => opts.Volumes
  | _ => []

/-- The part `pre` of a GCE trace holds a status fetch of the zone operation `name` that
was answered with the status "DONE". -/
def gce.OperationDone (project zone name : String) (pre : List gce.Event) : Prop :=
  ∃ done : gce.Operation,
    gce.Event.zoneOperationsGet project zone name (Except.ok done) ∈ pre ∧ done.Status = "DONE"

/-- The part `pre` of a GCE trace holds the insert of the disk `n-vol`, answered with an
operation, and a status fetch of that operation answered with the status "DONE". -/
def gce.VolumeReady (project zone n : String) (pre : List gce.Event) : Prop :=
  ∃ (disk : gce.Disk) (diskOp : gce.Operation),
    gce.Event.disksInsert project zone disk (Except.ok diskOp) ∈ pre ∧
    disk.Name = n ++ "-vol" ∧ gce.OperationDone project zone diskOp.Name pre

/-- The part `pre` of a Hetzner trace holds the creation of the volume `n-vol`, answered
without error, and the `Server.Create` entry `x` attaches the volume of that answer. -/
def hetzner.VolumeCreated (n : String) (pre : List hetzner.Event) (x : hetzner.Event) : Prop :=
  ∃ (opts : hetzner.VolumeCreateOpts) (res : hetzner.VolumeCreateResult),
    hetzner.Event.volumeCreate opts (Except.ok res) ∈ pre ∧ opts.Name = n ++ "-vol" ∧
    x.attachedVolumes = [res.Volume]

/-- Every run of `m` that ends with a value `a` and the trace `tr` has `P a tr`. -/
def Run.Returns {E α : Type} (m : Run E α) (P : α → List E → Prop) : Prop :=
  ∀ h a, (m h).1 = Exit.value a → P a (m h).2

/-- The trace `tr` holds a `Server.Create` answered with a server that `d` describes. -/
def hetzner.DescribesCreated (d : RessourceResults) (tr : List hetzner.Event) : Prop :=
  ∃ (opts : hetzner.ServerCreateOpts) (s : hetzner.Server),
    hetzner.Event.serverCreate opts (Except.ok ⟨s⟩) ∈ tr ∧ hetzner.Describes d s

/-- The server the backend stub of the scenario returns: named `n`, at location `r`, with
the public address `p` and the labels `CreateServer` sets for the edition `e`. -/
def hetzner.IsStub (n r p e : String) (s : hetzner.Server) : Prop :=
  s.Name = n ∧ s.Datacenter.Location.Name = r ∧ s.PublicNet.IPv4.IP.String = p ∧
    s.Labels = GoMap.literal2 InstanceTag "true" e "true"

/-- A Hetzner world like `lateAddressWorld` but for the instance every answer carries,
running with its address from the start, and for the runtime, which visits the keys of a
map in the reverse of the order of `entries`. -/
def hetzner.reversedWorld : hetzner.World :=
  hetzner.scriptedWorld
    (hetzner.exampleServer 1 "srv1" "running" "203.0.113.5" hetzner.exampleLabels) []
    (some (hetzner.exampleServer 1 "srv1" "running" "203.0.113.5" hetzner.exampleLabels))
    [] true [] List.reverse

/-- A Hetzner world like `reversedWorld` whose runtime visits the keys of a map in the
order of `entries`. -/
def hetzner.orderedWorld : hetzner.World :=
  hetzner.scriptedWorld
    (hetzner.exampleServer 1 "srv1" "running" "203.0.113.5" hetzner.exampleLabels) []
    (some (hetzner.exampleServer 1 "srv1" "running" "203.0.113.5" hetzner.exampleLabels))
    [] true [] id

/-- The trace of the Hetzner `CreateServer` for `exampleArgs` in `orderedWorld`. -/
def hetzner.orderedTrace : List hetzner.Event :=
  [hetzner.Event.readFile "/home/user/.ssh/minecraft.pub" (Except.ok "ssh-ed25519 AAAA"),
    hetzner.Event.sshKeyCreate ⟨"srv1-ssh", "ssh-ed25519 AAAA"⟩
      (Except.ok ⟨11, "srv1-ssh", "ssh-ed25519 AAAA"⟩),
    hetzner.Event.locationGet "fsn1" (Except.ok (some ⟨"fsn1"⟩)),
    hetzner.Event.volumeCreate ⟨"srv1-vol", 20, some ⟨"fsn1"⟩, some "ext4"⟩
      (Except.ok ⟨⟨21, "srv1-vol"⟩, some ⟨31, "running"⟩⟩),
    hetzner.Event.getTemplate exampleArgs.MinecraftServer TemplateKind.TemplateCloudConfig
      (Except.ok "#cloud-config"),
    hetzner.Event.imageGetByName "ubuntu-20.04" (Except.ok (some ⟨41, "ubuntu-20.04"⟩)),
    hetzner.Event.serverTypeGetByName "cx21" (Except.ok (some ⟨51, "cx21"⟩)),
    hetzner.Event.serverCreate
      (hetzner.serverCreateOpts exampleArgs (some ⟨51, "cx21"⟩) (some ⟨41, "ubuntu-20.04"⟩)
        (some ⟨"fsn1"⟩) ⟨11, "srv1-ssh", "ssh-ed25519 AAAA"⟩
        ⟨⟨21, "srv1-vol"⟩, some ⟨31, "running"⟩⟩ "#cloud-config")
      (Except.ok
        ⟨hetzner.exampleServer 1 "srv1" "running" "203.0.113.5" hetzner.exampleLabels⟩),
    hetzner.Event.serverGetByID 1 (Except.ok
      (some (hetzner.exampleServer 1 "srv1" "running" "203.0.113.5" hetzner.exampleLabels))),
    hetzner.Event.mapRange ["minectl", "java"] ["minectl", "java"]]

/-- The trace `tr` of a GCE teardown of the server named `n` holds the listing of the
disks by the filter `(name=n-vol)` and the delete of every disk the listing answered, and
the listing of the firewall rules by `(name=n-fw)` and the delete of every rule the
listing answered. -/
def gce.FindsAndDeletes (project zone n : String) (tr : List gce.Event) : Prop :=
  ∃ (disks : List gce.Disk) (firewalls : List gce.Firewall),
    gce.Event.disksList project zone ("(name=" ++ (n ++ "-vol") ++ ")") (Except.ok disks)
      ∈ tr ∧
    (∀ disk ∈ disks,
      ∃ op, gce.Event.disksDelete project zone disk.Name (Except.ok op) ∈ tr) ∧
    gce.Event.firewallsList project ("(name=" ++ (n ++ "-fw") ++ ")") (Except.ok firewalls)
      ∈ tr ∧
    (∀ firewall ∈ firewalls,
      ∃ op, gce.Event.firewallsDelete project firewall.Name (Except.ok op) ∈ tr)

/-- The trace `tr` holds the lookup of the SSH key `n-ssh` and the delete of the key the
lookup found. -/
def hetzner.FindsAndDeletesKey (n : String) (tr : List hetzner.Event) : Prop :=
  ∃ key : hetzner.SSHKey,
    hetzner.Event.sshKeyGet (n ++ "-ssh") (Except.ok (some key)) ∈ tr ∧
    hetzner.Event.sshKeyDelete key (Except.ok ()) ∈ tr

/-- The trace `tr` of a Hetzner teardown of the server named `n` holds the lookup of the
volume `n-vol`, the detach and the delete of the volume the lookup found, and the lookup
of the SSH key `n-ssh` and the delete of the key the lookup found. -/
def hetzner.FindsAndDeletes (n : String) (tr : List hetzner.Event) : Prop :=
  (∃ volume : hetzner.Volume,
    hetzner.Event.volumeGet (n ++ "-vol") (Except.ok (some volume)) ∈ tr ∧
    (∃ action, hetzner.Event.volumeDetach volume (Except.ok action) ∈ tr) ∧
    hetzner.Event.volumeDelete volume (Except.ok ()) ∈ tr) ∧
  hetzner.FindsAndDeletesKey n tr

/-- A GCE world that holds the instance of the scenario, its disk and its firewall
rule. -/
def gce.populatedWorld : gce.World :=
  { gce.oneListedWorld with
    disksList := fun _ _ _ _ => Except.ok [⟨"srv1-vol", 20, "zones/fsn1/diskTypes/pd-standard"⟩]
    firewallsList := fun _ _ _ => Except.ok [gce.newFirewall gce.exampleGCE exampleArgs] }

/-- The instance of the scenario as a backend lists it without its tags (`Tags` is a nil
pointer). -/
def gce.untaggedInstance : gce.Instance :=
  { gce.runningInstance gce.exampleGCE exampleArgs "203.0.113.5" with Tags := none }

/-- The instance of the scenario as a backend lists it without an external address: its
network interface has no access config. -/
def gce.internalInstance : gce.Instance :=
  { gce.runningInstance gce.exampleGCE exampleArgs "203.0.113.5" with
    NetworkInterfaces := [⟨[], "/global/networks/default"⟩] }

/-- A GCE world whose listings answer the one instance `untaggedInstance`. -/
def gce.untaggedListedWorld : gce.World :=
  gce.scriptedWorld ["PENDING"] [gce.untaggedInstance]

/-- A GCE world whose listings answer the one instance `internalInstance`. -/
def gce.internalListedWorld : gce.World :=
  gce.scriptedWorld ["PENDING"] [gce.internalInstance]

/-- The answer of the trace entry `ev`, when it carries a server (the answer of
`Server.Create`, a non-nil answer of `Server.GetByID`), reports the server with the name
`n`, the location `r`, the public address `p` and the labels `CreateServer` sets for the
edition `e`. -/
def hetzner.Event.answersStub (n r p e : String) : hetzner.Event → Prop
  | hetzner.Event.serverCreate _ (Except.ok created) => hetzner.IsStub n r p e created.Server
  | hetzner.Event.serverGetByID _ (Except.ok (some server)) => hetzner.IsStub n r p e server
  | _ => True

/-! ## Runs: basic facts -/

namespace Run

variable {E α β : Type}

theorem bind_apply (m : Run E α) (f : α → Run E β) (h : List E) :
    (m >>= f) h = andThen m f h := rfl

theorem pure_apply (a : α) (h : List E) : (pure a : Run E α) h = (Exit.value a, []) := rfl

theorem bind_value (m : Run E α) (f : α → Run E β) (h : List E) (a : α) (d : List E)
    (hm : m h = (Exit.value a, d)) :
    (m >>= f) h = ((f a (h ++ d)).1, d ++ (f a (h ++ d)).2) := by
  simp [bind_apply, andThen, hm]

theorem bind_error (m : Run E α) (f : α → Run E β) (h : List E) (e : Err) (d : List E)
    (hm : m h = (Exit.error e, d)) : (m >>= f) h = (Exit.error e, d) := by
  simp [bind_apply, andThen, hm]

theorem bind_panic (m : Run E α) (f : α → Run E β) (h : List E) (d : List E)
    (hm : m h = (Exit.panic, d)) : (m >>= f) h = (Exit.panic, d) := by
  simp [bind_apply, andThen, hm]

theorem bind_unfinished (m : Run E α) (f : α → Run E β) (h : List E) (d : List E)
    (hm : m h = (Exit.unfinished, d)) : (m >>= f) h = (Exit.unfinished, d) := by
  simp [bind_apply, andThen, hm]

theorem call_ok (reply : List E → Except Err α) (ev : Except Err α → E) (h : List E) (a : α)
    (hr : reply h = Except.ok a) : call reply ev h = (Exit.value a, [ev (Except.ok a)]) := by
  simp [call, hr]

theorem call_error (reply : List E → Except Err α) (ev : Except Err α → E) (h : List E)
    (e : Err) (hr : reply h = Except.error e) :
    call reply ev h = (Exit.error e, [ev (Except.error e)]) := by
  simp [call, hr]

/-- The trace of a call is the one entry that records it with its answer. -/
theorem call_trace (reply : List E → Except Err α) (ev : Except Err α → E) (h : List E) :
    (call reply ev h).2 = [ev (reply h)] := by
  unfold call
  cases reply h <;> rfl

end Run

/-! ## The polling loop -/

section Await

variable {E R : Type}

/-- A fetch of the shape the five waits use: one call, then the status of the answer. -/
theorem fetch_apply (reply : List E → Except Err R) (ev : Except Err R → E)
    (status : R → Option String) (h : List E) :
    (Run.call reply ev >>= fun r => pure (status r)) h =
      match reply h with
      | Except.ok r => (Exit.value (status r), [ev (Except.ok r)])
      | Except.error e => (Exit.error e, [ev (Except.error e)]) := by
  cases hr : reply h with
  | ok r => simp [Run.bind_value _ _ h r _ (Run.call_ok reply ev h r hr), Run.pure_apply]
  | error e => simp [Run.bind_error _ _ h e _ (Run.call_error reply ev h e hr)]

theorem awaitStatus_zero (fetch : Run E (Option String)) (done : String) (pause : Run E Unit)
    (h : List E) : awaitStatus fetch done pause 0 h = (Exit.unfinished, []) := rfl

theorem awaitStatus_done (fetch : Run E (Option String)) (done : String) (pause : Run E Unit)
    (fuel : Nat) (h d : List E) (hf : fetch h = (Exit.value (some done), d)) :
    awaitStatus fetch done pause (fuel + 1) h = (Exit.value (), d) := by
  simp [awaitStatus, Run.bind_value _ _ h _ _ hf, Run.pure_apply]

theorem awaitStatus_pending (fetch : Run E (Option String)) (done : String) (p : E)
    (fuel : Nat) (h d : List E) (s : String) (hf : fetch h = (Exit.value (some s), d))
    (hs : s ≠ done) :
    awaitStatus fetch done (Run.emit p) (fuel + 1) h =
      ((awaitStatus fetch done (Run.emit p) fuel (h ++ (d ++ [p]))).1,
        d ++ (p :: (awaitStatus fetch done (Run.emit p) fuel (h ++ (d ++ [p]))).2)) := by
  have hp : ∀ k : List E, (Run.emit p : Run E Unit) k = (Exit.value (), [p]) := fun _ => rfl
  simp [awaitStatus, Run.bind_value _ _ h _ _ hf, hs, Run.bind_value _ _ _ _ _ (hp _)]

theorem awaitStatus_error (fetch : Run E (Option String)) (done : String) (pause : Run E Unit)
    (fuel : Nat) (h d : List E) (e : Err) (hf : fetch h = (Exit.error e, d)) :
    awaitStatus fetch done pause (fuel + 1) h = (Exit.error e, d) := by
  simp [awaitStatus, Run.bind_error _ _ h _ _ hf]

theorem awaitStatus_nil (fetch : Run E (Option String)) (done : String) (pause : Run E Unit)
    (fuel : Nat) (h d : List E) (hf : fetch h = (Exit.value none, d)) :
    awaitStatus fetch done pause (fuel + 1) h = (Exit.panic, d) := by
  simp [awaitStatus, Run.bind_value _ _ h _ _ hf, Run.crash]

/-- A wait whose fetches get `rs`, none of them with the awaited status, and then
`last` with the awaited status, ends with a value after exactly these fetches. -/
theorem awaitStatus_succeeds (reply : List E → Except Err R) (ev : Except Err R → E)
    (status : R → Option String) (done : String) (p : E) (rs : List R) (last : R) :
    ∀ (fuel : Nat) (h : List E),
      (∀ r ∈ rs, ∃ s, status r = some s ∧ s ≠ done) → status last = some done →
      Answers reply ev p h ((rs ++ [last]).map Except.ok) → rs.length < fuel →
      awaitStatus (Run.call reply ev >>= fun r => pure (status r)) done (Run.emit p) fuel h =
        (Exit.value (), pendingTrace ev p rs ++ [ev (Except.ok last)]) := by
  induction rs with
  | nil =>
    intro fuel h _ hlast hans hfuel
    obtain ⟨k, rfl⟩ : ∃ k, fuel = k + 1 := ⟨fuel - 1, by simp at hfuel; omega⟩
    simp only [List.nil_append, List.map_cons, List.map_nil, Answers, and_true] at hans
    have hf : (Run.call reply ev >>= fun r => pure (status r)) h =
        (Exit.value (some done), [ev (Except.ok last)]) := by
      simp [fetch_apply, hans, hlast]
    rw [awaitStatus_done _ _ _ _ _ _ hf]
    simp [pendingTrace]
  | cons r rs ih =>
    intro fuel h hpend hlast hans hfuel
    obtain ⟨k, rfl⟩ : ∃ k, fuel = k + 1 := ⟨fuel - 1, by simp at hfuel; omega⟩
    obtain ⟨s, hs, hne⟩ := hpend r (List.mem_cons_self r rs)
    simp only [List.cons_append, List.map_cons, Answers] at hans
    have hf : (Run.call reply ev >>= fun r => pure (status r)) h =
        (Exit.value (some s), [ev (Except.ok r)]) := by
      simp [fetch_apply, hans.1, hs]
    rw [awaitStatus_pending _ _ _ _ _ _ _ hf hne]
    have hrec := ih k (h ++ ([ev (Except.ok r)] ++ [p]))
      (fun r' hr' => hpend r' (List.mem_cons_of_mem r hr')) hlast
      (by simpa using hans.2) (by simp at hfuel; omega)
    rw [hrec]
    simp [pendingTrace]

/-- A wait whose fetches get `rs`, none of them with the awaited status, and then the
error `e`, returns `e` after exactly these fetches. -/
theorem awaitStatus_fails (reply : List E → Except Err R) (ev : Except Err R → E)
    (status : R → Option String) (done : String) (p : E) (rs : List R) (e : Err) :
    ∀ (fuel : Nat) (h : List E),
      (∀ r ∈ rs, ∃ s, status r = some s ∧ s ≠ done) →
      Answers reply ev p h (rs.map Except.ok ++ [Except.error e]) → rs.length < fuel →
      awaitStatus (Run.call reply ev >>= fun r => pure (status r)) done (Run.emit p) fuel h =
        (Exit.error e, pendingTrace ev p rs ++ [ev (Except.error e)]) := by
  induction rs with
  | nil =>
    intro fuel h _ hans hfuel
    obtain ⟨k, rfl⟩ : ∃ k, fuel = k + 1 := ⟨fuel - 1, by simp at hfuel; omega⟩
    simp only [List.map_nil, List.nil_append, Answers, and_true] at hans
    have hf : (Run.call reply ev >>= fun r => pure (status r)) h =
        (Exit.error e, [ev (Except.error e)]) := by
      simp [fetch_apply, hans]
    rw [awaitStatus_error _ _ _ _ _ _ _ hf]
    simp [pendingTrace]
  | cons r rs ih =>
    intro fuel h hpend hans hfuel
    obtain ⟨k, rfl⟩ : ∃ k, fuel = k + 1 := ⟨fuel - 1, by simp at hfuel; omega⟩
    obtain ⟨s, hs, hne⟩ := hpend r (List.mem_cons_self r rs)
    simp only [List.cons_append, List.map_cons, Answers] at hans
    have hf : (Run.call reply ev >>= fun r => pure (status r)) h =
        (Exit.value (some s), [ev (Except.ok r)]) := by
      simp [fetch_apply, hans.1, hs]
    rw [awaitStatus_pending _ _ _ _ _ _ _ hf hne]
    have hrec := ih k (h ++ ([ev (Except.ok r)] ++ [p]))
      (fun r' hr' => hpend r' (List.mem_cons_of_mem r hr'))
      (by simpa using hans.2) (by simp at hfuel; omega)
    rw [hrec]
    simp [pendingTrace]

/-- Counting the entries `q` picks in the trace of a wait, when `q` picks the fetches and
not the sleeps. -/
theorem countP_pendingTrace (ev : Except Err R → E) (p : E) (q : E → Bool)
    (hq : ∀ r, q (ev r) = true) (hp : q p = false) (rs : List R) :
    (pendingTrace ev p rs).countP q = rs.length := by
  induction rs with
  | nil => rfl
  | cons r rs ih => simp [pendingTrace, List.countP_cons, hq, hp, ih]

end Await

/-! ## C1: a wait ends after the first fetch that reports the awaited status -/

theorem gce.awaitOperation_succeeds (w : gce.World) (project zone name : String)
    (ops : List gce.Operation) (last : gce.Operation) (fuel : Nat) (h : List gce.Event)
    (hpend : ∀ op ∈ ops, op.Status ≠ "DONE") (hlast : last.Status = "DONE")
    (hans : Answers (fun H => w.zoneOperationsGet H project zone name)
      (gce.Event.zoneOperationsGet project zone name) (gce.Event.sleep 2) h
      ((ops ++ [last]).map Except.ok))
    (hfuel : ops.length < fuel) :
    gce.awaitOperation w project zone name fuel h =
      (Exit.value (), pendingTrace (gce.Event.zoneOperationsGet project zone name)
        (gce.Event.sleep 2) ops ++ [gce.Event.zoneOperationsGet project zone name
          (Except.ok last)]) := by
  unfold gce.awaitOperation gce.fetchOperation gce.sleep2
  exact awaitStatus_succeeds (fun H => w.zoneOperationsGet H project zone name)
    (gce.Event.zoneOperationsGet project zone name) (fun op => some op.Status) "DONE"
    (gce.Event.sleep 2) ops last fuel h
    (fun op hop => ⟨op.Status, rfl, hpend op hop⟩) (congrArg some hlast) hans hfuel

theorem hetzner.awaitServer_succeeds (w : hetzner.World) (id : Int)
    (servers : List hetzner.Server) (last : hetzner.Server) (fuel : Nat)
    (h : List hetzner.Event)
    (hpend : ∀ s ∈ servers, s.Status ≠ "running") (hlast : last.Status = "running")
    (hans : Answers (fun H => w.serverGetByID H id) (hetzner.Event.serverGetByID id)
      (hetzner.Event.sleep 2) h ((servers.map some ++ [some last]).map Except.ok))
    (hfuel : servers.length < fuel) :
    hetzner.awaitServer w id fuel h =
      (Exit.value (), pendingTrace (hetzner.Event.serverGetByID id) (hetzner.Event.sleep 2)
        (servers.map some) ++ [hetzner.Event.serverGetByID id (Except.ok (some last))]) := by
  unfold hetzner.awaitServer hetzner.fetchServer hetzner.sleep2
  exact awaitStatus_succeeds (fun H => w.serverGetByID H id) (hetzner.Event.serverGetByID id)
    (fun (o : Option hetzner.Server) => o.map (fun (s : hetzner.Server) => s.Status))
    "running" (hetzner.Event.sleep 2)
    (servers.map some) (some last) fuel h
    (fun o ho => by
      obtain ⟨s, hs, rfl⟩ := List.mem_map.1 ho
      exact ⟨s.Status, rfl, hpend s hs⟩)
    (congrArg some hlast) hans (by simpa using hfuel)

theorem hetzner.awaitAction_succeeds (w : hetzner.World) (id : Int)
    (actions : List hetzner.Action) (last : hetzner.Action) (fuel : Nat)
    (h : List hetzner.Event)
    (hpend : ∀ a ∈ actions, a.Status ≠ "success") (hlast : last.Status = "success")
    (hans : Answers (fun H => w.actionGetByID H id) (hetzner.Event.actionGetByID id)
      (hetzner.Event.sleep 2) h ((actions.map some ++ [some last]).map Except.ok))
    (hfuel : actions.length < fuel) :
    hetzner.awaitAction w id fuel h =
      (Exit.value (), pendingTrace (hetzner.Event.actionGetByID id) (hetzner.Event.sleep 2)
        (actions.map some) ++ [hetzner.Event.actionGetByID id (Except.ok (some last))]) := by
  unfold hetzner.awaitAction hetzner.fetchAction hetzner.sleep2
  exact awaitStatus_succeeds (fun H => w.actionGetByID H id) (hetzner.Event.actionGetByID id)
    (fun (o : Option hetzner.Action) => o.map (fun (a : hetzner.Action) => a.Status))
    "success" (hetzner.Event.sleep 2)
    (actions.map some) (some last) fuel h
    (fun o ho => by
      obtain ⟨a, ha, rfl⟩ := List.mem_map.1 ho
      exact ⟨a.Status, rfl, hpend a ha⟩)
    (congrArg some hlast) hans (by simpa using hfuel)

/-- C1. In each wait of the drivers (the GCE wait on a zone operation, used for the disk
insert, the instance insert and the instance delete; the Hetzner wait on the server; the
Hetzner wait on the detach action): when the status fetches are answered, without error,
by `n` objects whose status is not the awaited one and then by one whose status is the
awaited one, the wait, allowed more than `n` iterations, ends with a value (the function
goes on) and its trace holds exactly `n + 1` status fetches. -/
theorem wait_issues_one_fetch_more_than_pending :
    (∀ (w : gce.World) (project zone name : String) (ops : List gce.Operation)
        (last : gce.Operation) (fuel : Nat) (h : List gce.Event),
        (∀ op ∈ ops, op.Status ≠ "DONE") → last.Status = "DONE" →
        Answers (fun H => w.zoneOperationsGet H project zone name)
          (gce.Event.zoneOperationsGet project zone name) (gce.Event.sleep 2) h
          ((ops ++ [last]).map Except.ok) →
        ops.length < fuel →
        (gce.awaitOperation w project zone name fuel h).1 = Exit.value () ∧
        (gce.awaitOperation w project zone name fuel h).2.countP gce.Event.isOperationGet
          = ops.length + 1) ∧
    (∀ (w : hetzner.World) (id : Int) (servers : List hetzner.Server) (last : hetzner.Server)
        (fuel : Nat) (h : List hetzner.Event),
        (∀ s ∈ servers, s.Status ≠ "running") → last.Status = "running" →
        Answers (fun H => w.serverGetByID H id) (hetzner.Event.serverGetByID id)
          (hetzner.Event.sleep 2) h ((servers.map some ++ [some last]).map Except.ok) →
        servers.length < fuel →
        (hetzner.awaitServer w id fuel h).1 = Exit.value () ∧
        (hetzner.awaitServer w id fuel h).2.countP hetzner.Event.isServerGet
          = servers.length + 1) ∧
    (∀ (w : hetzner.World) (id : Int) (actions : List hetzner.Action) (last : hetzner.Action)
        (fuel : Nat) (h : List hetzner.Event),
        (∀ a ∈ actions, a.Status ≠ "success") → last.Status = "success" →
        Answers (fun H => w.actionGetByID H id) (hetzner.Event.actionGetByID id)
          (hetzner.Event.sleep 2) h ((actions.map some ++ [some last]).map Except.ok) →
        actions.length < fuel →
        (hetzner.awaitAction w id fuel h).1 = Exit.value () ∧
        (hetzner.awaitAction w id fuel h).2.countP hetzner.Event.isActionGet
          = actions.length + 1) := by
  refine ⟨?_, ?_, ?_⟩
  · intro w project zone name ops last fuel h hpend hlast hans hfuel
    rw [gce.awaitOperation_succeeds w project zone name ops last fuel h hpend hlast hans hfuel]
    refine ⟨rfl, ?_⟩
    rw [List.countP_append, countP_pendingTrace _ _ _ (fun _ => rfl) rfl]
    rfl
  · intro w id servers last fuel h hpend hlast hans hfuel
    rw [hetzner.awaitServer_succeeds w id servers last fuel h hpend hlast hans hfuel]
    refine ⟨rfl, ?_⟩
    rw [List.countP_append, countP_pendingTrace _ _ _ (fun _ => rfl) rfl, List.length_map]
    rfl
  · intro w id actions last fuel h hpend hlast hans hfuel
    rw [hetzner.awaitAction_succeeds w id actions last fuel h hpend hlast hans hfuel]
    refine ⟨rfl, ?_⟩
    rw [List.countP_append, countP_pendingTrace _ _ _ (fun _ => rfl) rfl, List.length_map]
    rfl

/-! ## C2: a failure status does not end a wait -/

section AwaitMore

variable {E R : Type}

/-- The trace of a wait that may run starts with the entry of its first fetch. -/
theorem awaitStatus_head (reply : List E → Except Err R) (ev : Except Err R → E)
    (status : R → Option String) (done : String) (p : E) (fuel : Nat) (h : List E) :
    ∃ rest, (awaitStatus (Run.call reply ev >>= fun r => pure (status r)) done (Run.emit p)
      (fuel + 1) h).2 = ev (reply h) :: rest := by
  cases hr : reply h with
  | error e =>
    refine ⟨[], ?_⟩
    rw [awaitStatus_error _ _ _ _ h [ev (Except.error e)] e (by simp [fetch_apply, hr])]
  | ok r =>
    cases hs : status r with
    | none =>
      refine ⟨[], ?_⟩
      rw [awaitStatus_nil _ _ _ _ h [ev (Except.ok r)] (by simp [fetch_apply, hr, hs])]
    | some s =>
      by_cases hd : s = done
      · refine ⟨[], ?_⟩
        rw [awaitStatus_done _ _ _ _ h [ev (Except.ok r)]
          (by simp [fetch_apply, hr, hs, hd])]
      · rw [awaitStatus_pending _ _ _ _ h [ev (Except.ok r)] s
          (by simp [fetch_apply, hr, hs]) hd]
        exact ⟨_, rfl⟩

/-- After two fetches answered by statuses other than the awaited one, whatever they
are, a wait that may run three iterations issues a third fetch. -/
theorem awaitStatus_third_fetch (reply : List E → Except Err R) (ev : Except Err R → E)
    (status : R → Option String) (done : String) (p : E) (r1 r2 : R) (s1 s2 : String)
    (fuel : Nat) (h : List E)
    (h1 : status r1 = some s1) (n1 : s1 ≠ done) (h2 : status r2 = some s2) (n2 : s2 ≠ done)
    (hans : Answers reply ev p h [Except.ok r1, Except.ok r2]) (hfuel : 3 ≤ fuel) :
    ∃ rest, (awaitStatus (Run.call reply ev >>= fun r => pure (status r)) done (Run.emit p)
      fuel h).2 =
        ev (Except.ok r1) :: p :: ev (Except.ok r2) :: p ::
          ev (reply (h ++ [ev (Except.ok r1), p, ev (Except.ok r2), p])) :: rest := by
  obtain ⟨k, rfl⟩ : ∃ k, fuel = k + 1 + 1 + 1 := ⟨fuel - 3, by omega⟩
  simp only [Answers, and_true] at hans
  obtain ⟨a1, a2⟩ := hans
  rw [awaitStatus_pending _ _ _ _ h [ev (Except.ok r1)] s1 (by simp [fetch_apply, a1, h1]) n1]
  have a2' : reply (h ++ ([ev (Except.ok r1)] ++ [p])) = Except.ok r2 := by simpa using a2
  rw [awaitStatus_pending _ _ _ _ _ [ev (Except.ok r2)] s2
    (by simp [fetch_apply, a2, h2]) n2]
  obtain ⟨rest, hrest⟩ := awaitStatus_head reply ev status done p k
    (h ++ ([ev (Except.ok r1)] ++ [p]) ++ ([ev (Except.ok r2)] ++ [p]))
  refine ⟨rest, ?_⟩
  rw [hrest]
  simp

end AwaitMore

/-- Witness of C1: with the statuses PENDING, PENDING, DONE the GCE wait ends with a
value after exactly 3 fetches; so do the Hetzner waits with two statuses other than the
awaited one and then the awaited one. -/
theorem wait_issues_one_fetch_more_than_pending_witness :
    ((gce.awaitOperation (gce.scriptedWorld ["PENDING", "PENDING"] []) "p" "z" "op" 3 []).1
        = Exit.value () ∧
      (gce.awaitOperation (gce.scriptedWorld ["PENDING", "PENDING"] []) "p" "z" "op" 3
        []).2.countP gce.Event.isOperationGet = 2 + 1) ∧
    ((hetzner.awaitServer hetzner.bootingWorld 1 3 []).1 = Exit.value () ∧
      (hetzner.awaitServer hetzner.bootingWorld 1 3 []).2.countP hetzner.Event.isServerGet
        = 2 + 1) ∧
    ((hetzner.awaitAction (hetzner.detachingWorld ["running", "running"]) 61 3 []).1
        = Exit.value () ∧
      (hetzner.awaitAction (hetzner.detachingWorld ["running", "running"]) 61 3 []).2.countP
        hetzner.Event.isActionGet = 2 + 1) :=
  ⟨wait_issues_one_fetch_more_than_pending.1 (gce.scriptedWorld ["PENDING", "PENDING"] [])
      "p" "z" "op" [⟨"op", "PENDING"⟩, ⟨"op", "PENDING"⟩] ⟨"op", "DONE"⟩ 3 []
      (by decide) rfl ⟨rfl, rfl, rfl, trivial⟩ (by decide),
    wait_issues_one_fetch_more_than_pending.2.1 hetzner.bootingWorld 1
      [hetzner.exampleServer 1 "srv1" "initializing" "" GoMap.empty,
        hetzner.exampleServer 1 "srv1" "starting" "" GoMap.empty]
      (hetzner.exampleServer 1 "srv1" "running" "" GoMap.empty) 3 []
      (by decide) rfl ⟨rfl, rfl, rfl, trivial⟩ (by decide),
    wait_issues_one_fetch_more_than_pending.2.2 (hetzner.detachingWorld ["running", "running"])
      61 [⟨61, "running"⟩, ⟨61, "running"⟩] ⟨61, "success"⟩ 3 []
      (by decide) rfl ⟨rfl, rfl, rfl, trivial⟩ (by decide)⟩

/-- A wait returns an error only when a status fetch does: the fetch is then the last
entry of its trace. -/
theorem awaitStatus_error_from_fetch {E R : Type} (reply : List E → Except Err R)
    (ev : Except Err R → E) (status : R → Option String) (done : String) (p : E) (e : Err) :
    ∀ (fuel : Nat) (h : List E),
      (awaitStatus (Run.call reply ev >>= fun r => pure (status r)) done (Run.emit p)
        fuel h).1 = Exit.error e →
      ∃ pre, (awaitStatus (Run.call reply ev >>= fun r => pure (status r)) done (Run.emit p)
        fuel h).2 = pre ++ [ev (Except.error e)] := by
  intro fuel
  induction fuel with
  | zero =>
    intro h hres
    simp [awaitStatus_zero] at hres
  | succ k ih =>
    intro h hres
    cases hr : reply h with
    | error e' =>
      rw [awaitStatus_error _ _ _ _ h [ev (Except.error e')] e'
        (by simp [fetch_apply, hr])] at hres ⊢
      simp only [Exit.error.injEq] at hres
      exact ⟨[], by simp [hres]⟩
    | ok r =>
      cases hs : status r with
      | none =>
        rw [awaitStatus_nil _ _ _ _ h [ev (Except.ok r)]
          (by simp [fetch_apply, hr, hs])] at hres
        simp at hres
      | some s =>
        by_cases hd : s = done
        · rw [awaitStatus_done _ _ _ _ h [ev (Except.ok r)]
            (by simp [fetch_apply, hr, hs, hd])] at hres
          simp at hres
        · rw [awaitStatus_pending _ _ _ _ h [ev (Except.ok r)] s
            (by simp [fetch_apply, hr, hs]) hd] at hres ⊢
          obtain ⟨pre, hpre⟩ := ih _ hres
          refine ⟨ev (Except.ok r) :: p :: pre, ?_⟩
          simp only [hpre]
          simp

/-- Counterexample to C2 as stated.  The Hetzner detach wait whose fetches report
"running", then the failure status "error", then "success" does not return after the
second fetch: it fetches a third time and ends with a value.  The GCE wait does the same
on PENDING, FAILED, DONE. -/
theorem wait_goes_on_after_failure_status :
    hetzner.awaitAction (hetzner.detachingWorld ["running", "error"]) 61 5 [] =
      (Exit.value (),
        [hetzner.Event.actionGetByID 61 (Except.ok (some ⟨61, "running"⟩)),
          hetzner.Event.sleep 2,
          hetzner.Event.actionGetByID 61 (Except.ok (some ⟨61, "error"⟩)),
          hetzner.Event.sleep 2,
          hetzner.Event.actionGetByID 61 (Except.ok (some ⟨61, "success"⟩))]) ∧
    gce.awaitOperation (gce.scriptedWorld ["PENDING", "FAILED"] []) "p" "z" "op" 5 [] =
      (Exit.value (),
        [gce.Event.zoneOperationsGet "p" "z" "op" (Except.ok ⟨"op", "PENDING"⟩),
          gce.Event.sleep 2,
          gce.Event.zoneOperationsGet "p" "z" "op" (Except.ok ⟨"op", "FAILED"⟩),
          gce.Event.sleep 2,
          gce.Event.zoneOperationsGet "p" "z" "op" (Except.ok ⟨"op", "DONE"⟩)]) :=
  ⟨rfl, rfl⟩

/-- C2, amended.  In each wait of the drivers a failure status is a status like any
other that is not the awaited one: after a first fetch answered by one such status and a
second answered by another (the failure status included), the wait, allowed three
iterations, sleeps and issues a third fetch.  It returns an error only when a status
fetch itself returned that error, and then right after that fetch. -/
theorem wait_treats_failure_status_as_pending :
    (∀ (w : gce.World) (project zone name : String) (r1 r2 : gce.Operation) (fuel : Nat)
        (h : List gce.Event),
        r1.Status ≠ "DONE" → r2.Status ≠ "DONE" →
        Answers (fun H => w.zoneOperationsGet H project zone name)
          (gce.Event.zoneOperationsGet project zone name) (gce.Event.sleep 2) h
          [Except.ok r1, Except.ok r2] →
        3 ≤ fuel →
        ∃ rest, (gce.awaitOperation w project zone name fuel h).2 =
          gce.Event.zoneOperationsGet project zone name (Except.ok r1) :: gce.Event.sleep 2 ::
          gce.Event.zoneOperationsGet project zone name (Except.ok r2) :: gce.Event.sleep 2 ::
          gce.Event.zoneOperationsGet project zone name
            (w.zoneOperationsGet (h ++ [gce.Event.zoneOperationsGet project zone name
              (Except.ok r1), gce.Event.sleep 2, gce.Event.zoneOperationsGet project zone name
              (Except.ok r2), gce.Event.sleep 2]) project zone name) :: rest) ∧
    (∀ (w : gce.World) (project zone name : String) (fuel : Nat) (h : List gce.Event) (e : Err),
        (gce.awaitOperation w project zone name fuel h).1 = Exit.error e →
        ∃ pre, (gce.awaitOperation w project zone name fuel h).2 =
          pre ++ [gce.Event.zoneOperationsGet project zone name (Except.error e)]) ∧
    (∀ (w : hetzner.World) (id : Int) (r1 r2 : hetzner.Server) (fuel : Nat)
        (h : List hetzner.Event),
        r1.Status ≠ "running" → r2.Status ≠ "running" →
        Answers (fun H => w.serverGetByID H id) (hetzner.Event.serverGetByID id)
          (hetzner.Event.sleep 2) h [Except.ok (some r1), Except.ok (some r2)] →
        3 ≤ fuel →
        ∃ rest, (hetzner.awaitServer w id fuel h).2 =
          hetzner.Event.serverGetByID id (Except.ok (some r1)) :: hetzner.Event.sleep 2 ::
          hetzner.Event.serverGetByID id (Except.ok (some r2)) :: hetzner.Event.sleep 2 ::
          hetzner.Event.serverGetByID id
            (w.serverGetByID (h ++ [hetzner.Event.serverGetByID id (Except.ok (some r1)),
              hetzner.Event.sleep 2, hetzner.Event.serverGetByID id (Except.ok (some r2)),
              hetzner.Event.sleep 2]) id) :: rest) ∧
    (∀ (w : hetzner.World) (id : Int) (fuel : Nat) (h : List hetzner.Event) (e : Err),
        (hetzner.awaitServer w id fuel h).1 = Exit.error e →
        ∃ pre, (hetzner.awaitServer w id fuel h).2 =
          pre ++ [hetzner.Event.serverGetByID id (Except.error e)]) ∧
    (∀ (w : hetzner.World) (id : Int) (r1 r2 : hetzner.Action) (fuel : Nat)
        (h : List hetzner.Event),
        r1.Status ≠ "success" → r2.Status ≠ "success" →
        Answers (fun H => w.actionGetByID H id) (hetzner.Event.actionGetByID id)
          (hetzner.Event.sleep 2) h [Except.ok (some r1), Except.ok (some r2)] →
        3 ≤ fuel →
        ∃ rest, (hetzner.awaitAction w id fuel h).2 =
          hetzner.Event.actionGetByID id (Except.ok (some r1)) :: hetzner.Event.sleep 2 ::
          hetzner.Event.actionGetByID id (Except.ok (some r2)) :: hetzner.Event.sleep 2 ::
          hetzner.Event.actionGetByID id
            (w.actionGetByID (h ++ [hetzner.Event.actionGetByID id (Except.ok (some r1)),
              hetzner.Event.sleep 2, hetzner.Event.actionGetByID id (Except.ok (some r2)),
              hetzner.Event.sleep 2]) id) :: rest) ∧
    (∀ (w : hetzner.World) (id : Int) (fuel : Nat) (h : List hetzner.Event) (e : Err),
        (hetzner.awaitAction w id fuel h).1 = Exit.error e →
        ∃ pre, (hetzner.awaitAction w id fuel h).2 =
          pre ++ [hetzner.Event.actionGetByID id (Except.error e)]) := by
  refine ⟨?_, ?_, ?_, ?_, ?_, ?_⟩
  · intro w project zone name r1 r2 fuel h n1 n2 hans hfuel
    exact awaitStatus_third_fetch (fun H => w.zoneOperationsGet H project zone name)
      (gce.Event.zoneOperationsGet project zone name) (fun op => some op.Status) "DONE"
      (gce.Event.sleep 2) r1 r2 r1.Status r2.Status fuel h rfl n1 rfl n2 hans hfuel
  · intro w project zone name fuel h e hres
    exact awaitStatus_error_from_fetch (fun H => w.zoneOperationsGet H project zone name)
      (gce.Event.zoneOperationsGet project zone name) (fun op => some op.Status) "DONE"
      (gce.Event.sleep 2) e fuel h hres
  · intro w id r1 r2 fuel h n1 n2 hans hfuel
    exact awaitStatus_third_fetch (fun H => w.serverGetByID H id)
      (hetzner.Event.serverGetByID id)
      (fun (o : Option hetzner.Server) => o.map (fun (s : hetzner.Server) => s.Status)) "running"
      (hetzner.Event.sleep 2) (some r1) (some r2) r1.Status r2.Status fuel h rfl n1 rfl n2
      hans hfuel
  · intro w id fuel h e hres
    exact awaitStatus_error_from_fetch (fun H => w.serverGetByID H id)
      (hetzner.Event.serverGetByID id)
      (fun (o : Option hetzner.Server) => o.map (fun (s : hetzner.Server) => s.Status)) "running"
      (hetzner.Event.sleep 2) e fuel h hres
  · intro w id r1 r2 fuel h n1 n2 hans hfuel
    exact awaitStatus_third_fetch (fun H => w.actionGetByID H id)
      (hetzner.Event.actionGetByID id)
      (fun (o : Option hetzner.Action) => o.map (fun (a : hetzner.Action) => a.Status)) "success"
      (hetzner.Event.sleep 2) (some r1) (some r2) r1.Status r2.Status fuel h rfl n1 rfl n2
      hans hfuel
  · intro w id fuel h e hres
    exact awaitStatus_error_from_fetch (fun H => w.actionGetByID H id)
      (hetzner.Event.actionGetByID id)
      (fun (o : Option hetzner.Action) => o.map (fun (a : hetzner.Action) => a.Status)) "success"
      (hetzner.Event.sleep 2) e fuel h hres

/-- Witness of C2, amended: on the statuses "running", "error" the Hetzner detach wait
issues a third fetch. -/
theorem wait_treats_failure_status_as_pending_witness :
    ∃ rest, (hetzner.awaitAction (hetzner.detachingWorld ["running", "error"]) 61 3 []).2 =
      hetzner.Event.actionGetByID 61 (Except.ok (some ⟨61, "running"⟩)) ::
      hetzner.Event.sleep 2 ::
      hetzner.Event.actionGetByID 61 (Except.ok (some ⟨61, "error"⟩)) ::
      hetzner.Event.sleep 2 ::
      hetzner.Event.actionGetByID 61
        ((hetzner.detachingWorld ["running", "error"]).actionGetByID
          ([] ++ [hetzner.Event.actionGetByID 61 (Except.ok (some ⟨61, "running"⟩)),
            hetzner.Event.sleep 2,
            hetzner.Event.actionGetByID 61 (Except.ok (some ⟨61, "error"⟩)),
            hetzner.Event.sleep 2]) 61) :: rest :=
  wait_treats_failure_status_as_pending.2.2.2.2.1 (hetzner.detachingWorld ["running", "error"])
    61 ⟨61, "running"⟩ ⟨61, "error"⟩ 3 [] (by decide) (by decide) ⟨rfl, rfl, trivial⟩
    (by decide)

/-! ## C3: where the descriptor of `CreateServer` comes from -/

/-- C3, the Hetzner driver at the failing input.  `Server.Create` answers the server
without its address; the last fetch by id answers it running with 203.0.113.5; the
descriptor `CreateServer` returns carries the address of the answer of `Server.Create`,
not the one the last fetch observed. -/
theorem hetzner_descriptor_is_create_answer :
    (hetzner.CreateServer hetzner.lateAddressWorld exampleArgs 5 []).1 =
      Exit.value ⟨"1", "srv1", "fsn1", "<nil>", "minectl,java"⟩ ∧
    ((hetzner.CreateServer hetzner.lateAddressWorld exampleArgs 5 []).2.filter
        hetzner.Event.isServerGet).getLast? =
      some (hetzner.Event.serverGetByID 1 (Except.ok
        (some (hetzner.exampleServer 1 "srv1" "running" "203.0.113.5" hetzner.exampleLabels)))) :=
  ⟨rfl, rfl⟩

/-! ## Properties of all trace entries of a run -/

namespace Run

variable {E α β : Type}

/-- The trace of `m >>= f` is the trace of `m`, followed by the trace of `f` when `m`
ended with a value. -/
theorem bind_trace (m : Run E α) (f : α → Run E β) (h : List E) :
    ((m >>= f) h).2 = (m h).2 ∨
      ∃ a, (m h).1 = Exit.value a ∧
        (m >>= f) h = ((f a (h ++ (m h).2)).1, (m h).2 ++ (f a (h ++ (m h).2)).2) := by
  cases hm : (m h).1 with
  | value a => exact Or.inr ⟨a, rfl, by simp [bind_apply, andThen, hm]⟩
  | error e => exact Or.inl (by simp [bind_apply, andThen, hm])
  | panic => exact Or.inl (by simp [bind_apply, andThen, hm])
  | unfinished => exact Or.inl (by simp [bind_apply, andThen, hm])

/-- A run `m >>= f` that ends with a value: `m` did, and `f` after it. -/
theorem bind_eq_value (m : Run E α) (f : α → Run E β) (h : List E) (b : β)
    (hb : ((m >>= f) h).1 = Exit.value b) :
    ∃ a, (m h).1 = Exit.value a ∧ (f a (h ++ (m h).2)).1 = Exit.value b ∧
      ((m >>= f) h).2 = (m h).2 ++ (f a (h ++ (m h).2)).2 := by
  cases hm : (m h).1 with
  | value a =>
    refine ⟨a, rfl, ?_, ?_⟩
    · simpa [bind_apply, andThen, hm] using hb
    · simp [bind_apply, andThen, hm]
  | error e => simp [bind_apply, andThen, hm] at hb
  | panic => simp [bind_apply, andThen, hm] at hb
  | unfinished => simp [bind_apply, andThen, hm] at hb

theorem emits_bind {m : Run E α} {f : α → Run E β} {T : E → Prop}
    (hm : m.Emits T) (hf : ∀ a, (f a).Emits T) : (m >>= f).Emits T := by
  intro h e he
  rcases bind_trace m f h with htr | ⟨a, _, heq⟩
  · rw [htr] at he
    exact hm h e he
  · rw [heq] at he
    rcases List.mem_append.1 he with h1 | h2
    · exact hm h e h1
    · exact hf a _ e h2

theorem emits_pure {T : E → Prop} (a : α) : (pure a : Run E α).Emits T := by
  intro h e he
  simp [pure_apply] at he

theorem emits_call {T : E → Prop} (reply : List E → Except Err α) (ev : Except Err α → E)
    (hev : ∀ r, T (ev r)) : (call reply ev).Emits T := by
  intro h e he
  rw [call_trace] at he
  simp only [List.mem_singleton] at he
  rw [he]
  exact hev _

theorem emits_emit {T : E → Prop} (x : E) (hx : T x) : (emit x : Run E Unit).Emits T := by
  intro h e he
  simp only [emit, List.mem_singleton] at he
  rw [he]
  exact hx

theorem emits_fail {T : E → Prop} (x : Err) : (fail x : Run E α).Emits T := by
  intro h e he
  simp [fail] at he

theorem emits_crash {T : E → Prop} : (crash : Run E α).Emits T := by
  intro h e he
  simp [crash] at he

theorem emits_giveUp {T : E → Prop} : (giveUp : Run E α).Emits T := by
  intro h e he
  simp [giveUp] at he

theorem yields_bind {m : Run E α} {f : α → Run E β} {Q : α → Prop} {Q' : β → Prop}
    {T : E → Prop} (hm : m.Yields Q T) (hf : ∀ a, Q a → (f a).Yields Q' T) :
    (m >>= f).Yields Q' T := by
  intro h
  obtain ⟨⟨a, ha, hq⟩, htr⟩ := hm h
  obtain ⟨⟨b, hb, hq'⟩, htr'⟩ := hf a hq (h ++ (m h).2)
  have heq : (m >>= f) h = ((f a (h ++ (m h).2)).1, (m h).2 ++ (f a (h ++ (m h).2)).2) := by
    simp [bind_apply, andThen, ha]
  rw [heq]
  refine ⟨⟨b, hb, hq'⟩, ?_⟩
  intro e he
  rcases List.mem_append.1 he with h1 | h2
  · exact htr e h1
  · exact htr' e h2

theorem yields_pure {Q : α → Prop} {T : E → Prop} (a : α) (ha : Q a) :
    (pure a : Run E α).Yields Q T := by
  intro h
  exact ⟨⟨a, rfl, ha⟩, by simp [pure_apply]⟩

theorem yields_call {Q : α → Prop} {T : E → Prop} (reply : List E → Except Err α)
    (ev : Except Err α → E) (hr : ∀ h, ∃ a, reply h = Except.ok a ∧ Q a)
    (hev : ∀ r, T (ev r)) :
    (call reply ev).Yields Q T := by
  intro h
  obtain ⟨a, ha, hq⟩ := hr h
  rw [call_ok reply ev h a ha]
  exact ⟨⟨a, rfl, hq⟩, by simpa using hev _⟩

end Run

theorem emits_awaitStatus {E : Type} {T : E → Prop} (fetch : Run E (Option String))
    (done : String) (pause : Run E Unit) (hf : fetch.Emits T) (hp : pause.Emits T) :
    ∀ fuel, (awaitStatus fetch done pause fuel).Emits T := by
  intro fuel
  induction fuel with
  | zero => exact Run.emits_giveUp
  | succ k ih =>
    unfold awaitStatus
    refine Run.emits_bind hf ?_
    intro st
    cases st with
    | none => exact Run.emits_crash
    | some s =>
      by_cases hd : s = done
      · simp only [hd, if_true]
        exact Run.emits_pure ()
      · simp only [hd, if_false]
        exact Run.emits_bind hp (fun _ => ih)

theorem emits_forEach {E α : Type} {T : E → Prop} (body : α → Run E Unit)
    (hb : ∀ x, (body x).Emits T) : ∀ xs, (forEach body xs).Emits T := by
  intro xs
  induction xs with
  | nil => exact Run.emits_pure ()
  | cons x rest ih =>
    unfold forEach
    exact Run.emits_bind (hb x) (fun _ => ih)

theorem yields_forEach {E α : Type} {T : E → Prop} (body : α → Run E Unit)
    (hb : ∀ x, (body x).Yields (fun _ => True) T) :
    ∀ xs, (forEach body xs).Yields (fun _ => True) T := by
  intro xs
  induction xs with
  | nil => exact Run.yields_pure () trivial
  | cons x rest ih =>
    unfold forEach
    exact Run.yields_bind (hb x) (fun _ _ => ih)

/-! ## C4: `UpdateServer` for an id the backend does not hold -/

/-- Counterexample to C4 as stated.  The GCE backend holds no instance with the id (the
listing filtered by the id is empty): `UpdateServer` returns a nil error. -/
theorem gce_update_of_missing_instance_succeeds :
    gce.UpdateServer (gce.scriptedWorld [] []) gce.exampleGCE "4711" exampleArgs [] =
      (Exit.value (),
        [gce.Event.instancesList "minectl-project" "fsn1" "(id=4711)" (Except.ok [])]) :=
  rfl

/-- C4, amended.  When the backend holds no instance with the given id, neither driver
constructs or runs the remote update dispatcher.  The GCE `UpdateServer`, on an empty
listing, makes no other call and returns a nil error; the Hetzner `UpdateServer`, when the
fetch by id fails with an error, makes no other call and returns that error. -/
theorem update_of_missing_instance_never_dispatches :
    (∀ (w : gce.World) (g : gce.GCE) (id : String) (args : ServerArgs) (h : List gce.Event),
        w.instancesList h g.projectID args.MinecraftServer.GetRegion ("(id=" ++ id ++ ")")
          = Except.ok [] →
        gce.UpdateServer w g id args h =
          (Exit.value (), [gce.Event.instancesList g.projectID args.MinecraftServer.GetRegion
            ("(id=" ++ id ++ ")") (Except.ok [])]) ∧
        ∀ e ∈ (gce.UpdateServer w g id args h).2, e.isRemoteUpdate = false) ∧
    (∀ (w : hetzner.World) (id : String) (args : ServerArgs) (h : List hetzner.Event)
        (e : Err),
        w.serverGetByID h (Atoi id) = Except.error e →
        hetzner.UpdateServer w id args h =
          (Exit.error e, [hetzner.Event.serverGetByID (Atoi id) (Except.error e)])) ∧
    (∀ (w : hetzner.World) (id : String) (args : ServerArgs) (h : List hetzner.Event),
        (∀ s, w.serverGetByID h (Atoi id) ≠ Except.ok (some s)) →
        ∀ e ∈ (hetzner.UpdateServer w id args h).2, e.isRemoteUpdate = false) := by
  refine ⟨?_, ?_, ?_⟩
  · intro w g id args h hlist
    have heq : gce.UpdateServer w g id args h =
        (Exit.value (), [gce.Event.instancesList g.projectID args.MinecraftServer.GetRegion
          ("(id=" ++ id ++ ")") (Except.ok [])]) := by
      unfold gce.UpdateServer
      rw [Run.bind_value _ _ _ _ _ (Run.call_ok _ _ _ _ hlist)]
      rfl
    refine ⟨heq, ?_⟩
    rw [heq]
    intro e he
    simp only [List.mem_singleton] at he
    rw [he]
    rfl
  · intro w id args h e hget
    unfold hetzner.UpdateServer
    exact Run.bind_error _ _ _ _ _ (Run.call_error _ _ _ _ hget)
  · intro w id args h hget e he
    unfold hetzner.UpdateServer at he
    cases hr : w.serverGetByID h (Atoi id) with
    | error x =>
      rw [Run.bind_error _ _ _ _ _ (Run.call_error _ _ _ _ hr)] at he
      simp only [List.mem_singleton] at he
      rw [he]
      rfl
    | ok o =>
      cases o with
      | some s => exact absurd hr (hget s)
      | none =>
        rw [Run.bind_value _ _ _ _ _ (Run.call_ok _ _ _ _ hr)] at he
        simp only [Run.crash, List.append_nil, List.mem_singleton] at he
        rw [he]
        rfl

/-- Witness of C4, amended: the GCE world with an empty listing, and the Hetzner world
whose fetch by id fails. -/
theorem update_of_missing_instance_never_dispatches_witness :
    (gce.UpdateServer (gce.scriptedWorld [] []) gce.exampleGCE "4711" exampleArgs [] =
        (Exit.value (), [gce.Event.instancesList gce.exampleGCE.projectID
          exampleArgs.MinecraftServer.GetRegion ("(id=" ++ "4711" ++ ")") (Except.ok [])]) ∧
      ∀ e ∈ (gce.UpdateServer (gce.scriptedWorld [] []) gce.exampleGCE "4711" exampleArgs []).2,
        e.isRemoteUpdate = false) ∧
    hetzner.UpdateServer hetzner.failingLookupWorld "4711" exampleArgs [] =
      (Exit.error "hcloud: server responded with status code 500",
        [hetzner.Event.serverGetByID (Atoi "4711")
          (Except.error "hcloud: server responded with status code 500")]) :=
  ⟨update_of_missing_instance_never_dispatches.1 (gce.scriptedWorld [] []) gce.exampleGCE
      "4711" exampleArgs [] rfl,
    update_of_missing_instance_never_dispatches.2.1 hetzner.failingLookupWorld "4711"
      exampleArgs [] "hcloud: server responded with status code 500" rfl⟩

/-! ## C5: `DeleteServer` for a server that is already gone -/

theorem gce.emits_mapRange {T : gce.Event → Prop} (w : gce.World) (ks : List String)
    (hT : ∀ ks order, T (gce.Event.mapRange ks order)) : (gce.rangeKeys w ks).Emits T := by
  intro h e he
  simp only [gce.rangeKeys, List.mem_singleton] at he
  rw [he]
  exact hT _ _

theorem gce.yields_rangeKeys {T : gce.Event → Prop} (w : gce.World) (ks : List String)
    (hT : ∀ ks order, T (gce.Event.mapRange ks order)) :
    (gce.rangeKeys w ks).Yields (fun _ => True) T := by
  intro h
  exact ⟨⟨_, rfl, trivial⟩, gce.emits_mapRange w ks hT h⟩

/-- C5, the Hetzner driver at the failing input.  The backend holds neither the server,
nor the volume, nor the key (the server is already deleted): `DeleteServer` passes the
nil volume of the lookup to `Volume.Detach` and panics there, after the two lookups.
When the volume is still there and only the server is gone, `DeleteServer` detaches and
deletes the volume and panics in `Server.Delete` on the nil server. -/
theorem hetzner_delete_of_missing_server_panics :
    hetzner.DeleteServer hetzner.emptyWorld "4711" exampleArgs 5 [] =
      (Exit.panic,
        [hetzner.Event.serverGetByID 4711 (Except.ok none),
          hetzner.Event.volumeGet "srv1-vol" (Except.ok none)]) ∧
    hetzner.DeleteServer (hetzner.detachingWorld []) "4711" exampleArgs 5 [] =
      (Exit.panic,
        [hetzner.Event.serverGetByID 4711 (Except.ok none),
          hetzner.Event.volumeGet "srv1-vol" (Except.ok (some ⟨21, "srv1-vol"⟩)),
          hetzner.Event.volumeDetach ⟨21, "srv1-vol"⟩ (Except.ok ⟨61, "running"⟩),
          hetzner.Event.actionGetByID 61 (Except.ok (some ⟨61, "success"⟩)),
          hetzner.Event.volumeDelete ⟨21, "srv1-vol"⟩ (Except.ok ())]) :=
  ⟨rfl, rfl⟩

/-- In every world and history: when the lookup of the volume returns nil without an
error, the Hetzner `DeleteServer` panics right after the two lookups, whatever the lookup
of the server returned. -/
theorem hetzner.deleteServer_panics_without_volume (w : hetzner.World) (id : String)
    (args : ServerArgs) (fuel : Nat) (h : List hetzner.Event) (server : Option hetzner.Server)
    (hget : w.serverGetByID h (Atoi id) = Except.ok server)
    (hvol : w.volumeGet (h ++ [hetzner.Event.serverGetByID (Atoi id) (Except.ok server)])
      (args.MinecraftServer.GetName ++ "-vol") = Except.ok none) :
    hetzner.DeleteServer w id args fuel h =
      (Exit.panic, [hetzner.Event.serverGetByID (Atoi id) (Except.ok server),
        hetzner.Event.volumeGet (args.MinecraftServer.GetName ++ "-vol") (Except.ok none)]) := by
  unfold hetzner.DeleteServer
  rw [Run.bind_value _ _ _ _ _ (Run.call_ok _ _ _ _ hget)]
  rw [Run.bind_value _ _ _ _ _ (Run.call_ok _ _ _ _ hvol)]
  rfl

/-- The GCE sibling: when the login profile clean-up succeeds and the backend holds no
instance with the given id, no disk named after the server and no firewall rule named
after it, the GCE `DeleteServer` returns a nil error without any instance delete, disk
delete, firewall delete or operation fetch. -/
theorem gce.deleteServer_skips_when_gone (w : gce.World) (g : gce.GCE) (id : String)
    (args : ServerArgs) (fuel : Nat)
    (hprofile : ∀ h, ∃ profile,
      w.getLoginProfile h "users/minctl@minectl-fn.iam.gserviceaccount.com" = Except.ok profile)
    (hposix : ∀ h name, w.projectsDelete h name = Except.ok ())
    (hkeys : ∀ h name, w.sshPublicKeysDelete h name = Except.ok ())
    (hinst : ∀ h, w.instancesList h g.projectID args.MinecraftServer.GetRegion
      ("(id=" ++ id ++ ")") = Except.ok [])
    (hdisk : ∀ h, w.disksList h g.projectID args.MinecraftServer.GetRegion
      ("(name=" ++ (args.MinecraftServer.GetName ++ "-vol") ++ ")") = Except.ok [])
    (hfw : ∀ h, w.firewallsList h g.projectID
      ("(name=" ++ (args.MinecraftServer.GetName ++ "-fw") ++ ")") = Except.ok []) :
    (gce.DeleteServer w g id args fuel []).1 = Exit.value () ∧
      ∀ e ∈ (gce.DeleteServer w g id args fuel []).2, e.isDelete = false := by
  have hy : (gce.DeleteServer w g id args fuel).Yields (fun _ => True)
      (fun e => e.isDelete = false) := by
    unfold gce.DeleteServer
    refine Run.yields_bind (Q := fun _ => True) ?_ ?_
    · exact Run.yields_call _ _ (fun h => (hprofile h).imp fun _ hp => ⟨hp, trivial⟩)
        (fun _ => rfl)
    intro profile _
    refine Run.yields_bind (Q := fun _ => True) ?_ ?_
    · refine yields_forEach _ (fun x => ?_) _
      exact Run.yields_call _ _ (fun h => ⟨(), hposix h _, trivial⟩) (fun _ => rfl)
    intro _ _
    refine Run.yields_bind (Q := fun _ => True) ?_ ?_
    · exact gce.yields_rangeKeys w _ (fun _ _ => rfl)
    intro order _
    refine Run.yields_bind (Q := fun _ => True) ?_ ?_
    · unfold gce.deleteSshPublicKeys
      refine yields_forEach _ (fun k => ?_) _
      cases profile.SshPublicKeys.get? k with
      | none => exact Run.yields_pure () trivial
      | some key =>
        exact Run.yields_call _ _ (fun h => ⟨(), hkeys h _, trivial⟩) (fun _ => rfl)
    intro _ _
    refine Run.yields_bind (Q := fun items => items = []) ?_ ?_
    · exact Run.yields_call _ _ (fun h => ⟨[], hinst h, rfl⟩) (fun _ => rfl)
    intro items hitems
    subst hitems
    refine Run.yields_bind (Q := fun _ => True) ?_ ?_
    · exact Run.yields_pure () trivial
    intro _ _
    refine Run.yields_bind (Q := fun disks => disks = []) ?_ ?_
    · exact Run.yields_call _ _ (fun h => ⟨[], hdisk h, rfl⟩) (fun _ => rfl)
    intro disks hdisks
    subst hdisks
    refine Run.yields_bind (Q := fun _ => True) ?_ ?_
    · exact Run.yields_pure () trivial
    intro _ _
    refine Run.yields_bind (Q := fun fws => fws = []) ?_ ?_
    · exact Run.yields_call _ _ (fun h => ⟨[], hfw h, rfl⟩) (fun _ => rfl)
    intro fws hfws
    subst hfws
    exact Run.yields_pure () trivial
  obtain ⟨⟨a, ha, _⟩, htr⟩ := hy []
  exact ⟨ha, htr⟩

/-- The GCE `DeleteServer` in a world that holds nothing for the server. -/
theorem gce.deleteServer_skips_when_gone_example :
    (gce.DeleteServer (gce.scriptedWorld [] []) gce.exampleGCE "4711" exampleArgs 5 []).1
        = Exit.value () ∧
      ∀ e ∈
        (gce.DeleteServer (gce.scriptedWorld [] []) gce.exampleGCE "4711" exampleArgs 5 []).2,
        e.isDelete = false :=
  gce.deleteServer_skips_when_gone (gce.scriptedWorld [] []) gce.exampleGCE "4711" exampleArgs
    5 (fun _ => ⟨_, rfl⟩) (fun _ _ => rfl) (fun _ _ => rfl) (fun _ => rfl) (fun _ => rfl)
    (fun _ => rfl)

/-! ## C6: the names of the auxiliary resources -/

theorem hetzner.emits_rangeKeys {T : hetzner.Event → Prop} (w : hetzner.World)
    (ks : List String) (hT : ∀ ks order, T (hetzner.Event.mapRange ks order)) :
    (hetzner.rangeKeys w ks).Emits T := by
  intro h e he
  simp only [hetzner.rangeKeys, List.mem_singleton] at he
  rw [he]
  exact hT _ _

theorem gce.emits_awaitOperation {T : gce.Event → Prop} (w : gce.World)
    (project zone name : String) (fuel : Nat)
    (hget : ∀ r, T (gce.Event.zoneOperationsGet project zone name r))
    (hsleep : T (gce.Event.sleep 2)) :
    (gce.awaitOperation w project zone name fuel).Emits T := by
  unfold gce.awaitOperation
  refine emits_awaitStatus _ _ _ ?_ ?_ fuel
  · unfold gce.fetchOperation
    exact Run.emits_bind (Run.emits_call _ _ hget) (fun _ => Run.emits_pure _)
  · exact Run.emits_emit _ hsleep

theorem hetzner.emits_awaitServer {T : hetzner.Event → Prop} (w : hetzner.World) (id : Int)
    (fuel : Nat) (hget : ∀ r, T (hetzner.Event.serverGetByID id r))
    (hsleep : T (hetzner.Event.sleep 2)) : (hetzner.awaitServer w id fuel).Emits T := by
  unfold hetzner.awaitServer
  refine emits_awaitStatus _ _ _ ?_ ?_ fuel
  · unfold hetzner.fetchServer
    exact Run.emits_bind (Run.emits_call _ _ hget) (fun _ => Run.emits_pure _)
  · exact Run.emits_emit _ hsleep

theorem hetzner.emits_awaitAction {T : hetzner.Event → Prop} (w : hetzner.World) (id : Int)
    (fuel : Nat) (hget : ∀ r, T (hetzner.Event.actionGetByID id r))
    (hsleep : T (hetzner.Event.sleep 2)) : (hetzner.awaitAction w id fuel).Emits T := by
  unfold hetzner.awaitAction
  refine emits_awaitStatus _ _ _ ?_ ?_ fuel
  · unfold hetzner.fetchAction
    exact Run.emits_bind (Run.emits_call _ _ hget) (fun _ => Run.emits_pure _)
  · exact Run.emits_emit _ hsleep

theorem gce.emits_result {T : gce.Event → Prop} (items : List gce.Instance) :
    (gce.CreateServer.result items).Emits T := by
  unfold gce.CreateServer.result
  split
  · split
    · exact Run.emits_pure _
    · exact Run.emits_crash
  · exact Run.emits_fail _

theorem append_suffix_injective (n m suffix : String) (h : n ++ suffix = m ++ suffix) :
    n = m := by
  have hd : n.data ++ suffix.data = m.data ++ suffix.data := by
    simpa [String.data_append] using congrArg String.data h
  exact String.ext (List.append_cancel_right hd)

theorem stripSuffix_append (n suffix : String) :
    stripSuffix (n ++ suffix) suffix.length = n := by
  apply String.ext
  show (n ++ suffix).data.take ((n ++ suffix).data.length - suffix.data.length) = n.data
  rw [String.data_append, List.length_append, Nat.add_sub_cancel, List.take_left]

theorem gce.createServer_names (w : gce.World) (g : gce.GCE) (args : ServerArgs)
    (fuel : Nat) :
    (gce.CreateServer w g args fuel).Emits (gce.Event.createsAs args.MinecraftServer.GetName) := by
  unfold gce.CreateServer
  repeat' first
    | exact Run.emits_call _ _ (fun _ => True.intro)
    | exact Run.emits_call _ _ (fun _ => rfl)
    | exact gce.emits_awaitOperation _ _ _ _ _ (fun _ => True.intro) True.intro
    | exact gce.emits_result _
    | refine Run.emits_bind ?_ (fun _ => ?_)

theorem gce.deleteServer_filters (w : gce.World) (g : gce.GCE) (id : String)
    (args : ServerArgs) (fuel : Nat) :
    (gce.DeleteServer w g id args fuel).Emits (gce.Event.findsAs args.MinecraftServer.GetName) := by
  unfold gce.DeleteServer gce.deleteSshPublicKeys
  repeat' first
    | exact Run.emits_pure _
    | exact Run.emits_call _ _ (fun _ => True.intro)
    | exact Run.emits_call _ _ (fun _ => rfl)
    | exact gce.emits_awaitOperation _ _ _ _ _ (fun _ => True.intro) True.intro
    | exact gce.emits_mapRange _ _ (fun _ _ => True.intro)
    | refine emits_forEach _ (fun _ => ?_) _
    | refine Run.emits_bind ?_ (fun _ => ?_)
    | split

theorem hetzner.createServer_createsAs (w : hetzner.World) (args : ServerArgs) (fuel : Nat) :
    (hetzner.CreateServer w args fuel).Emits
      (hetzner.Event.createsAs args.MinecraftServer.GetName) := by
  unfold hetzner.CreateServer hetzner.hetznerLabelsToTags
  repeat' first
    | exact Run.emits_pure _
    | exact Run.emits_call _ _ (fun _ => True.intro)
    | exact Run.emits_call _ _ (fun _ => rfl)
    | exact hetzner.emits_awaitServer _ _ _ (fun _ => True.intro) True.intro
    | exact hetzner.emits_rangeKeys _ _ (fun _ _ => True.intro)
    | refine Run.emits_bind ?_ (fun _ => ?_)

theorem hetzner.deleteServer_findsAs (w : hetzner.World) (id : String) (args : ServerArgs)
    (fuel : Nat) :
    (hetzner.DeleteServer w id args fuel).Emits
      (hetzner.Event.findsAs args.MinecraftServer.GetName) := by
  unfold hetzner.DeleteServer
  repeat' first
    | exact Run.emits_pure _
    | exact Run.emits_crash
    | exact Run.emits_call _ _ (fun _ => True.intro)
    | exact Run.emits_call _ _ (fun _ => rfl)
    | exact hetzner.emits_awaitAction _ _ _ (fun _ => True.intro) True.intro
    | refine Run.emits_bind ?_ (fun _ => ?_)
    | split

namespace Run

variable {E α β : Type}

theorem reaches_bind_left {m : Run E α} {f : α → Run E β} {P : E → Prop}
    (hm : m.Reaches P) : (m >>= f).Reaches P := by
  intro h b hb
  obtain ⟨a, ha, _, htr⟩ := bind_eq_value m f h b hb
  obtain ⟨e, he, hp⟩ := hm h a ha
  exact ⟨e, by rw [htr]; exact List.mem_append_left _ he, hp⟩

theorem reaches_bind_right {m : Run E α} {f : α → Run E β} {P : E → Prop}
    (hf : ∀ a, (f a).Reaches P) : (m >>= f).Reaches P := by
  intro h b hb
  obtain ⟨a, _, hfa, htr⟩ := bind_eq_value m f h b hb
  obtain ⟨e, he, hp⟩ := hf a _ b hfa
  exact ⟨e, by rw [htr]; exact List.mem_append_right _ he, hp⟩

theorem reaches_call {P : E → Prop} (reply : List E → Except Err α) (ev : Except Err α → E)
    (hev : ∀ a, P (ev (Except.ok a))) : (call reply ev).Reaches P := by
  intro h a ha
  cases hr : reply h with
  | error e => simp [call, hr] at ha
  | ok x => exact ⟨ev (Except.ok x), by simp [call, hr], hev x⟩

end Run

theorem Run.call_value {E α : Type} (reply : List E → Except Err α) (ev : Except Err α → E)
    (h : List E) (a : α) (ha : (Run.call reply ev h).1 = Exit.value a) :
    reply h = Except.ok a ∧ (Run.call reply ev h).2 = [ev (Except.ok a)] := by
  cases hr : reply h with
  | error e => simp [Run.call, hr] at ha
  | ok x =>
    simp only [Run.call, hr, Exit.value.injEq] at ha ⊢
    subst ha
    exact ⟨rfl, rfl⟩

namespace Run

variable {E α β : Type}

theorem returns_bind {m : Run E α} {f : α → Run E β} {P : β → List E → Prop}
    (P2 : α → β → List E → Prop) (hf : ∀ a, (f a).Returns (P2 a))
    (hP : ∀ h a b d, (m h).1 = Exit.value a → P2 a b d → P b ((m h).2 ++ d)) :
    (m >>= f).Returns P := by
  intro h b hb
  obtain ⟨a, ha, hfa, htr⟩ := bind_eq_value m f h b hb
  rw [htr]
  exact hP h a b _ ha (hf a _ b hfa)

theorem returns_pure {P : α → List E → Prop} (a : α) (ha : P a []) :
    (pure a : Run E α).Returns P := by
  intro h b hb
  simp only [pure_apply, Exit.value.injEq] at hb ⊢
  subst hb
  exact ha

theorem returns_crash {P : α → List E → Prop} : (crash : Run E α).Returns P := by
  intro h b hb
  simp [crash] at hb

theorem returns_call {P : α → List E → Prop} (reply : List E → Except Err α)
    (ev : Except Err α → E) (hP : ∀ a, P a [ev (Except.ok a)]) :
    (call reply ev).Returns P := by
  intro h a ha
  rw [(call_value reply ev h a ha).2]
  exact hP a

end Run

/-- A loop over `xs` that ends with a value has run its body for every element: if every
run of the body for `x` that ends with a value adds an entry with `R x`, the trace of the
loop holds such an entry for every `x` of `xs`. -/
theorem returns_forEach {E α : Type} (body : α → Run E Unit) (R : α → E → Prop)
    (hb : ∀ x, (body x).Reaches (R x)) :
    ∀ xs, (forEach body xs).Returns (fun _ tr => ∀ x ∈ xs, ∃ e ∈ tr, R x e) := by
  intro xs
  induction xs with
  | nil =>
    intro h a _ x hx
    simp at hx
  | cons y rest ih =>
    intro h a ha
    unfold forEach at ha ⊢
    obtain ⟨u, hu, hrest, htr⟩ := Run.bind_eq_value _ _ h a ha
    rw [htr]
    intro x hx
    rcases List.mem_cons.1 hx with rfl | hx
    · obtain ⟨e, he, hR⟩ := hb x h u hu
      exact ⟨e, List.mem_append_left _ he, hR⟩
    · obtain ⟨e, he, hR⟩ := ih _ a hrest x hx
      exact ⟨e, List.mem_append_right _ he, hR⟩

/-- A run of the GCE `DeleteServer` that returns a nil error listed the disks by
`(name=n-vol)` and the firewall rules by `(name=n-fw)` and deleted what the listings
answered. -/
theorem gce.deleteServer_lists_and_deletes (w : gce.World) (g : gce.GCE) (id : String)
    (args : ServerArgs) (fuel : Nat) :
    (gce.DeleteServer w g id args fuel).Returns (fun _ tr =>
      gce.FindsAndDeletes g.projectID args.MinecraftServer.GetRegion
        args.MinecraftServer.GetName tr) := by
  have mono : ∀ (t1 t2 : List gce.Event),
      gce.FindsAndDeletes g.projectID args.MinecraftServer.GetRegion
        args.MinecraftServer.GetName t2 →
      gce.FindsAndDeletes g.projectID args.MinecraftServer.GetRegion
        args.MinecraftServer.GetName (t1 ++ t2) := by
    intro t1 t2 ⟨disks, fws, h1, h2, h3, h4⟩
    exact ⟨disks, fws, List.mem_append_right _ h1,
      fun d hd => (h2 d hd).imp fun _ hm => List.mem_append_right _ hm,
      List.mem_append_right _ h3,
      fun f hf => (h4 f hf).imp fun _ hm => List.mem_append_right _ hm⟩
  have step : ∀ {γ : Type} (m : Run gce.Event γ) (f : γ → Run gce.Event Unit),
      (∀ a, (f a).Returns (fun _ tr => gce.FindsAndDeletes g.projectID
        args.MinecraftServer.GetRegion args.MinecraftServer.GetName tr)) →
      (m >>= f).Returns (fun _ tr => gce.FindsAndDeletes g.projectID
        args.MinecraftServer.GetRegion args.MinecraftServer.GetName tr) :=
    fun m f hf => Run.returns_bind (fun _ _ tr => gce.FindsAndDeletes g.projectID
      args.MinecraftServer.GetRegion args.MinecraftServer.GetName tr) hf
      (fun _ _ _ d _ hd => mono _ d hd)
  unfold gce.DeleteServer
  refine step _ _ (fun profile => step _ _ (fun _ => step _ _ (fun order =>
    step _ _ (fun _ => step _ _ (fun items => ?_)))))
  dsimp only
  split
  on_goal 1 => refine step _ _ (fun _ => step _ _ (fun _ => ?_))
  on_goal 2 => refine step _ _ (fun _ => ?_)
  all_goals
  -- the listing of the disks
  refine Run.returns_bind (fun (disks : List gce.Disk) _ tr =>
      ∃ firewalls : List gce.Firewall,
        (∀ disk ∈ disks, ∃ op, gce.Event.disksDelete g.projectID
          args.MinecraftServer.GetRegion disk.Name (Except.ok op) ∈ tr) ∧
        gce.Event.firewallsList g.projectID
          ("(name=" ++ (args.MinecraftServer.GetName ++ "-fw") ++ ")") (Except.ok firewalls)
          ∈ tr ∧
        (∀ firewall ∈ firewalls, ∃ op,
          gce.Event.firewallsDelete g.projectID firewall.Name (Except.ok op) ∈ tr))
    (fun disks => ?_) ?_
  · -- the deletes of the disks, then the firewall rules
    refine Run.returns_bind (fun _ _ tr =>
        ∃ firewalls : List gce.Firewall,
          gce.Event.firewallsList g.projectID
            ("(name=" ++ (args.MinecraftServer.GetName ++ "-fw") ++ ")") (Except.ok firewalls)
            ∈ tr ∧
          (∀ firewall ∈ firewalls, ∃ op,
            gce.Event.firewallsDelete g.projectID firewall.Name (Except.ok op) ∈ tr))
      (fun _ => ?_) ?_
    · refine Run.returns_bind (fun (firewalls : List gce.Firewall) _ tr =>
          ∀ firewall ∈ firewalls, ∃ op,
            gce.Event.firewallsDelete g.projectID firewall.Name (Except.ok op) ∈ tr)
        (fun firewalls => ?_) ?_
      · intro h a ha
        have hall := returns_forEach (E := gce.Event) _
          (fun (firewall : gce.Firewall) e => ∃ op,
            e = gce.Event.firewallsDelete g.projectID firewall.Name (Except.ok op))
          (fun firewall => Run.reaches_bind_left
            (Run.reaches_call _ _ (fun op => ⟨op, rfl⟩))) firewalls h a ha
        intro firewall hf
        obtain ⟨e, he, op, rfl⟩ := hall firewall hf
        exact ⟨op, he⟩
      · intro h firewalls _ d ha hd
        obtain ⟨_, htr⟩ := Run.call_value _ _ h firewalls ha
        rw [htr]
        exact ⟨firewalls, List.mem_append_left _ (List.mem_singleton_self _),
          fun f hf => (hd f hf).imp fun _ hm => List.mem_append_right _ hm⟩
    · intro h u _ d hu ⟨firewalls, h3, h4⟩
      have hall := returns_forEach (E := gce.Event) _
        (fun (disk : gce.Disk) e => ∃ op,
          e = gce.Event.disksDelete g.projectID args.MinecraftServer.GetRegion disk.Name
            (Except.ok op))
        (fun disk => Run.reaches_bind_left
          (Run.reaches_call _ _ (fun op => ⟨op, rfl⟩))) disks h u hu
      refine ⟨firewalls, ?_, List.mem_append_right _ h3,
        fun f hf => (h4 f hf).imp fun _ hm => List.mem_append_right _ hm⟩
      intro disk hd
      obtain ⟨e, he, op, rfl⟩ := hall disk hd
      exact ⟨op, List.mem_append_left _ he⟩
  · intro h disks _ d ha ⟨firewalls, h2, h3, h4⟩
    obtain ⟨_, htr⟩ := Run.call_value _ _ h disks ha
    rw [htr]
    exact ⟨disks, firewalls, List.mem_append_left _ (List.mem_singleton_self _),
      fun disk hd => (h2 disk hd).imp fun _ hm => List.mem_append_right _ hm,
      List.mem_append_right _ h3,
      fun f hf => (h4 f hf).imp fun _ hm => List.mem_append_right _ hm⟩

/-- A run of the Hetzner `DeleteServer` that returns a nil error looked the volume up as
`n-vol` and the key as `n-ssh`, and detached and deleted what the lookups found. -/
theorem hetzner.deleteServer_finds (w : hetzner.World) (id : String) (args : ServerArgs)
    (fuel : Nat) :
    (hetzner.DeleteServer w id args fuel).Returns (fun _ tr =>
      hetzner.FindsAndDeletes args.MinecraftServer.GetName tr) := by
  have monoKey : ∀ (t1 t2 : List hetzner.Event),
      hetzner.FindsAndDeletesKey args.MinecraftServer.GetName t2 →
      hetzner.FindsAndDeletesKey args.MinecraftServer.GetName (t1 ++ t2) := by
    intro t1 t2 ⟨key, h1, h2⟩
    exact ⟨key, List.mem_append_right _ h1, List.mem_append_right _ h2⟩
  unfold hetzner.DeleteServer
  refine Run.returns_bind (fun _ _ tr =>
    hetzner.FindsAndDeletes args.MinecraftServer.GetName tr) (fun server => ?_) ?_
  swap
  · intro h _ _ d _ ⟨⟨volume, h1, ⟨action, h2⟩, h3⟩, hkey⟩
    exact ⟨⟨volume, List.mem_append_right _ h1, ⟨action, List.mem_append_right _ h2⟩,
      List.mem_append_right _ h3⟩, monoKey _ d hkey⟩
  refine Run.returns_bind (fun (found : Option hetzner.Volume) _ tr =>
      ∃ volume, found = some volume ∧
        (∃ action, hetzner.Event.volumeDetach volume (Except.ok action) ∈ tr) ∧
        hetzner.Event.volumeDelete volume (Except.ok ()) ∈ tr ∧
        hetzner.FindsAndDeletesKey args.MinecraftServer.GetName tr)
    (fun found => ?_) ?_
  swap
  · intro h found _ d ha ⟨volume, hfound, ⟨action, h2⟩, h3, hkey⟩
    obtain ⟨_, htr⟩ := Run.call_value _ _ h found ha
    rw [htr, hfound]
    exact ⟨⟨volume, List.mem_append_left _ (List.mem_singleton_self _),
      ⟨action, List.mem_append_right _ h2⟩, List.mem_append_right _ h3⟩, monoKey _ d hkey⟩
  cases found with
  | none => exact Run.returns_crash
  | some volume =>
    -- the detach
    refine Run.returns_bind (fun _ _ tr =>
        hetzner.Event.volumeDelete volume (Except.ok ()) ∈ tr ∧
        hetzner.FindsAndDeletesKey args.MinecraftServer.GetName tr) (fun res => ?_) ?_
    swap
    · intro h res _ d ha ⟨h3, hkey⟩
      obtain ⟨_, htr⟩ := Run.call_value _ _ h res ha
      rw [htr]
      exact ⟨volume, rfl, ⟨res, List.mem_append_left _ (List.mem_singleton_self _)⟩,
        List.mem_append_right _ h3, monoKey _ d hkey⟩
    -- the wait
    refine Run.returns_bind (fun _ _ tr =>
        hetzner.Event.volumeDelete volume (Except.ok ()) ∈ tr ∧
        hetzner.FindsAndDeletesKey args.MinecraftServer.GetName tr) (fun _ => ?_)
      (fun _ _ _ d _ hd => ⟨List.mem_append_right _ hd.1, monoKey _ d hd.2⟩)
    -- the delete of the volume
    refine Run.returns_bind (fun _ _ tr =>
        hetzner.FindsAndDeletesKey args.MinecraftServer.GetName tr) (fun _ => ?_) ?_
    swap
    · intro h u _ d ha hkey
      obtain ⟨_, htr⟩ := Run.call_value _ _ h u ha
      rw [htr]
      exact ⟨List.mem_append_left _ (List.mem_singleton_self _), monoKey _ d hkey⟩
    cases server with
    | none => exact Run.returns_crash
    | some server =>
      refine Run.returns_bind (fun _ _ tr =>
          hetzner.FindsAndDeletesKey args.MinecraftServer.GetName tr) (fun _ => ?_)
        (fun _ _ _ d _ hd => monoKey _ d hd)
      refine Run.returns_bind (fun (found : Option hetzner.SSHKey) _ tr =>
          ∃ key, found = some key ∧ hetzner.Event.sshKeyDelete key (Except.ok ()) ∈ tr)
        (fun found => ?_) ?_
      swap
      · intro h found _ d ha ⟨key, hfound, hdel⟩
        obtain ⟨_, htr⟩ := Run.call_value _ _ h found ha
        rw [htr, hfound]
        exact ⟨key, List.mem_append_left _ (List.mem_singleton_self _),
          List.mem_append_right _ hdel⟩
      cases found with
      | none => exact Run.returns_crash
      | some key =>
        exact Run.returns_call _ _ (fun _ => ⟨key, rfl, List.mem_singleton_self _⟩)

/-- C6.  For every server name `n`: the GCE `CreateServer` inserts disks under the name
`n-vol` only and firewall rules under `n-fw` only, and a run that returns a descriptor
inserted both; the GCE `DeleteServer` lists disks by the filter `(name=n-vol)` only and
firewall rules by `(name=n-fw)` only, and a run that returns a nil error made both
listings and deleted every disk and rule they answered.  The Hetzner `CreateServer`
creates volumes under `n-vol` only and SSH keys under `n-ssh` only, and a run that
returns a descriptor created both; the Hetzner `DeleteServer` looks the volume up as
`n-vol` only and the key as `n-ssh` only, and a run that returns a nil error made both
lookups, detached and deleted the volume it found and deleted the key it found.
Appending a suffix is injective in `n`, and cutting the suffix off gives `n` back. -/
theorem auxiliary_names_derive_from_server_name :
    (∀ (w : gce.World) (g : gce.GCE) (args : ServerArgs) (fuel : Nat),
      (gce.CreateServer w g args fuel).Emits
          (gce.Event.createsAs args.MinecraftServer.GetName) ∧
        (gce.CreateServer w g args fuel).Reaches (fun e => e.isDisksInsert = true) ∧
        (gce.CreateServer w g args fuel).Reaches (fun e => e.isFirewallsInsert = true)) ∧
    (∀ (w : gce.World) (g : gce.GCE) (id : String) (args : ServerArgs) (fuel : Nat),
      (gce.DeleteServer w g id args fuel).Emits
          (gce.Event.findsAs args.MinecraftServer.GetName) ∧
        ∀ h, (gce.DeleteServer w g id args fuel h).1 = Exit.value () →
          gce.FindsAndDeletes g.projectID args.MinecraftServer.GetRegion
            args.MinecraftServer.GetName (gce.DeleteServer w g id args fuel h).2) ∧
    (∀ (w : hetzner.World) (args : ServerArgs) (fuel : Nat),
      (hetzner.CreateServer w args fuel).Emits
          (hetzner.Event.createsAs args.MinecraftServer.GetName) ∧
        (hetzner.CreateServer w args fuel).Reaches (fun e => e.isVolumeCreate = true) ∧
        (hetzner.CreateServer w args fuel).Reaches (fun e => e.isSshKeyCreate = true)) ∧
    (∀ (w : hetzner.World) (id : String) (args : ServerArgs) (fuel : Nat),
      (hetzner.DeleteServer w id args fuel).Emits
          (hetzner.Event.findsAs args.MinecraftServer.GetName) ∧
        ∀ h, (hetzner.DeleteServer w id args fuel h).1 = Exit.value () →
          hetzner.FindsAndDeletes args.MinecraftServer.GetName
            (hetzner.DeleteServer w id args fuel h).2) ∧
    (∀ n m : String, (n ++ "-vol" = m ++ "-vol" → n = m) ∧
      (n ++ "-fw" = m ++ "-fw" → n = m) ∧ (n ++ "-ssh" = m ++ "-ssh" → n = m)) ∧
    (∀ n : String, stripSuffix (n ++ "-vol") 4 = n ∧ stripSuffix (n ++ "-fw") 3 = n ∧
      stripSuffix (n ++ "-ssh") 4 = n) := by
  refine ⟨fun w g args fuel => ⟨gce.createServer_names w g args fuel, ?_, ?_⟩,
    fun w g id args fuel => ⟨gce.deleteServer_filters w g id args fuel,
      fun h hv => gce.deleteServer_lists_and_deletes w g id args fuel h () hv⟩,
    fun w args fuel => ⟨hetzner.createServer_createsAs w args fuel, ?_, ?_⟩,
    fun w id args fuel => ⟨hetzner.deleteServer_findsAs w id args fuel,
      fun h hv => hetzner.deleteServer_finds w id args fuel h () hv⟩,
    fun n m => ⟨append_suffix_injective n m _, append_suffix_injective n m _,
      append_suffix_injective n m _⟩,
    fun n => ⟨stripSuffix_append n "-vol", stripSuffix_append n "-fw",
      stripSuffix_append n "-ssh"⟩⟩
  · unfold gce.CreateServer
    refine Run.reaches_bind_right (fun _ => Run.reaches_bind_right (fun _ => ?_))
    exact Run.reaches_bind_left (Run.reaches_call _ _ (fun _ => rfl))
  · unfold gce.CreateServer
    refine Run.reaches_bind_right (fun _ => Run.reaches_bind_right (fun _ =>
      Run.reaches_bind_right (fun _ => Run.reaches_bind_right (fun _ =>
      Run.reaches_bind_right (fun _ => Run.reaches_bind_right (fun _ =>
      Run.reaches_bind_right (fun _ => ?_)))))))
    exact Run.reaches_bind_left (Run.reaches_call _ _ (fun _ => rfl))
  · unfold hetzner.CreateServer
    refine Run.reaches_bind_right (fun _ => Run.reaches_bind_right (fun _ =>
      Run.reaches_bind_right (fun _ => ?_)))
    exact Run.reaches_bind_left (Run.reaches_call _ _ (fun _ => rfl))
  · unfold hetzner.CreateServer
    refine Run.reaches_bind_right (fun _ => ?_)
    exact Run.reaches_bind_left (Run.reaches_call _ _ (fun _ => rfl))

/-- C6 at the scenario: the teardown of "srv1" returns a nil error in a GCE world that
holds the instance, the disk "srv1-vol" and the rule "srv1-fw", and in a Hetzner world
that holds the server, the volume and the key; both runs found the resources under the
derived names and deleted them. -/
theorem auxiliary_names_derive_from_server_name_witness :
    (gce.DeleteServer gce.populatedWorld gce.exampleGCE "1" exampleArgs 5 []).1
        = Exit.value () ∧
      gce.FindsAndDeletes gce.exampleGCE.projectID "fsn1" "srv1"
        (gce.DeleteServer gce.populatedWorld gce.exampleGCE "1" exampleArgs 5 []).2 ∧
      (hetzner.DeleteServer hetzner.orderedWorld "1" exampleArgs 5 []).1 = Exit.value () ∧
      hetzner.FindsAndDeletes "srv1"
        (hetzner.DeleteServer hetzner.orderedWorld "1" exampleArgs 5 []).2 :=
  ⟨rfl,
    (auxiliary_names_derive_from_server_name.2.1 gce.populatedWorld gce.exampleGCE "1"
      exampleArgs 5).2 [] rfl,
    rfl,
    (auxiliary_names_derive_from_server_name.2.2.2.1 hetzner.orderedWorld "1"
      exampleArgs 5).2 [] rfl⟩

/-! ## C7: `ListServer` of the Hetzner driver -/

theorem GoMap.visitOrder_perm (pick ks : List String) : (GoMap.visitOrder pick ks).Perm ks := by
  unfold GoMap.visitOrder
  split
  · assumption
  · exact List.Perm.refl ks

theorem Run.bind_fst {E α β : Type} (m : Run E α) (f : α → Run E β) (h : List E) (a : α)
    (hm : (m h).1 = Exit.value a) : ((m >>= f) h).1 = (f a (h ++ (m h).2)).1 := by
  simp [Run.bind_apply, Run.andThen, hm]

theorem hetzner.hetznerLabelsToTags_apply (w : hetzner.World) (label : GoMap String)
    (h : List hetzner.Event) :
    hetzner.hetznerLabelsToTags w label h =
      (Exit.value (Join (GoMap.visitOrder (w.mapOrder h label.keys) label.keys) ","),
        [hetzner.Event.mapRange label.keys
          (GoMap.visitOrder (w.mapOrder h label.keys) label.keys)]) := by
  have hr : hetzner.rangeKeys w label.keys h =
      (Exit.value (GoMap.visitOrder (w.mapOrder h label.keys) label.keys),
        [hetzner.Event.mapRange label.keys
          (GoMap.visitOrder (w.mapOrder h label.keys) label.keys)]) := rfl
  unfold hetzner.hetznerLabelsToTags
  rw [Run.bind_value _ _ h _ _ hr]
  simp [Run.pure_apply]

/-- The inner loop of `ListServer` over distinct keys appends one descriptor of the
server when the system tag is among the keys, and nothing otherwise. -/
theorem hetzner.scanLabels_apply (w : hetzner.World) (server : hetzner.Server) :
    ∀ (keys : List String) (result : List RessourceResults) (h : List hetzner.Event),
      keys.Nodup →
      ∃ extra, (hetzner.ListServer.scanLabels w server keys result h).1
          = Exit.value (result ++ extra) ∧
        ((InstanceTag ∈ keys ∧ ∃ d, extra = [d] ∧ hetzner.Describes d server) ∨
          (InstanceTag ∉ keys ∧ extra = [])) := by
  intro keys
  induction keys with
  | nil =>
    intro result h _
    exact ⟨[], by simp [hetzner.ListServer.scanLabels, Run.pure_apply],
      Or.inr ⟨by simp, rfl⟩⟩
  | cons key rest ih =>
    intro result h hnd
    obtain ⟨hkey, hrest⟩ := List.nodup_cons.1 hnd
    by_cases hk : key = InstanceTag
    · subst hk
      obtain ⟨extra, heq, hcase⟩ := ih
        (result ++ [⟨Itoa server.ID, server.Name, server.Datacenter.Location.Name,
          server.PublicNet.IPv4.IP.String,
          Join (GoMap.visitOrder (w.mapOrder h server.Labels.keys) server.Labels.keys) ","⟩])
        (h ++ [hetzner.Event.mapRange server.Labels.keys
          (GoMap.visitOrder (w.mapOrder h server.Labels.keys) server.Labels.keys)]) hrest
      have hextra : extra = [] := by
        rcases hcase with ⟨hin, _⟩ | ⟨_, he⟩
        · exact absurd hin hkey
        · exact he
      subst hextra
      refine ⟨[⟨Itoa server.ID, server.Name, server.Datacenter.Location.Name,
          server.PublicNet.IPv4.IP.String,
          Join (GoMap.visitOrder (w.mapOrder h server.Labels.keys) server.Labels.keys) ","⟩],
        ?_, Or.inl ⟨List.mem_cons_self _ _, _, rfl, rfl, rfl, rfl, rfl, _,
          GoMap.visitOrder_perm (w.mapOrder h server.Labels.keys) _, rfl⟩⟩
      unfold hetzner.ListServer.scanLabels
      simp only [if_true]
      rw [Run.bind_value _ _ h _ _ (hetzner.hetznerLabelsToTags_apply w server.Labels h)]
      simpa using heq
    · obtain ⟨extra, heq, hcase⟩ := ih result h hrest
      refine ⟨extra, ?_, ?_⟩
      · unfold hetzner.ListServer.scanLabels
        simp only [hk, if_false]
        exact heq
      · have hne : ¬ InstanceTag = key := fun hh => hk hh.symm
        rcases hcase with ⟨hin, hd⟩ | ⟨hnin, he⟩
        · exact Or.inl ⟨List.mem_cons_of_mem _ hin, hd⟩
        · exact Or.inr ⟨by simp [hne, hnin], he⟩

/-- The outer loop of `ListServer` appends one descriptor for each tagged server, in the
order of the servers. -/
theorem hetzner.collect_apply (w : hetzner.World) :
    ∀ (servers : List hetzner.Server) (result : List RessourceResults)
      (h : List hetzner.Event),
      ∃ ds, (hetzner.ListServer.collect w servers result h).1 = Exit.value (result ++ ds) ∧
        List.Forall₂ hetzner.Describes ds (servers.filter hetzner.Server.isTagged) := by
  intro servers
  induction servers with
  | nil =>
    intro result h
    exact ⟨[], by simp [hetzner.ListServer.collect, Run.pure_apply], by simp⟩
  | cons server rest ih =>
    intro result h
    have hperm := GoMap.visitOrder_perm (w.mapOrder h server.Labels.keys) server.Labels.keys
    have hnd : (GoMap.visitOrder (w.mapOrder h server.Labels.keys) server.Labels.keys).Nodup :=
      hperm.nodup_iff.2 server.Labels.nodupKeys
    have hr : hetzner.rangeKeys w server.Labels.keys h =
        (Exit.value (GoMap.visitOrder (w.mapOrder h server.Labels.keys) server.Labels.keys),
          [hetzner.Event.mapRange server.Labels.keys
            (GoMap.visitOrder (w.mapOrder h server.Labels.keys) server.Labels.keys)]) := rfl
    obtain ⟨extra, heq1, hcase⟩ := hetzner.scanLabels_apply w server _ result
      (h ++ [hetzner.Event.mapRange server.Labels.keys
        (GoMap.visitOrder (w.mapOrder h server.Labels.keys) server.Labels.keys)]) hnd
    obtain ⟨ds, heq2, hall⟩ := ih (result ++ extra)
      (h ++ [hetzner.Event.mapRange server.Labels.keys
        (GoMap.visitOrder (w.mapOrder h server.Labels.keys) server.Labels.keys)] ++
        (hetzner.ListServer.scanLabels w server
          (GoMap.visitOrder (w.mapOrder h server.Labels.keys) server.Labels.keys) result
          (h ++ [hetzner.Event.mapRange server.Labels.keys
            (GoMap.visitOrder (w.mapOrder h server.Labels.keys) server.Labels.keys)])).2)
    refine ⟨extra ++ ds, ?_, ?_⟩
    · unfold hetzner.ListServer.collect
      rw [Run.bind_value _ _ h _ _ hr]
      simp only []
      rw [Run.bind_fst _ _ _ _ heq1, heq2, List.append_assoc]
    · rcases hcase with ⟨hin, d, hd, hdesc⟩ | ⟨hnin, he⟩
      · have htag : server.isTagged = true := by
          simpa [hetzner.Server.isTagged] using (hperm.mem_iff).1 hin
        rw [List.filter_cons_of_pos htag, hd]
        exact List.Forall₂.cons hdesc hall
      · have htag : ¬ server.isTagged = true := by
          simpa [hetzner.Server.isTagged] using fun hh => hnin ((hperm.mem_iff).2 hh)
        rw [List.filter_cons_of_neg htag, he]
        exact hall

/-- C7.  For every list of servers the backend returns, in every history and whatever
order the runtime visits the labels in, the Hetzner `ListServer` returns, with a nil
error, one descriptor for each server whose labels have the system tag as a key, in the
order of the backend, and nothing else: the descriptors match the tagged servers one to
one, so there are as many descriptors as tagged servers. -/
theorem hetzner_list_is_tagged_servers (w : hetzner.World) (h : List hetzner.Event)
    (servers : List hetzner.Server) (hall : w.serverAll h = Except.ok servers) :
    ∃ ds, (hetzner.ListServer w h).1 = Exit.value ds ∧
      List.Forall₂ hetzner.Describes ds (servers.filter hetzner.Server.isTagged) ∧
      ds.length = (servers.filter hetzner.Server.isTagged).length := by
  obtain ⟨ds, heq, hdesc⟩ := hetzner.collect_apply w servers []
    (h ++ [hetzner.Event.serverAll (Except.ok servers)])
  refine ⟨ds, ?_, hdesc, hdesc.length_eq⟩
  unfold hetzner.ListServer
  rw [Run.bind_value _ _ h _ _ (Run.call_ok _ _ _ _ hall)]
  simpa using heq

/-- Witness of C7: three servers, two of them tagged, give exactly 2 descriptors. -/
theorem hetzner_list_is_tagged_servers_witness :
    hetzner.threeServersWorld.serverAll [] = Except.ok hetzner.threeServers ∧
    (∃ ds, (hetzner.ListServer hetzner.threeServersWorld []).1 = Exit.value ds ∧
      ds.length = 2) ∧
    (hetzner.ListServer hetzner.threeServersWorld []).1 =
      Exit.value [⟨"1", "srv1", "fsn1", "203.0.113.5", "minectl,java"⟩,
        ⟨"3", "srv3", "fsn1", "203.0.113.7", "minectl,bedrock"⟩] :=
  ⟨rfl,
    (hetzner_list_is_tagged_servers hetzner.threeServersWorld [] hetzner.threeServers rfl).imp
      (fun _ hds => ⟨hds.1, hds.2.2.trans (by decide)⟩),
    rfl⟩

/-! ## C8: the listing at the end of the GCE `CreateServer` -/

theorem gce.result_apply (items : List gce.Instance) (h : List gce.Event) :
    (gce.CreateServer.result items h).2 = [] ∧
    (items.length ≠ 1 →
      (gce.CreateServer.result items h).1 = Exit.error "no instances created") ∧
    (∀ inst d, items = [inst] → gce.resourceOf inst = some d →
      (gce.CreateServer.result items h).1 = Exit.value d) := by
  refine ⟨?_, ?_, ?_⟩
  · unfold gce.CreateServer.result
    split
    · rename_i inst
      cases gce.resourceOf inst <;> rfl
    · rfl
  · intro hlen
    unfold gce.CreateServer.result
    split
    · simp at hlen
    · rfl
  · intro inst d hitems hres
    subst hitems
    simp [gce.CreateServer.result, hres, Run.pure_apply]

theorem gce.listingDecides_bind {α : Type} (project zone filter : String)
    (m : Run gce.Event α) (f : α → Run gce.Event RessourceResults)
    (hm : m.Emits (fun e => e.isInstancesList = false))
    (hf : ∀ a, gce.ListingDecides project zone filter (f a)) :
    gce.ListingDecides project zone filter (m >>= f) := by
  intro h reply hmem
  have hcount : (m h).2.countP gce.Event.isInstancesList = 0 := by
    rw [List.countP_eq_zero]
    intro e he
    simp [hm h e he]
  rcases Run.bind_trace m f h with htr | ⟨a, _, heq⟩
  · rw [htr] at hmem
    have := hm h _ hmem
    simp [gce.Event.isInstancesList] at this
  · rw [heq] at hmem ⊢
    have hmem' : gce.Event.instancesList project zone filter reply ∈
        (f a (h ++ (m h).2)).2 := by
      rcases List.mem_append.1 hmem with h1 | h2
      · have := hm h _ h1
        simp [gce.Event.isInstancesList] at this
      · exact h2
    obtain ⟨c, l, r⟩ := hf a _ reply hmem'
    refine ⟨by simp only [List.countP_append, hcount, c, Nat.zero_add], ?_, r⟩
    have hne : (f a (h ++ (m h).2)).2 ≠ [] := List.ne_nil_of_mem hmem'
    simp only [List.getLast?_append_of_ne_nil _ hne, l]

theorem gce.listingDecides_last (w : gce.World) (project zone filter : String) :
    gce.ListingDecides project zone filter
      (Run.call (fun h => w.instancesList h project zone filter)
        (gce.Event.instancesList project zone filter) >>= gce.CreateServer.result) := by
  intro h reply hmem
  have htrace : ((Run.call (fun h => w.instancesList h project zone filter)
      (gce.Event.instancesList project zone filter) >>= gce.CreateServer.result) h).2 =
      [gce.Event.instancesList project zone filter (w.instancesList h project zone filter)] := by
    rcases Run.bind_trace (Run.call (fun h => w.instancesList h project zone filter)
      (gce.Event.instancesList project zone filter)) gce.CreateServer.result h
      with htr | ⟨a, _, heq⟩
    · rw [htr, Run.call_trace]
    · rw [heq, Run.call_trace, (gce.result_apply a _).1]
      rfl
  rw [htrace] at hmem ⊢
  simp only [List.mem_singleton, gce.Event.instancesList.injEq, true_and] at hmem
  subst hmem
  refine ⟨rfl, rfl, ?_, ?_, ?_⟩
  · intro e he
    rw [Run.bind_error _ _ h e _ (Run.call_error _ _ _ _ he)]
  · intro items hitems hlen
    rw [Run.bind_value _ _ h items _ (Run.call_ok _ _ _ _ hitems)]
    exact (gce.result_apply items _).2.1 hlen
  · intro inst d hitems hres
    rw [Run.bind_value _ _ h _ _ (Run.call_ok _ _ _ _ hitems)]
    exact (gce.result_apply [inst] _).2.2 inst d rfl hres

theorem gce.createServer_listingDecides (w : gce.World) (g : gce.GCE) (args : ServerArgs)
    (fuel : Nat) :
    gce.ListingDecides g.projectID args.MinecraftServer.GetRegion
      ("(name=" ++ args.MinecraftServer.GetName ++ ")") (gce.CreateServer w g args fuel) := by
  unfold gce.CreateServer
  repeat' first
    | exact gce.listingDecides_last w _ _ _
    | exact Run.emits_call _ _ (fun _ => rfl)
    | exact gce.emits_awaitOperation _ _ _ _ _ (fun _ => rfl) rfl
    | refine gce.listingDecides_bind _ _ _ _ _ ?_ (fun _ => ?_)

/-- Counterexample to C8 as stated.  All earlier steps succeed and the listing answers
exactly one item; the item has no tags (`instance.Tags` is nil, read at gce.go line 237),
or its network interface has no access config (indexed at line 231): `CreateServer`
returns neither a descriptor nor an error, the run ends in a panic after the listing. -/
theorem gce_create_panics_on_bare_item :
    (gce.CreateServer gce.untaggedListedWorld gce.exampleGCE exampleArgs 5 []).1 = Exit.panic ∧
    (gce.CreateServer gce.untaggedListedWorld gce.exampleGCE exampleArgs 5 []).2.getLast? =
      some (gce.Event.instancesList gce.exampleGCE.projectID "fsn1" "(name=srv1)"
        (Except.ok [gce.untaggedInstance])) ∧
    (gce.CreateServer gce.internalListedWorld gce.exampleGCE exampleArgs 5 []).1 = Exit.panic ∧
    (gce.CreateServer gce.internalListedWorld gce.exampleGCE exampleArgs 5 []).2.getLast? =
      some (gce.Event.instancesList gce.exampleGCE.projectID "fsn1" "(name=srv1)"
        (Except.ok [gce.internalInstance])) :=
  ⟨rfl, rfl, rfl, rfl⟩

/-- C8, amended.  In every run of the GCE `CreateServer` that reaches the listing of the
instances filtered by the name of the spec (all earlier steps succeeded): the listing is
issued once and nothing follows it; when it answers a number of items other than one,
`CreateServer` returns the error "no instances created" and no descriptor; when it
answers exactly one item that has a first network interface with a first access config
and tags that are not nil, `CreateServer` returns the descriptor of that item (its id,
name and zone, the address of that access config, its tag items joined by a comma) and a
nil error. -/
theorem gce_create_returns_by_listing (w : gce.World) (g : gce.GCE) (args : ServerArgs)
    (fuel : Nat) (h : List gce.Event) (reply : Except Err (List gce.Instance))
    (hreached : gce.Event.instancesList g.projectID args.MinecraftServer.GetRegion
      ("(name=" ++ args.MinecraftServer.GetName ++ ")") reply ∈
        (gce.CreateServer w g args fuel h).2) :
    (gce.CreateServer w g args fuel h).2.countP gce.Event.isInstancesList = 1 ∧
    (gce.CreateServer w g args fuel h).2.getLast? =
      some (gce.Event.instancesList g.projectID args.MinecraftServer.GetRegion
        ("(name=" ++ args.MinecraftServer.GetName ++ ")") reply) ∧
    (∀ items, reply = Except.ok items → items.length ≠ 1 →
      (gce.CreateServer w g args fuel h).1 = Exit.error "no instances created") ∧
    (∀ inst ni nis ac acs tags, reply = Except.ok [inst] →
      inst.NetworkInterfaces = ni :: nis → ni.AccessConfigs = ac :: acs →
      inst.Tags = some tags →
      (gce.CreateServer w g args fuel h).1 =
        Exit.value ⟨Itoa (gce.intOfUint64 inst.Id), inst.Name, inst.Zone, ac.NatIP,
          Join tags.Items ","⟩) := by
  obtain ⟨c, l, _, r1, r2⟩ := gce.createServer_listingDecides w g args fuel h reply hreached
  refine ⟨c, l, r1, ?_⟩
  intro inst ni nis ac acs tags hreply hni hac htags
  exact r2 inst _ hreply (by simp [gce.resourceOf, hni, hac, htags])

/-- Witness of C8, amended: a listing of one item gives the descriptor, listings of no
item and of two items give the error. -/
theorem gce_create_returns_by_listing_witness :
    (gce.CreateServer gce.oneListedWorld gce.exampleGCE exampleArgs 5 []).1 =
      Exit.value ⟨"4711", "srv1", "fsn1", "203.0.113.5", "minectl,java"⟩ ∧
    (gce.CreateServer gce.noneListedWorld gce.exampleGCE exampleArgs 5 []).1 =
      Exit.error "no instances created" ∧
    (gce.CreateServer gce.twoListedWorld gce.exampleGCE exampleArgs 5 []).1 =
      Exit.error "no instances created" :=
  ⟨(gce_create_returns_by_listing gce.oneListedWorld gce.exampleGCE exampleArgs 5 []
      (Except.ok [gce.runningInstance gce.exampleGCE exampleArgs "203.0.113.5"])
      (List.mem_of_getLast?_eq_some rfl)).2.2.2 _ _ _ _ _ _ rfl rfl rfl rfl,
    (gce_create_returns_by_listing gce.noneListedWorld gce.exampleGCE exampleArgs 5 []
      (Except.ok []) (List.mem_of_getLast?_eq_some rfl)).2.2.1 [] rfl (by decide),
    (gce_create_returns_by_listing gce.twoListedWorld gce.exampleGCE exampleArgs 5 []
      (Except.ok [gce.runningInstance gce.exampleGCE exampleArgs "203.0.113.5",
        gce.runningInstance gce.exampleGCE exampleArgs "203.0.113.6"])
      (List.mem_of_getLast?_eq_some rfl)).2.2.1 _ rfl (by decide)⟩

/-! ## C9: the volume is created before the instance -/

/-- A trace `d1 ++ d2` cut before an entry that is not in `d1` is cut inside `d2`. -/
theorem split_after_left {E : Type} (d1 d2 pre suf : List E) (x : E)
    (h : d1 ++ d2 = pre ++ x :: suf) (hx : x ∉ d1) :
    ∃ pre2, pre = d1 ++ pre2 ∧ d2 = pre2 ++ x :: suf := by
  rcases List.append_eq_append_iff.1 h with ⟨a, ha, hb⟩ | ⟨c, hc, hd⟩
  · exact ⟨a, ha, hb⟩
  · cases c with
    | nil =>
      refine ⟨[], by simpa using hc.symm, by simpa using hd.symm⟩
    | cons y c =>
      simp only [List.cons_append, List.cons.injEq] at hd
      exact absurd (by rw [hc, hd.1]; simp) hx

namespace Run

variable {E α β : Type}

theorem after_of_emits {m : Run E α} {B : E → Prop} {G : List E → E → Prop}
    (hm : m.Emits (fun e => ¬ B e)) : m.After B G := by
  intro h pre x suf htr hB
  exact absurd hB (hm h x (by rw [htr]; simp))

/-- Sequencing, when `m` adds no entry that satisfies `B`. -/
theorem after_bind {m : Run E α} {f : α → Run E β} {B : E → Prop}
    {G : List E → E → Prop} (G2 : α → List E → E → Prop)
    (hm : m.Emits (fun e => ¬ B e)) (hf : ∀ a, (f a).After B (G2 a))
    (hG : ∀ h a pre x, (m h).1 = Exit.value a → G2 a pre x → G ((m h).2 ++ pre) x) :
    (m >>= f).After B G := by
  intro h pre x suf htr hB
  rcases bind_trace m f h with hstop | ⟨a, ha, heq⟩
  · rw [hstop] at htr
    exact absurd hB (hm h x (by rw [htr]; simp))
  · rw [heq] at htr
    obtain ⟨pre2, hpre, hd2⟩ := split_after_left _ _ _ _ _ htr (fun hx => hm h x hx hB)
    rw [hpre]
    exact hG h a pre2 x ha (hf a _ pre2 x suf hd2 hB)

/-- Sequencing, when `m` adds no entry that satisfies `B` and a run of `m` that
ends with a value has added what `G` asks for. -/
theorem after_bind_reached {m : Run E α} {f : α → Run E β} {B : E → Prop}
    {G : List E → E → Prop} (hm : m.Emits (fun e => ¬ B e))
    (hG : ∀ h a pre x, (m h).1 = Exit.value a → G ((m h).2 ++ pre) x) :
    (m >>= f).After B G := by
  intro h pre x suf htr hB
  rcases bind_trace m f h with hstop | ⟨a, ha, heq⟩
  · rw [hstop] at htr
    exact absurd hB (hm h x (by rw [htr]; simp))
  · rw [heq] at htr
    obtain ⟨pre2, hpre, _⟩ := split_after_left _ _ _ _ _ htr (fun hx => hm h x hx hB)
    rw [hpre]
    exact hG h a pre2 x ha

/-- A call followed by runs that add no entry satisfying `B`: the only such entry can be
the call itself, at the head of the trace. -/
theorem after_call_bind {f : α → Run E β} {B : E → Prop} {G : List E → E → Prop}
    (reply : List E → Except Err α) (ev : Except Err α → E)
    (hf : ∀ a, (f a).Emits (fun e => ¬ B e)) (hG : ∀ r, G [] (ev r)) :
    (call reply ev >>= f).After B G := by
  intro h pre x suf htr hB
  have hhead : ∃ rest, ((call reply ev >>= f) h).2 = ev (reply h) :: rest ∧
      ∀ e ∈ rest, ¬ B e := by
    rcases bind_trace (call reply ev) f h with hstop | ⟨a, _, heq⟩
    · exact ⟨[], by rw [hstop, call_trace], by simp⟩
    · exact ⟨_, by rw [heq, call_trace]; rfl, hf a _⟩
  obtain ⟨rest, hrest, hno⟩ := hhead
  rw [hrest] at htr
  cases pre with
  | nil =>
    simp only [List.nil_append, List.cons.injEq] at htr
    rw [← htr.1]
    exact hG _
  | cons y pre =>
    simp only [List.cons_append, List.cons.injEq] at htr
    exact absurd hB (hno x (by rw [htr.2]; simp))

end Run

/-- A wait that ends with a value has fetched an object with the awaited status. -/
theorem reaches_awaitStatus {E R : Type} (reply : List E → Except Err R)
    (ev : Except Err R → E) (status : R → Option String) (done : String) (p : E) :
    ∀ fuel, (awaitStatus (Run.call reply ev >>= fun r => pure (status r)) done (Run.emit p)
      fuel).Reaches (fun e => ∃ r, e = ev (Except.ok r) ∧ status r = some done) := by
  intro fuel
  induction fuel with
  | zero =>
    intro h a ha
    simp [awaitStatus_zero] at ha
  | succ k ih =>
    intro h a ha
    cases hr : reply h with
    | error e =>
      rw [awaitStatus_error _ _ _ _ h [ev (Except.error e)] e (by simp [fetch_apply, hr])] at ha
      simp at ha
    | ok r =>
      cases hs : status r with
      | none =>
        rw [awaitStatus_nil _ _ _ _ h [ev (Except.ok r)] (by simp [fetch_apply, hr, hs])] at ha
        simp at ha
      | some s =>
        by_cases hd : s = done
        · rw [awaitStatus_done _ _ _ _ h [ev (Except.ok r)]
            (by simp [fetch_apply, hr, hs, hd])]
          exact ⟨_, List.mem_singleton_self _, r, rfl, by rw [hs, hd]⟩
        · rw [awaitStatus_pending _ _ _ _ h [ev (Except.ok r)] s
            (by simp [fetch_apply, hr, hs]) hd] at ha ⊢
          obtain ⟨e, he, hp⟩ := ih _ a ha
          exact ⟨e, List.mem_append_right _ (List.mem_cons_of_mem _ he), hp⟩

theorem gce.volumeReady_mono (project zone n : String) (d pre : List gce.Event)
    (hpre : gce.VolumeReady project zone n pre) : gce.VolumeReady project zone n (d ++ pre) := by
  obtain ⟨disk, diskOp, h1, h2, done, h3, h4⟩ := hpre
  exact ⟨disk, diskOp, List.mem_append_right _ h1, h2, done, List.mem_append_right _ h3, h4⟩

theorem gce.insert_after_volume (w : gce.World) (g : gce.GCE) (args : ServerArgs)
    (fuel : Nat) :
    (gce.CreateServer w g args fuel).After (fun e => e.isInstancesInsert = true)
      (fun pre _ => gce.VolumeReady g.projectID args.MinecraftServer.GetRegion
        args.MinecraftServer.GetName pre) := by
  unfold gce.CreateServer
  refine Run.after_bind (fun _ pre _ => gce.VolumeReady g.projectID
      args.MinecraftServer.GetRegion args.MinecraftServer.GetName pre)
    (Run.emits_call _ _ (fun _ => by simp [gce.Event.isInstancesInsert])) (fun _ => ?_)
    (fun _ _ pre _ _ hpre => gce.volumeReady_mono _ _ _ _ pre hpre)
  refine Run.after_bind (fun _ pre _ => gce.VolumeReady g.projectID
      args.MinecraftServer.GetRegion args.MinecraftServer.GetName pre)
    (Run.emits_call _ _ (fun _ => by simp [gce.Event.isInstancesInsert])) (fun _ => ?_)
    (fun _ _ pre _ _ hpre => gce.volumeReady_mono _ _ _ _ pre hpre)
  refine Run.after_bind (fun diskOp pre _ => gce.OperationDone g.projectID
      args.MinecraftServer.GetRegion diskOp.Name pre)
    (Run.emits_call _ _ (fun _ => by simp [gce.Event.isInstancesInsert])) (fun diskOp => ?_) ?_
  · refine Run.after_bind_reached ?_ ?_
    · exact gce.emits_awaitOperation _ _ _ _ _
        (fun _ => by simp [gce.Event.isInstancesInsert])
        (by simp [gce.Event.isInstancesInsert])
    · intro h a pre _ ha
      obtain ⟨e, he, done, hdone, hstatus⟩ :=
        reaches_awaitStatus (fun H => w.zoneOperationsGet H g.projectID
          args.MinecraftServer.GetRegion diskOp.Name)
          (gce.Event.zoneOperationsGet g.projectID args.MinecraftServer.GetRegion diskOp.Name)
          (fun op => some op.Status) "DONE" (gce.Event.sleep 2) fuel h a ha
      refine ⟨done, List.mem_append_left _ ?_, by simpa using hstatus⟩
      rw [← hdone]
      exact he
  · intro h diskOp pre _ ha hpre
    obtain ⟨_, htr⟩ := Run.call_value _ _ h diskOp ha
    obtain ⟨done, hmem, hstatus⟩ := hpre
    rw [htr]
    exact ⟨_, diskOp, List.mem_append_left _ (List.mem_singleton_self _), rfl, done,
      List.mem_append_right _ hmem, hstatus⟩

theorem hetzner.createServer_after_volume (w : hetzner.World) (args : ServerArgs) (fuel : Nat) :
    (hetzner.CreateServer w args fuel).After (fun e => e.isServerCreate = true)
      (hetzner.VolumeCreated args.MinecraftServer.GetName) := by
  have mono : ∀ (d pre : List hetzner.Event) (x : hetzner.Event),
      hetzner.VolumeCreated args.MinecraftServer.GetName pre x →
      hetzner.VolumeCreated args.MinecraftServer.GetName (d ++ pre) x := by
    intro d pre x ⟨opts, res, h1, h2, h3⟩
    exact ⟨opts, res, List.mem_append_right _ h1, h2, h3⟩
  unfold hetzner.CreateServer
  refine Run.after_bind (fun _ => hetzner.VolumeCreated args.MinecraftServer.GetName)
    (Run.emits_call _ _ (fun _ => by simp [hetzner.Event.isServerCreate])) (fun _ => ?_)
    (fun _ _ pre x _ hpre => mono _ pre x hpre)
  refine Run.after_bind (fun _ => hetzner.VolumeCreated args.MinecraftServer.GetName)
    (Run.emits_call _ _ (fun _ => by simp [hetzner.Event.isServerCreate])) (fun key => ?_)
    (fun _ _ pre x _ hpre => mono _ pre x hpre)
  refine Run.after_bind (fun _ => hetzner.VolumeCreated args.MinecraftServer.GetName)
    (Run.emits_call _ _ (fun _ => by simp [hetzner.Event.isServerCreate])) (fun location => ?_)
    (fun _ _ pre x _ hpre => mono _ pre x hpre)
  refine Run.after_bind (fun (volume : hetzner.VolumeCreateResult) _ x =>
      x.attachedVolumes = [volume.Volume])
    (Run.emits_call _ _ (fun _ => by simp [hetzner.Event.isServerCreate])) (fun volume => ?_) ?_
  · refine Run.after_bind (fun _ _ x => x.attachedVolumes = [volume.Volume])
      (Run.emits_call _ _ (fun _ => by simp [hetzner.Event.isServerCreate])) (fun userData => ?_)
      (fun _ _ _ _ _ hx => hx)
    refine Run.after_bind (fun _ _ x => x.attachedVolumes = [volume.Volume])
      (Run.emits_call _ _ (fun _ => by simp [hetzner.Event.isServerCreate])) (fun image => ?_)
      (fun _ _ _ _ _ hx => hx)
    refine Run.after_bind (fun _ _ x => x.attachedVolumes = [volume.Volume])
      (Run.emits_call _ _ (fun _ => by simp [hetzner.Event.isServerCreate])) (fun plan => ?_)
      (fun _ _ _ _ _ hx => hx)
    refine Run.after_call_bind _ _ (fun created => ?_) (fun _ => rfl)
    unfold hetzner.hetznerLabelsToTags
    repeat' first
      | exact Run.emits_pure _
      | exact hetzner.emits_awaitServer _ _ _
          (fun _ => by simp [hetzner.Event.isServerCreate])
          (by simp [hetzner.Event.isServerCreate])
      | exact hetzner.emits_rangeKeys _ _ (fun _ _ => by simp [hetzner.Event.isServerCreate])
      | refine Run.emits_bind ?_ (fun _ => ?_)
  · intro h volume pre x ha hx
    obtain ⟨_, htr⟩ := Run.call_value _ _ h volume ha
    rw [htr]
    exact ⟨_, volume, List.mem_append_left _ (List.mem_singleton_self _), rfl, hx⟩

theorem hetzner.createServer_no_action_fetch (w : hetzner.World) (args : ServerArgs)
    (fuel : Nat) :
    (hetzner.CreateServer w args fuel).Emits (fun e => e.isActionGet = false) := by
  unfold hetzner.CreateServer hetzner.hetznerLabelsToTags
  repeat' first
    | exact Run.emits_pure _
    | exact Run.emits_call _ _ (fun _ => rfl)
    | exact hetzner.emits_awaitServer _ _ _ (fun _ => rfl) rfl
    | exact hetzner.emits_rangeKeys _ _ (fun _ _ => rfl)
    | refine Run.emits_bind ?_ (fun _ => ?_)

/-- Counterexample to C9 as stated.  In this run of the Hetzner `CreateServer` the answer
of `Volume.Create` carries the create action still "running"; the server is created and
the descriptor returned, and the trace holds no status fetch of an action at all. -/
theorem hetzner_server_created_without_volume_wait :
    (hetzner.CreateServer hetzner.lateAddressWorld exampleArgs 5 []).2.filter
        hetzner.Event.isVolumeCreate =
      [hetzner.Event.volumeCreate ⟨"srv1-vol", 20, some ⟨"fsn1"⟩, some "ext4"⟩
        (Except.ok ⟨⟨21, "srv1-vol"⟩, some ⟨31, "running"⟩⟩)] ∧
    (hetzner.CreateServer hetzner.lateAddressWorld exampleArgs 5 []).2.countP
        hetzner.Event.isServerCreate = 1 ∧
    (hetzner.CreateServer hetzner.lateAddressWorld exampleArgs 5 []).2.countP
        hetzner.Event.isActionGet = 0 ∧
    (hetzner.CreateServer hetzner.lateAddressWorld exampleArgs 5 []).1 =
      Exit.value ⟨"1", "srv1", "fsn1", "<nil>", "minectl,java"⟩ :=
  ⟨rfl, rfl, rfl, rfl⟩

/-- C9, amended.  GCE: in every run of `CreateServer`, before an instance insert the
trace holds the insert of the disk `n-vol` and a status fetch of the operation of that
insert that reported "DONE".  Hetzner: in every run of `CreateServer`, before a server
create the trace holds the creation of the volume `n-vol`, answered without error, and
the server create attaches the volume of that answer; the driver fetches the status of
no action, so the volume create action is not waited for. -/
theorem instance_created_after_volume :
    (∀ (w : gce.World) (g : gce.GCE) (args : ServerArgs) (fuel : Nat)
        (h pre : List gce.Event) (x : gce.Event) (suf : List gce.Event),
        (gce.CreateServer w g args fuel h).2 = pre ++ x :: suf → x.isInstancesInsert = true →
        gce.VolumeReady g.projectID args.MinecraftServer.GetRegion
          args.MinecraftServer.GetName pre) ∧
    (∀ (w : hetzner.World) (args : ServerArgs) (fuel : Nat)
        (h pre : List hetzner.Event) (x : hetzner.Event) (suf : List hetzner.Event),
        (hetzner.CreateServer w args fuel h).2 = pre ++ x :: suf → x.isServerCreate = true →
        hetzner.VolumeCreated args.MinecraftServer.GetName pre x) ∧
    (∀ (w : hetzner.World) (args : ServerArgs) (fuel : Nat) (h : List hetzner.Event),
        ∀ e ∈ (hetzner.CreateServer w args fuel h).2, e.isActionGet = false) :=
  ⟨fun w g args fuel => gce.insert_after_volume w g args fuel,
    fun w args fuel => hetzner.createServer_after_volume w args fuel,
    fun w args fuel => hetzner.createServer_no_action_fetch w args fuel⟩

/-- Witness of C9, amended: the GCE run of the scenario inserts the instance as its
eighth call, after the disk insert and a fetch that reported "DONE"; the Hetzner run
creates the server as its eighth call, after the volume. -/
theorem instance_created_after_volume_witness :
    gce.VolumeReady "minectl-project" "fsn1" "srv1"
      ((gce.CreateServer gce.oneListedWorld gce.exampleGCE exampleArgs 5 []).2.take 7) ∧
    hetzner.VolumeCreated "srv1"
      ((hetzner.CreateServer hetzner.lateAddressWorld exampleArgs 5 []).2.take 7)
      (((hetzner.CreateServer hetzner.lateAddressWorld exampleArgs 5 []).2).getD 7
        (hetzner.Event.sleep 0)) :=
  ⟨instance_created_after_volume.1 gce.oneListedWorld gce.exampleGCE exampleArgs 5 []
      ((gce.CreateServer gce.oneListedWorld gce.exampleGCE exampleArgs 5 []).2.take 7)
      (((gce.CreateServer gce.oneListedWorld gce.exampleGCE exampleArgs 5 []).2).getD 7
        (gce.Event.sleep 0))
      ((gce.CreateServer gce.oneListedWorld gce.exampleGCE exampleArgs 5 []).2.drop 8)
      rfl rfl,
    instance_created_after_volume.2.1 hetzner.lateAddressWorld exampleArgs 5 []
      ((hetzner.CreateServer hetzner.lateAddressWorld exampleArgs 5 []).2.take 7)
      (((hetzner.CreateServer hetzner.lateAddressWorld exampleArgs 5 []).2).getD 7
        (hetzner.Event.sleep 0))
      ((hetzner.CreateServer hetzner.lateAddressWorld exampleArgs 5 []).2.drop 8)
      rfl rfl⟩

/-! ## C10: the descriptor of the scenario -/

theorem join_pair (a b : String) : Join [a, b] "," = a ++ "," ++ b := by
  simp [Join, String.intercalate, String.intercalate.go]

theorem perm_pair_cases (a b : String) (l : List String) (h : l.Perm [a, b]) :
    l = [a, b] ∨ l = [b, a] := by
  have hl := h.length_eq
  match l, hl with
  | [x, y], _ =>
    have hx : x ∈ [a, b] := h.subset (by simp)
    have hy : y ∈ [a, b] := h.subset (by simp)
    have ha : a ∈ [x, y] := h.symm.subset (by simp)
    have hb : b ∈ [x, y] := h.symm.subset (by simp)
    simp at hx hy ha hb
    rcases hx with rfl | rfl <;> rcases hy with rfl | rfl
    · rcases hb with rfl | rfl <;> simp
    · simp
    · simp
    · rcases ha with rfl | rfl <;> simp

theorem GoMap.keys_literal2 (k1 v1 k2 v2 : String) (hne : k2 ≠ k1) :
    (GoMap.literal2 k1 v1 k2 v2).keys = [k1, k2] := by
  have hne' : ¬ k1 = k2 := fun h => hne h.symm
  simp [GoMap.literal2, GoMap.insert, GoMap.empty, GoMap.keys, GoMap.insertEntry, hne']

theorem GoMap.visitOrder_of_perm (pick ks : List String) (h : pick.Perm ks) :
    GoMap.visitOrder pick ks = pick := by
  simp [GoMap.visitOrder, h]

/-- A run of the Hetzner `CreateServer` that returns a descriptor created a server, and
the descriptor describes the server of the answer of that call. -/
theorem hetzner.createServer_returns (w : hetzner.World) (args : ServerArgs) (fuel : Nat) :
    (hetzner.CreateServer w args fuel).Returns hetzner.DescribesCreated := by
  have mono : ∀ (d : RessourceResults) (t1 t2 : List hetzner.Event),
      hetzner.DescribesCreated d t2 → hetzner.DescribesCreated d (t1 ++ t2) := by
    intro d t1 t2 ⟨opts, s, hmem, hd⟩
    exact ⟨opts, s, List.mem_append_right _ hmem, hd⟩
  unfold hetzner.CreateServer
  refine Run.returns_bind (fun _ => hetzner.DescribesCreated) (fun pub => ?_)
    (fun _ _ b d _ hd => mono b _ d hd)
  refine Run.returns_bind (fun _ => hetzner.DescribesCreated) (fun key => ?_)
    (fun _ _ b d _ hd => mono b _ d hd)
  refine Run.returns_bind (fun _ => hetzner.DescribesCreated) (fun location => ?_)
    (fun _ _ b d _ hd => mono b _ d hd)
  refine Run.returns_bind (fun _ => hetzner.DescribesCreated) (fun volume => ?_)
    (fun _ _ b d _ hd => mono b _ d hd)
  refine Run.returns_bind (fun _ => hetzner.DescribesCreated) (fun userData => ?_)
    (fun _ _ b d _ hd => mono b _ d hd)
  refine Run.returns_bind (fun _ => hetzner.DescribesCreated) (fun image => ?_)
    (fun _ _ b d _ hd => mono b _ d hd)
  refine Run.returns_bind (fun _ => hetzner.DescribesCreated) (fun plan => ?_)
    (fun _ _ b d _ hd => mono b _ d hd)
  refine Run.returns_bind (fun (created : hetzner.ServerCreateResult) d _ =>
      hetzner.Describes d created.Server) (fun created => ?_) ?_
  · refine Run.returns_bind (fun _ d _ => hetzner.Describes d created.Server) (fun _ => ?_)
      (fun _ _ _ _ _ hd => hd)
    refine Run.returns_bind (fun (tags : String) d _ => d = ⟨Itoa created.Server.ID,
        created.Server.Name, created.Server.Datacenter.Location.Name,
        created.Server.PublicNet.IPv4.IP.String, tags⟩) (fun tags => ?_) ?_
    · exact Run.returns_pure _ rfl
    · intro h tags d _ htags hd
      rw [hetzner.hetznerLabelsToTags_apply] at htags
      simp only [Exit.value.injEq] at htags
      subst hd
      exact ⟨rfl, rfl, rfl, rfl, _, GoMap.visitOrder_perm (w.mapOrder h _) _, htags.symm⟩
  · intro h created d t hcreated hd
    obtain ⟨_, htr⟩ := Run.call_value _ _ h created hcreated
    rw [htr]
    exact ⟨_, created.Server, List.mem_append_left _ (List.mem_singleton_self _), hd⟩

/-- Counterexample to C10 as stated.  The Hetzner stub returns the running instance of
the scenario with the labels `CreateServer` set; the runtime visits the label map with
"java" first; the descriptor carries the tags "java,minectl", not "minectl,java". -/
theorem hetzner_tags_follow_map_iteration :
    (hetzner.serverCreateOpts exampleArgs none none none ⟨11, "srv1-ssh", ""⟩
      ⟨⟨21, "srv1-vol"⟩, none⟩ "").Labels = hetzner.exampleLabels ∧
    (hetzner.CreateServer hetzner.reversedWorld exampleArgs 5 []).1 =
      Exit.value ⟨"1", "srv1", "fsn1", "203.0.113.5", "java,minectl"⟩ ∧
    (hetzner.hetznerLabelsToTags hetzner.reversedWorld hetzner.exampleLabels []).1 =
      Exit.value "java,minectl" ∧
    "java,minectl" ≠ InstanceTag ++ "," ++ exampleArgs.MinecraftServer.GetEdition :=
  ⟨rfl, rfl, rfl, by decide⟩

/-- C10, amended.  GCE: when `CreateServer` returns a descriptor and the listing had
answered one instance named `n`, in zone `r`, with the public address `p` and the tags
`CreateServer` set, the descriptor has name `n`, region `r`, address `p` and the tags
`InstanceTag,e`, system tag first.  Hetzner: when `CreateServer` returns a descriptor and
every answer of the run that carries the server, the answer of `Server.Create` as well as
each answer of `Server.GetByID`, reports it with the name `n`, the location `r`, the
address `p` and the labels `CreateServer` set, for an edition `e` other than the system
tag, the descriptor has name `n`, region `r`, address `p`, and its tags are
`InstanceTag,e` or `e,InstanceTag`.  `hetznerLabelsToTags` joins the label keys in the
order in which the runtime visits the map: always some rearrangement of the keys, and any
rearrangement for a suitable runtime. -/
theorem scenario_descriptor :
    (∀ (w : gce.World) (g : gce.GCE) (args : ServerArgs) (fuel : Nat) (h : List gce.Event)
        (d : RessourceResults) (inst : gce.Instance) (ni : gce.NetworkInterface)
        (nis : List gce.NetworkInterface) (ac : gce.AccessConfig) (acs : List gce.AccessConfig)
        (userData : String),
        (gce.CreateServer w g args fuel h).1 = Exit.value d →
        gce.Event.instancesList g.projectID args.MinecraftServer.GetRegion
          ("(name=" ++ args.MinecraftServer.GetName ++ ")") (Except.ok [inst]) ∈
            (gce.CreateServer w g args fuel h).2 →
        inst.Name = args.MinecraftServer.GetName → inst.Zone = args.MinecraftServer.GetRegion →
        inst.NetworkInterfaces = ni :: nis → ni.AccessConfigs = ac :: acs →
        inst.Tags = (gce.newInstance g args userData).Tags →
        d.Name = args.MinecraftServer.GetName ∧ d.Region = args.MinecraftServer.GetRegion ∧
          d.PublicIP = ac.NatIP ∧
          d.Tags = InstanceTag ++ "," ++ args.MinecraftServer.GetEdition) ∧
    (∀ (w : hetzner.World) (args : ServerArgs) (fuel : Nat) (h : List hetzner.Event)
        (d : RessourceResults) (r p : String),
        (hetzner.CreateServer w args fuel h).1 = Exit.value d →
        (∀ ev ∈ (hetzner.CreateServer w args fuel h).2,
          ev.answersStub args.MinecraftServer.GetName r p args.MinecraftServer.GetEdition) →
        args.MinecraftServer.GetEdition ≠ InstanceTag →
        d.Name = args.MinecraftServer.GetName ∧ d.Region = r ∧ d.PublicIP = p ∧
          (d.Tags = InstanceTag ++ "," ++ args.MinecraftServer.GetEdition ∨
            d.Tags = args.MinecraftServer.GetEdition ++ "," ++ InstanceTag)) ∧
    (∀ (w : hetzner.World) (label : GoMap String) (h : List hetzner.Event),
        ∃ order : List String, order.Perm label.keys ∧
          (hetzner.hetznerLabelsToTags w label h).1 = Exit.value (Join order ",")) ∧
    (∀ (label : GoMap String) (order : List String), order.Perm label.keys →
        ∃ w : hetzner.World,
          (hetzner.hetznerLabelsToTags w label []).1 = Exit.value (Join order ",")) := by
  refine ⟨?_, ?_, ?_, ?_⟩
  · intro w g args fuel h d inst ni nis ac acs userData hd hmem hname hzone hni hac htags
    obtain ⟨_, _, _, _, hone⟩ := gce.createServer_listingDecides w g args fuel h _ hmem
    have hres : gce.resourceOf inst = some ⟨Itoa (gce.intOfUint64 inst.Id), inst.Name, inst.Zone,
        ac.NatIP, Join [InstanceTag, args.MinecraftServer.GetEdition] ","⟩ := by
      simp [gce.resourceOf, hni, hac, htags, gce.newInstance]
    have hval := hone inst _ rfl hres
    rw [hd] at hval
    simp only [Exit.value.injEq] at hval
    subst hval
    exact ⟨hname, hzone, rfl, join_pair _ _⟩
  · intro w args fuel h d r p hd hstub hne
    obtain ⟨opts, s, hmem, hid, hname, hregion, hip, order, hperm, htags⟩ :=
      hetzner.createServer_returns w args fuel h d hd
    obtain ⟨sname, sregion, sip, slabels⟩ := hstub _ hmem
    refine ⟨hname.trans sname, hregion.trans sregion, hip.trans sip, ?_⟩
    rw [slabels, GoMap.keys_literal2 _ _ _ _ hne] at hperm
    rcases perm_pair_cases _ _ _ hperm with ho | ho
    · exact Or.inl (by rw [htags, ho, join_pair])
    · exact Or.inr (by rw [htags, ho, join_pair])
  · intro w label h
    exact ⟨_, GoMap.visitOrder_perm (w.mapOrder h label.keys) label.keys,
      by rw [hetzner.hetznerLabelsToTags_apply]⟩
  · intro label order hperm
    refine ⟨{ hetzner.emptyWorld with mapOrder := fun _ _ => order }, ?_⟩
    rw [hetzner.hetznerLabelsToTags_apply]
    simp only [GoMap.visitOrder_of_perm order label.keys hperm]

theorem hetzner.orderedWorld_trace :
    (hetzner.CreateServer hetzner.orderedWorld exampleArgs 5 []).2 = hetzner.orderedTrace :=
  rfl

/-- Witness of C10, amended: the scenario of the spec.  The GCE driver returns name
"srv1", region "fsn1", address 203.0.113.5 and tags "minectl,java"; so does the Hetzner
driver when the runtime visits the label "minectl" first. -/
theorem scenario_descriptor_witness :
    ((gce.CreateServer gce.oneListedWorld gce.exampleGCE exampleArgs 5 []).1 =
        Exit.value ⟨"4711", "srv1", "fsn1", "203.0.113.5", "minectl,java"⟩ ∧
      "srv1" = exampleArgs.MinecraftServer.GetName ∧
      "fsn1" = exampleArgs.MinecraftServer.GetRegion ∧
      "203.0.113.5" = "203.0.113.5" ∧
      "minectl,java" = InstanceTag ++ "," ++ exampleArgs.MinecraftServer.GetEdition) ∧
    ((hetzner.CreateServer hetzner.orderedWorld exampleArgs 5 []).1 =
        Exit.value ⟨"1", "srv1", "fsn1", "203.0.113.5", "minectl,java"⟩ ∧
      "srv1" = exampleArgs.MinecraftServer.GetName ∧ "fsn1" = "fsn1" ∧
      "203.0.113.5" = "203.0.113.5" ∧
      ("minectl,java" = InstanceTag ++ "," ++ exampleArgs.MinecraftServer.GetEdition ∨
        "minectl,java" = exampleArgs.MinecraftServer.GetEdition ++ "," ++ InstanceTag)) :=
  ⟨⟨rfl, scenario_descriptor.1 gce.oneListedWorld gce.exampleGCE exampleArgs 5 []
      ⟨"4711", "srv1", "fsn1", "203.0.113.5", "minectl,java"⟩
      (gce.runningInstance gce.exampleGCE exampleArgs "203.0.113.5")
      ⟨[⟨"ONE_TO_ONE_NAT", "External NAT", "203.0.113.5"⟩], "/global/networks/default"⟩ []
      ⟨"ONE_TO_ONE_NAT", "External NAT", "203.0.113.5"⟩ [] "#!/bin/bash"
      rfl (List.mem_of_getLast?_eq_some rfl) rfl rfl rfl rfl rfl⟩,
    ⟨rfl, scenario_descriptor.2.1 hetzner.orderedWorld exampleArgs 5 []
      ⟨"1", "srv1", "fsn1", "203.0.113.5", "minectl,java"⟩ "fsn1" "203.0.113.5" rfl
      (fun ev hmem => by
        rw [hetzner.orderedWorld_trace] at hmem
        simp only [hetzner.orderedTrace, List.mem_cons, List.mem_singleton,
          List.not_mem_nil, or_false] at hmem
        rcases hmem with rfl | rfl | rfl | rfl | rfl | rfl | rfl | rfl | rfl | rfl
        all_goals first | exact True.intro | exact ⟨rfl, rfl, rfl, rfl⟩)
      (by decide)⟩⟩

end Minectl
